import Mathlib

/-!
# DASH: one-dimensional block pattern, asynchronous global references and
# the collective allocator

A shallow embedding of

* `dash/include/dash/pattern/BlockPattern1D.h`  (`BlockPattern<1>`),
* `dash/include/dash/GlobAsyncRef.h`            (`GlobAsyncRef<T>`),
* `dash/include/dash/allocator/CollectiveAllocator.h` (`CollectiveAllocator<T>`),

followed by the properties proved about them.

Conventions of the embedding:

* `SizeType` (unsigned) and the non-negative values of `IndexType` and of
  `team_unit_t` are natural numbers.  Upper overflow of sums and products is
  not modelled; the wrap below zero of an unsigned subtraction is, see `usub`.
* Member functions take the object as their first argument; a constructor is
  a function that fills the members in declaration order.
* Memory and the one-sided transport are explicit state: every transport call
  is appended to a log.
-/

namespace dash

/-! ## Machine arithmetic -/

/-- Bit width of `SizeType`, the unsigned counterpart of the default 64 bit
`IndexType`. -/
def SIZE_BITS : Nat := 64

/-- Unsigned subtraction `a - b` on `SizeType`: the difference when `b ≤ a`,
and the value wrapped around `2 ^ SIZE_BITS` when the subtraction goes below
zero. -/
def usub (a b : Nat) : Nat :=
  if b ≤ a then a - b else a + 2 ^ SIZE_BITS - b

/-! ## Distribution (`dash/Distribution.h`, `dash/internal/Math.h`) -/

/-- Distribution of one dimension: `NONE`, `BLOCKED`, `CYCLIC`,
`BLOCKCYCLIC(b)` or `TILE(b)`. -/
inductive Distribution where
  | NONE
  | BLOCKED
  | CYCLIC
  | BLOCKCYCLIC (blocksz : Nat)
  | TILE (blocksz : Nat)
  deriving DecidableEq, Repr

/-- Modelled from the spec: `dash::math::div_ceil` (`dash/internal/Math.h` is
not among the sources), the quotient rounded up, `ceil(a / b)`. -/
def math.div_ceil (a b : Nat) : Nat :=
  a / b + (if a % b = 0 then 0 else 1)

/-- Modelled from the spec: `Distribution::max_blocksize_in_range`
(`dash/Distribution.h` is not among the sources).  "for `BLOCKED`,
`ceil(extent / nunits)`; for `(BLOCK)CYCLIC`/`TILE(b)`, simply `b`", `CYCLIC`
being `BLOCKCYCLIC(1)`; `NONE` "assigns the whole extent to unit 0", the
extent is one block. -/
def Distribution.max_blocksize_in_range (dist : Distribution)
    (range num_units : Nat) : Nat :=
  match dist with
  | .NONE => range
  | .BLOCKED => math.div_ceil range num_units
  | .CYCLIC => 1
  | .BLOCKCYCLIC blocksz => blocksz
  | .TILE blocksz => blocksz

/-- Modelled from the spec: `Distribution::local_index_to_block_coord`
(`dash/Distribution.h` is not among the sources): "which global block number
corresponds to this unit's `floor(local_index / block_size)`-th local block
under round-robin assignment", that is
`floor(local_index / block_size) * nunits + unit`. -/
def Distribution.local_index_to_block_coord (_dist : Distribution)
    (unit_teamspec_coord local_index num_units_in_dim _num_blocks_in_dim
      blocksize : Nat) : Nat :=
  (local_index / blocksize) * num_units_in_dim + unit_teamspec_coord

/-! ## `BlockPattern<1>` -/

/-- Data members of `BlockPattern<1, Arrangement, IndexType>` that the index
computations read.  `_myid` is `_team->myid()`, the calling unit, and
`_nunits` is `_team->size()`. -/
structure BlockPattern where
  _size : Nat
  _distspec : Distribution
  _myid : Nat
  _nunits : Nat
  _blocksize : Nat
  _nblocks : Nat
  _local_size : Nat
  _nlblocks : Nat
  _local_capacity : Nat
  _lbegin_lend : Nat × Nat
  deriving DecidableEq, Repr

/-- The one-dimensional `ViewSpec_t` (the type is not among the sources) as
`block` builds it: an offset and an extent. -/
structure ViewSpec_t where
  offset : Nat
  extent : Nat
  deriving DecidableEq, Repr

namespace BlockPattern

/-- Member function `unit_at(global_pos)`: `(global_pos / _blocksize) % _nunits`. -/
def unit_at (p : BlockPattern) (global_pos : Nat) : Nat :=
  (global_pos / p._blocksize) % p._nunits

/-- Member function `local_coords(global_coords)`:
`((global_coords[0] / _blocksize) / _nunits) * _blocksize
   + (global_coords[0] % _blocksize)`. -/
def local_coords (p : BlockPattern) (global_coords : Nat) : Nat :=
  ((global_coords / p._blocksize) / p._nunits) * p._blocksize
    + (global_coords % p._blocksize)

/-- Member function `global(unit, local_coords)`: the local coordinate itself for fewer than
two units, else `block_index * _blocksize + elem_phase`. -/
def global (p : BlockPattern) (unit local_coords : Nat) : Nat :=
  if p._nunits < 2 then
    local_coords
  else
    let dist := p._distspec
    let local_index := local_coords
    let elem_phase := local_index % p._blocksize
    let block_index :=
      dist.local_index_to_block_coord unit local_index p._nunits p._nblocks
        p._blocksize
    let glob_index := (block_index * p._blocksize) + elem_phase
    glob_index

/-- Member function `underfilled_blocksize(dimension)`. -/
def underfilled_blocksize (p : BlockPattern) : Nat :=
  if p._blocksize = 0 ∨ p._size % p._blocksize = 0 then 0
  else usub p._blocksize (p._size % p._blocksize)

/-- Member function `initialize_blocksize(size, distspec, nunits)`. -/
def initialize_blocksize (size : Nat) (distspec : Distribution)
    (nunits : Nat) : Nat :=
  if nunits = 0 then 0
  else
    let dist := distspec
    dist.max_blocksize_in_range size nunits

/-- Member function `initialize_num_blocks(size, blocksize, nunits)`. -/
def initialize_num_blocks (size blocksize _nunits : Nat) : Nat :=
  if blocksize = 0 then 0
  else
    let n_blocks := math.div_ceil size blocksize
    n_blocks

/-- Member function `initialize_num_local_blocks(num_blocks, blocksize, distspec, nunits,
local_size)`. -/
def initialize_num_local_blocks (_num_blocks blocksize : Nat)
    (_distspec : Distribution) (_nunits local_size : Nat) : Nat :=
  let num_l_blocks := local_size
  if blocksize > 0 then math.div_ceil num_l_blocks blocksize
  else 0

/-- Member function `initialize_local_capacity()`. -/
def initialize_local_capacity (p : BlockPattern) : Nat :=
  if p._nunits = 0 then 0
  else
    let max_l_blocks := math.div_ceil p._nblocks p._nunits
    let l_capacity := max_l_blocks * p._blocksize
    l_capacity

/-- Member function `initialize_local_extent(unit)`. -/
def initialize_local_extent (p : BlockPattern) (unit : Nat) : Nat :=
  if p._nunits = 0 then 0
  else if p._nblocks = 1 ∧ p._nunits = 1 then p._size
  else
    usub
      ((p._nblocks / p._nunits) * p._blocksize
        + (if unit < p._nblocks % p._nunits then p._blocksize else 0))
      (if unit =
            (if p._nblocks % p._nunits = 0 then usub p._nunits 1
             else usub (p._nblocks % p._nunits) 1)
       then p.underfilled_blocksize
       else 0)

/-- Member function `initialize_local_range(l_size)`; `global(l)` is `global(_team->myid(), l)`. -/
def initialize_local_range (p : BlockPattern) (l_size : Nat) : Nat × Nat :=
  if l_size = 0 then (0, 0)
  else (p.global p._myid 0, p.global p._myid (usub l_size 1) + 1)

/-- Member function `local_capacity(unit)`: the stored `_local_capacity`, whatever `unit` is
(the default argument is `UNDEFINED_TEAM_UNIT_ID`, a negative id). -/
def local_capacity (p : BlockPattern) (_unit : Int) : Nat :=
  p._local_capacity

/-- Member function `block_at(g_coords)`: `g_coords[0] / _blocksize`. -/
def block_at (p : BlockPattern) (g_coords : Nat) : Nat :=
  g_coords / p._blocksize

/-- Member function `block(g_block_index)`: offset
`g_block_index * _blocksize`, extent `_blocksize` less the underfill for
every index that is not below `_nblocks - 1`. -/
def block (p : BlockPattern) (g_block_index : Nat) : ViewSpec_t :=
  { offset := g_block_index * p._blocksize,
    extent :=
      usub p._blocksize
        (if g_block_index < usub p._nblocks 1 then 0
         else p.underfilled_blocksize) }

/-- Member function `local_size(unit)`. -/
def local_size (p : BlockPattern) (unit : Nat) : Nat :=
  if unit = p._myid then p._local_size else p.initialize_local_extent unit

/-- The constructors of `BlockPattern<1>`: members are initialised in
declaration order, each initialiser reading only members set before it (the
`0` standing for a member that is not yet set is never read). -/
def make (size : Nat) (dist : Distribution) (nunits myid : Nat) :
    BlockPattern :=
  let p0 : BlockPattern :=
    { _size := size, _distspec := dist, _myid := myid, _nunits := nunits,
      _blocksize := 0, _nblocks := 0, _local_size := 0, _nlblocks := 0,
      _local_capacity := 0, _lbegin_lend := (0, 0) }
  let p1 := { p0 with _blocksize := initialize_blocksize size dist nunits }
  let p2 := { p1 with
    _nblocks := initialize_num_blocks size p1._blocksize nunits }
  let p3 := { p2 with _local_size := p2.initialize_local_extent myid }
  let p4 := { p3 with
    _nlblocks := initialize_num_local_blocks p3._nblocks p3._blocksize dist
      nunits p3._local_size }
  let p5 := { p4 with _local_capacity := p4.initialize_local_capacity }
  { p5 with _lbegin_lend := p5.initialize_local_range p5._local_size }

end BlockPattern


/-! ## Global pointers, local memory and the one-sided transport -/

/-- Modelled from the spec: the global pointer (`dart_gptr_t`, wrapped by
`GlobPtr<T>`; neither `dash/dart/if/dart.h` nor `dash/GlobPtr.h` is among the
sources), "a value type encoding {team identifier, owning unit,
segment/allocation identifier, byte offset within the unit's local segment}"
with "a distinguished null value". -/
inductive dart_gptr_t where
  | null
  | gptr (teamid unitid segid offset : Nat)
  deriving DecidableEq, Repr

/-- Modelled from the spec: `DART_GPTR_NULL` (the DART interface is not among
the sources), the "distinguished null value" of a global pointer. -/
def DART_GPTR_NULL : dart_gptr_t := .null

/-- A call of the one-sided transport issued on behalf of a reference:
`dash::get_value` (blocking get) and `dash::put_value_nonblock`
(non-blocking put). -/
inductive TransportCall (T : Type) where
  | get_value (gptr : dart_gptr_t)
  | put_value_nonblock (value : T) (gptr : dart_gptr_t)
  deriving DecidableEq, Repr

/-- What a unit sees of memory and transport: its local memory by native
address; the native address of every global pointer that is local to the
unit (`to_lptr` is the conversion `(T*)(gptr)` of `GlobPtr<T>`, `none` for a
remote pointer); the value a blocking get of a global pointer delivers; and
the log of transport calls issued so far. -/
structure World (T : Type) where
  local_mem : Nat → T
  to_lptr : dart_gptr_t → Option Nat
  remote : dart_gptr_t → T
  log : List (TransportCall T)

/-- Modelled from the spec: `GlobPtr<T>::is_local()` (`dash/GlobPtr.h` is not
among the sources), whether the pointer addresses memory of the calling
unit. -/
def GlobPtr.is_local {T : Type} (w : World T) (gptr : dart_gptr_t) : Bool :=
  (w.to_lptr gptr).isSome

/-- Modelled from the spec: `dash::get_value(&value, gptr)`, the transport's
blocking `get(dest_local_buffer, global_pointer, byte_count)`: delivers the
value and is logged. -/
def get_value {T : Type} (w : World T) (gptr : dart_gptr_t) : T × World T :=
  (w.remote gptr, { w with log := w.log ++ [.get_value gptr] })

/-- Modelled from the spec: `dash::put_value_nonblock(value, gptr)`, the
transport's `put_nonblocking(global_pointer, src_local_buffer, byte_count)`,
a "deferred one-sided copy, completion implied by a later flush/barrier": the
call is logged, what a later get delivers is left to the transport. -/
def put_value_nonblock {T : Type} (w : World T) (value : T)
    (gptr : dart_gptr_t) : World T :=
  { w with log := w.log ++ [.put_value_nonblock value gptr] }

/-- Modelled from the spec: value conversion of the synchronous reference
`*gptr` (`dash/GlobRef.h` is not among the sources): "a direct local read if
local", "an immediate blocking fetch if remote". -/
def GlobRef.operator_T {T : Type} (w : World T) (gptr : dart_gptr_t) :
    T × World T :=
  match w.to_lptr gptr with
  | some a => (w.local_mem a, w)
  | none => get_value w gptr

/-! ## `GlobAsyncRef<T>` -/

/-- Data members of `GlobAsyncRef<T>`; a `T *` is `none` for `nullptr`.
(`_globmem` is never set nor read.) -/
structure GlobAsyncRef (T : Type) where
  _value : T
  _gptr : dart_gptr_t
  _lptr : Option Nat
  _has_changed : Bool
  _is_local : Bool
  _has_value : Bool

namespace GlobAsyncRef

variable {T : Type}

/-- Constructor `GlobAsyncRef(T * lptr)` and
`GlobAsyncRef(GlobMem<T> *, T * lptr)`:
`_value(*lptr), _lptr(lptr), _is_local(true), _has_value(true)`; `_gptr` is
default-constructed and `_has_changed` keeps its initialiser `false`.
Dereferencing `nullptr` has no result. -/
def of_lptr (w : World T) (lptr : Option Nat) :
    Option (GlobAsyncRef T × World T) :=
  match lptr with
  | none => none
  | some a =>
    some ({ _value := w.local_mem a, _gptr := DART_GPTR_NULL, _lptr := lptr,
            _has_changed := false, _is_local := true, _has_value := true },
          w)

/-- Constructor `GlobAsyncRef(GlobPtr<T> & gptr)` and
`GlobAsyncRef(GlobMem<T> *, GlobPtr<T> & gptr)`.  `uninit` is the
indeterminate content of the default-initialised `_value`. -/
def of_gptr (uninit : T) (w : World T) (gptr : dart_gptr_t) :
    GlobAsyncRef T × World T :=
  let r0 : GlobAsyncRef T :=
    { _value := uninit, _gptr := gptr, _lptr := none, _has_changed := false,
      _is_local := GlobPtr.is_local w gptr, _has_value := false }
  if r0._is_local then
    let (v, w1) := GlobRef.operator_T w gptr
    ({ r0 with _value := v, _lptr := w1.to_lptr gptr, _has_value := true },
      w1)
  else
    (r0, w)

/-- Member function `is_local()`. -/
def is_local (r : GlobAsyncRef T) : Bool :=
  r._is_local

/-- Member `operator T() const`: fetches into the mutable `_value` when the
reference is not local, and returns `_value`. -/
def operator_T (r : GlobAsyncRef T) (w : World T) :
    T × GlobAsyncRef T × World T :=
  if !r._is_local then
    let (v, w1) := get_value w r._gptr
    let r1 := { r with _value := v }
    (r1._value, r1, w1)
  else
    (r._value, r, w)

/-- Member `operator=(const T & new_value)`.  Storing through a null `_lptr` has no
result. -/
def operator_assign [DecidableEq T] (r : GlobAsyncRef T) (w : World T)
    (new_value : T) : Option (GlobAsyncRef T × World T) :=
  if !r._has_value || r._value != new_value then
    let r1 := { r with _value := new_value, _has_changed := true,
                       _has_value := true }
    if r1._is_local then
      match r1._lptr with
      | some a =>
        some (r1, { w with local_mem := Function.update w.local_mem a r1._value })
      | none => none
    else
      some (r1, put_value_nonblock w r1._value r1._gptr)
  else
    some (r, w)

end GlobAsyncRef

/-! ## `CollectiveAllocator<ElementType>` -/

/-- Modelled from the spec: return code `dart_ret_t` of a transport call (the
DART interface is not among the sources), "success/failure": `DART_OK` or an
error code. -/
inductive dart_ret_t where
  | DART_OK
  | DART_ERR (code : Nat)
  deriving DecidableEq, Repr

/-- Result of `dart_storage<ElementType>(nvalues)`: number of transport
elements and their transport data type. -/
structure dart_storage_t where
  nelem : Nat
  dtype : Nat
  deriving DecidableEq, Repr

/-- What the allocator needs of its template argument `ElementType`:
`sizeof(ElementType)` and `dart_storage<ElementType>`. -/
structure ElementType where
  sizeof : Nat
  dart_storage : Nat → dart_storage_t

/-- A call of the team transport: `dart_team_memalloc_aligned`,
`dart_barrier`, `dart_team_memfree`. -/
inductive DartCall where
  | dart_team_memalloc_aligned (teamid nelem dtype : Nat)
  | dart_barrier (teamid : Nat)
  | dart_team_memfree (teamid : Nat) (gptr : dart_gptr_t)
  deriving DecidableEq, Repr

/-- The runtime as the allocator sees it: `dash::is_initialized()`; the log
of team transport calls; the transport's answers, which may depend on all
calls before: to an allocation the return code and the pointer left in the
out-parameter, to a barrier and to a free the return code; and the macro
`DASH_ASSERT_RETURNS(expr, value)`, which is not among the sources:
`assert_returns ret value` tells whether execution continues when `expr`
returned `ret` (always, in a build without assertions). -/
structure Runtime where
  is_initialized : Bool
  log : List DartCall
  memalloc : List DartCall → Nat → Nat → Nat → dart_gptr_t
    → dart_ret_t × dart_gptr_t
  barrier_ret : List DartCall → Nat → dart_ret_t
  memfree_ret : List DartCall → Nat → dart_gptr_t → dart_ret_t
  assert_returns : dart_ret_t → dart_ret_t → Bool

/-- Every answer of the transport to a barrier or a free lets
`DASH_ASSERT_RETURNS(..., DART_OK)` continue. -/
def Runtime.asserts_pass (rt : Runtime) : Prop :=
  (∀ log teamid,
      rt.assert_returns (rt.barrier_ret log teamid) dart_ret_t.DART_OK = true)
  ∧ (∀ log teamid gptr,
      rt.assert_returns (rt.memfree_ret log teamid gptr) dart_ret_t.DART_OK
        = true)

/-- Transport call `dart_team_memalloc_aligned(teamid, nelem, dtype, &gptr)`:
logs the call and yields the transport's return code and the content of
`gptr` after it. -/
def dart_team_memalloc_aligned (rt : Runtime) (teamid nelem dtype : Nat)
    (gptr : dart_gptr_t) : dart_ret_t × dart_gptr_t × Runtime :=
  let (ret, out) := rt.memalloc rt.log teamid nelem dtype gptr
  (ret, out,
    { rt with log := rt.log ++ [.dart_team_memalloc_aligned teamid nelem dtype] })

/-- Transport call `dart_barrier(teamid)`: logs the call and yields the
transport's return code. -/
def dart_barrier (rt : Runtime) (teamid : Nat) : dart_ret_t × Runtime :=
  (rt.barrier_ret rt.log teamid,
    { rt with log := rt.log ++ [.dart_barrier teamid] })

/-- Transport call `dart_team_memfree(teamid, gptr)`: logs the call and yields
the transport's return code. -/
def dart_team_memfree (rt : Runtime) (teamid : Nat) (gptr : dart_gptr_t) :
    dart_ret_t × Runtime :=
  (rt.memfree_ret rt.log teamid gptr,
    { rt with log := rt.log ++ [.dart_team_memfree teamid gptr] })

/-- Data members of `CollectiveAllocator<ElementType>`. -/
structure CollectiveAllocator where
  _team_id : Nat
  _allocated : List dart_gptr_t
  deriving DecidableEq, Repr

namespace CollectiveAllocator

/-- Member function `allocate(num_local_elem)`. -/
def allocate (E : ElementType) (self : CollectiveAllocator) (rt : Runtime)
    (num_local_elem : Nat) : dart_gptr_t × CollectiveAllocator × Runtime :=
  let gptr := DART_GPTR_NULL
  let ds := E.dart_storage num_local_elem
  let (ret, gptr, rt) :=
    dart_team_memalloc_aligned rt self._team_id ds.nelem ds.dtype gptr
  if ret = dart_ret_t.DART_OK then
    (gptr, { self with _allocated := self._allocated ++ [gptr] }, rt)
  else
    (DART_GPTR_NULL, self, rt)

/-- Constructor `CollectiveAllocator(Team & team)`: `_team_id(team.dart_id())`,
`_allocated` empty. -/
def of_team (team_dart_id : Nat) (rt : Runtime) :
    CollectiveAllocator × Runtime :=
  ({ _team_id := team_dart_id, _allocated := [] }, rt)

/-- Member function `_deallocate(gptr, keep_reference)`.  A failed
`DASH_ASSERT_RETURNS` leaves the function without a result; the erase-remove
idiom drops every entry equal to `gptr`. -/
def _deallocate (self : CollectiveAllocator) (rt : Runtime)
    (gptr : dart_gptr_t) (keep_reference : Bool) :
    Option (CollectiveAllocator × Runtime) :=
  if !rt.is_initialized then
    some (self, rt)
  else
    let (ret, rt) := dart_barrier rt self._team_id
    if !rt.assert_returns ret dart_ret_t.DART_OK then none
    else
      let (ret, rt) := dart_team_memfree rt self._team_id gptr
      if !rt.assert_returns ret dart_ret_t.DART_OK then none
      else if !keep_reference then
        some ({ self with
                  _allocated := self._allocated.filter (fun g => g != gptr) },
              rt)
      else
        some (self, rt)

/-- Member function `deallocate(gptr)`: `_deallocate(gptr, false)`. -/
def deallocate (self : CollectiveAllocator) (rt : Runtime)
    (gptr : dart_gptr_t) : Option (CollectiveAllocator × Runtime) :=
  self._deallocate rt gptr false

/-- The loop `for (auto gptr : _allocated) { _deallocate(gptr, true); }` of
`clear()`, over the entries still to visit. -/
def clear_loop (self : CollectiveAllocator) (rt : Runtime) :
    List dart_gptr_t → Option (CollectiveAllocator × Runtime)
  | [] => some (self, rt)
  | gptr :: rest =>
    match self._deallocate rt gptr true with
    | none => none
    | some (self, rt) => clear_loop self rt rest

/-- Member function `clear()`: the loop over `_allocated`, then
`_allocated.clear()`. -/
def clear (self : CollectiveAllocator) (rt : Runtime) :
    Option (CollectiveAllocator × Runtime) :=
  match self.clear_loop rt self._allocated with
  | none => none
  | some (self, rt) => some ({ self with _allocated := [] }, rt)

/-- Destructor `~CollectiveAllocator()`: `clear()`; the result shows the
members as the destructor leaves them. -/
def destroy (self : CollectiveAllocator) (rt : Runtime) :
    Option (CollectiveAllocator × Runtime) :=
  self.clear rt

/-- Move constructor `CollectiveAllocator(self_t && other)`:
`_team_id(other._team_id), _allocated(std::move(other._allocated))`, then
`other._allocated.clear()`.  Yields the new allocator and `other`. -/
def move_construct (other : CollectiveAllocator) (rt : Runtime) :
    CollectiveAllocator × CollectiveAllocator × Runtime :=
  let self : CollectiveAllocator :=
    { _team_id := other._team_id, _allocated := other._allocated }
  let other := { other with _allocated := [] }
  (self, other, rt)

/-- Copy constructor `CollectiveAllocator(const self_t & other)`:
`_team_id(other._team_id)`.  Yields the new allocator and `other`. -/
def copy_construct (other : CollectiveAllocator) (rt : Runtime) :
    CollectiveAllocator × CollectiveAllocator × Runtime :=
  ({ _team_id := other._team_id, _allocated := [] }, other, rt)

/-- Converting copy constructor template
`template<class U> CollectiveAllocator(const CollectiveAllocator<U> & other)`:
`_team_id(other._team_id)`.  `_team_id` is a private member of
`CollectiveAllocator<U>` and the class befriends only `operator==` and
`operator!=`, so the member initialiser may read it only where
`CollectiveAllocator<U>` is the class of the new allocator itself.
`U_is_ElementType` says whether `U` is the element type of the new
allocator; for another element type the constructor is ill-formed and there
is no result. -/
def copy_construct_from (U_is_ElementType : Bool)
    (other : CollectiveAllocator) (rt : Runtime) :
    Option (CollectiveAllocator × CollectiveAllocator × Runtime) :=
  if U_is_ElementType then
    some ({ _team_id := other._team_id, _allocated := [] }, other, rt)
  else
    none

/-- Copy assignment `operator=(const self_t & other)`: "noop", returns
`*this`.  Yields the object and `other`. -/
def operator_assign (self other : CollectiveAllocator) (rt : Runtime) :
    CollectiveAllocator × CollectiveAllocator × Runtime :=
  (self, other, rt)

/-- Move assignment `operator=(self_t && other)`.  `other` is `none` when it
is the object itself (`this == &other`).  Yields the object and `other`. -/
def operator_move_assign (self : CollectiveAllocator)
    (other : Option CollectiveAllocator) (rt : Runtime) :
    Option (CollectiveAllocator × Option CollectiveAllocator × Runtime) :=
  match other with
  | none => some (self, none, rt)
  | some other =>
    match self.clear rt with
    | none => none
    | some (self, rt) =>
      let self := { self with _allocated := other._allocated }
      let self := { self with _team_id := other._team_id }
      let other := { other with _allocated := [] }
      some (self, some other, rt)

/-- Member `operator==(const self_t & rhs)`: `_team_id == rhs._team_id`. -/
def operator_eq (self rhs : CollectiveAllocator) : Bool :=
  self._team_id == rhs._team_id

/-- Member `operator!=(const self_t & rhs)`: `!(*this == rhs)`. -/
def operator_ne (self rhs : CollectiveAllocator) : Bool :=
  !(self.operator_eq rhs)

end CollectiveAllocator

/-- Free `operator==(const CollectiveAllocator<T> & lhs,
const CollectiveAllocator<U> & rhs)`:
`sizeof(T) == sizeof(U) && lhs._team_id == rhs._team_id`. -/
def allocator.operator_eq (T U : ElementType)
    (lhs rhs : CollectiveAllocator) : Bool :=
  T.sizeof == U.sizeof && lhs._team_id == rhs._team_id

/-- Free `operator!=(const CollectiveAllocator<T> & lhs,
const CollectiveAllocator<U> & rhs)`: `!(lhs == rhs)`. -/
def allocator.operator_ne (T U : ElementType)
    (lhs rhs : CollectiveAllocator) : Bool :=
  !(allocator.operator_eq T U lhs rhs)


/-! ## `BlockPattern<1>`: local range, local blocks, equality -/

namespace BlockPattern

/-- Member function `lbegin()`: `_lbegin_lend[0]`. -/
def lbegin (p : BlockPattern) : Nat :=
  p._lbegin_lend.1

/-- Member function `lend()`: `_lbegin_lend[1]`. -/
def lend (p : BlockPattern) : Nat :=
  p._lbegin_lend.2

/-- Member function `local_block(l_block_index)`: offset
`global(l_block_index * _blocksize)` (of the calling unit), extent
`_blocksize`, but for the index `_nlblocks - 1` the remainder
`_local_size % _blocksize` when that is not 0. -/
def local_block (p : BlockPattern) (l_block_index : Nat) : ViewSpec_t :=
  { offset := p.global p._myid (l_block_index * p._blocksize),
    extent :=
      if l_block_index = usub p._nlblocks 1 then
        (if p._local_size % p._blocksize = 0 then p._blocksize
         else p._local_size % p._blocksize)
      else p._blocksize }

/-- Member function `local_block_local(l_block_index)`: offset
`l_block_index * _blocksize`, extent as in `local_block`. -/
def local_block_local (p : BlockPattern) (l_block_index : Nat) : ViewSpec_t :=
  let offset := l_block_index * p._blocksize
  let extents := p._blocksize
  let extents :=
    if l_block_index = usub p._nlblocks 1 then
      let remaining := p._local_size % extents
      if remaining = 0 then extents else remaining
    else extents
  { offset := offset, extent := extents }

/-- Member `operator==(const self_t & other)`.  `other` is `none` when it is
the object itself (`this == &other`); `teamspec_eq` is the outcome of
`_teamspec == other._teamspec`, members of a type that is not among the
sources and that no index computation reads. -/
def operator_eq (p : BlockPattern) (other : Option BlockPattern)
    (teamspec_eq : Bool) : Bool :=
  match other with
  | none => true
  | some other =>
    p._size == other._size &&
    p._distspec == other._distspec &&
    teamspec_eq &&
    p._nblocks == other._nblocks &&
    p._nlblocks == other._nlblocks &&
    p._local_size == other._local_size &&
    p._blocksize == other._blocksize &&
    p._nunits == other._nunits &&
    p._lbegin_lend == other._lbegin_lend

/-- Member `operator!=(const self_t & other)`: `!(*this == other)`. -/
def operator_ne (p : BlockPattern) (other : Option BlockPattern)
    (teamspec_eq : Bool) : Bool :=
  !(p.operator_eq other teamspec_eq)

end BlockPattern

/-! ## `BlockPattern<1>` with the divisions checked

The construction once more, every `/` and `%` of the source evaluated by
`checked_div` and `checked_mod`, which have no result for a divisor 0; `? :`,
`||` and `if` evaluate only the operand they select. -/

/-- Machine division `a / b`: no result for `b = 0`. -/
def checked_div (a b : Nat) : Option Nat :=
  if b = 0 then none else some (a / b)

/-- Machine remainder `a % b`: no result for `b = 0`. -/
def checked_mod (a b : Nat) : Option Nat :=
  if b = 0 then none else some (a % b)

/-- Modelled from the spec: `dash::math::div_ceil`, `ceil(a / b)`, with the
division by `b` checked. -/
def math.div_ceil_checked (a b : Nat) : Option Nat := do
  let q ← checked_div a b
  let r ← checked_mod a b
  pure (q + (if r = 0 then 0 else 1))

/-- Modelled from the spec: `Distribution::max_blocksize_in_range`, with the
division of `BLOCKED` checked. -/
def Distribution.max_blocksize_in_range_checked (dist : Distribution)
    (range num_units : Nat) : Option Nat :=
  match dist with
  | .NONE => some range
  | .BLOCKED => math.div_ceil_checked range num_units
  | .CYCLIC => some 1
  | .BLOCKCYCLIC blocksz => some blocksz
  | .TILE blocksz => some blocksz

/-- Modelled from the spec: `Distribution::local_index_to_block_coord`, with
the division by the block size checked. -/
def Distribution.local_index_to_block_coord_checked (_dist : Distribution)
    (unit_teamspec_coord local_index num_units_in_dim _num_blocks_in_dim
      blocksize : Nat) : Option Nat := do
  let local_block_offset ← checked_div local_index blocksize
  pure (local_block_offset * num_units_in_dim + unit_teamspec_coord)

namespace BlockPattern

/-- Member function `global(unit, local_coords)`, divisions checked. -/
def global_checked (p : BlockPattern) (unit local_coords : Nat) :
    Option Nat :=
  if p._nunits < 2 then
    some local_coords
  else do
    let dist := p._distspec
    let local_index := local_coords
    let elem_phase ← checked_mod local_index p._blocksize
    let block_index ←
      dist.local_index_to_block_coord_checked unit local_index p._nunits
        p._nblocks p._blocksize
    let glob_index := (block_index * p._blocksize) + elem_phase
    pure glob_index

/-- Member function `underfilled_blocksize(dimension)`, divisions checked. -/
def underfilled_blocksize_checked (p : BlockPattern) : Option Nat :=
  if p._blocksize = 0 then some 0
  else do
    let r ← checked_mod p._size p._blocksize
    if r = 0 then pure 0
    else do
      let r ← checked_mod p._size p._blocksize
      pure (usub p._blocksize r)

/-- Member function `initialize_blocksize(size, distspec, nunits)`, divisions
checked. -/
def initialize_blocksize_checked (size : Nat) (distspec : Distribution)
    (nunits : Nat) : Option Nat :=
  if nunits = 0 then some 0
  else
    let dist := distspec
    dist.max_blocksize_in_range_checked size nunits

/-- Member function `initialize_num_blocks(size, blocksize, nunits)`,
divisions checked. -/
def initialize_num_blocks_checked (size blocksize _nunits : Nat) :
    Option Nat :=
  if blocksize = 0 then some 0
  else math.div_ceil_checked size blocksize

/-- Member function `initialize_num_local_blocks(...)`, divisions checked. -/
def initialize_num_local_blocks_checked (_num_blocks blocksize : Nat)
    (_distspec : Distribution) (_nunits local_size : Nat) : Option Nat :=
  let num_l_blocks := local_size
  if blocksize > 0 then math.div_ceil_checked num_l_blocks blocksize
  else some 0

/-- Member function `initialize_local_capacity()`, divisions checked. -/
def initialize_local_capacity_checked (p : BlockPattern) : Option Nat :=
  if p._nunits = 0 then some 0
  else do
    let max_l_blocks ← math.div_ceil_checked p._nblocks p._nunits
    let l_capacity := max_l_blocks * p._blocksize
    pure l_capacity

/-- Member function `initialize_local_extent(unit)`, divisions checked. -/
def initialize_local_extent_checked (p : BlockPattern) (unit : Nat) :
    Option Nat :=
  if p._nunits = 0 then some 0
  else if p._nblocks = 1 ∧ p._nunits = 1 then some p._size
  else do
    let q ← checked_div p._nblocks p._nunits
    let m ← checked_mod p._nblocks p._nunits
    let unbalanced := if unit < m then p._blocksize else 0
    let m ← checked_mod p._nblocks p._nunits
    let last_block_unit ←
      if m = 0 then pure (usub p._nunits 1)
      else do
        let m ← checked_mod p._nblocks p._nunits
        pure (usub m 1)
    let missing ←
      if unit = last_block_unit then p.underfilled_blocksize_checked
      else pure 0
    pure (usub (q * p._blocksize + unbalanced) missing)

/-- Member function `initialize_local_range(l_size)`, divisions checked. -/
def initialize_local_range_checked (p : BlockPattern) (l_size : Nat) :
    Option (Nat × Nat) :=
  if l_size = 0 then some (0, 0)
  else do
    let first ← p.global_checked p._myid 0
    let last ← p.global_checked p._myid (usub l_size 1)
    pure (first, last + 1)

/-- Member function `local_size(unit)`, divisions checked. -/
def local_size_checked (p : BlockPattern) (unit : Nat) : Option Nat :=
  if unit = p._myid then some p._local_size
  else p.initialize_local_extent_checked unit

/-- The constructors of `BlockPattern<1>`, divisions checked. -/
def make_checked (size : Nat) (dist : Distribution) (nunits myid : Nat) :
    Option BlockPattern := do
  let p0 : BlockPattern :=
    { _size := size, _distspec := dist, _myid := myid, _nunits := nunits,
      _blocksize := 0, _nblocks := 0, _local_size := 0, _nlblocks := 0,
      _local_capacity := 0, _lbegin_lend := (0, 0) }
  let blocksize ← initialize_blocksize_checked size dist nunits
  let p1 := { p0 with _blocksize := blocksize }
  let nblocks ← initialize_num_blocks_checked size p1._blocksize nunits
  let p2 := { p1 with _nblocks := nblocks }
  let local_size ← p2.initialize_local_extent_checked myid
  let p3 := { p2 with _local_size := local_size }
  let nlblocks ←
    initialize_num_local_blocks_checked p3._nblocks p3._blocksize dist nunits
      p3._local_size
  let p4 := { p3 with _nlblocks := nlblocks }
  let local_capacity ← p4.initialize_local_capacity_checked
  let p5 := { p4 with _local_capacity := local_capacity }
  let lbegin_lend ← p5.initialize_local_range_checked p5._local_size
  pure { p5 with _lbegin_lend := lbegin_lend }

end BlockPattern

/-! ## `GlobAsyncRef<T>`: compound operators -/

namespace GlobAsyncRef

variable {T : Type}

/-- Member `operator+=(const T & ref)`:
`T val = operator T(); val += ref; operator=(val);`. -/
def operator_add_assign [DecidableEq T] [Add T] (r : GlobAsyncRef T)
    (w : World T) (ref : T) : Option (GlobAsyncRef T × World T) :=
  let (val, r, w) := r.operator_T w
  let val := val + ref
  r.operator_assign w val

/-- Prefix `operator++()`: `T val = operator T(); ++val; operator=(val);`. -/
def operator_pre_increment [DecidableEq T] [Add T] [One T]
    (r : GlobAsyncRef T) (w : World T) : Option (GlobAsyncRef T × World T) :=
  let (val, r, w) := r.operator_T w
  let val := val + 1
  r.operator_assign w val

/-- Postfix `operator++(int)`: `self_t result = *this;` then as the prefix
operator; yields `result`, the reference and the world. -/
def operator_post_increment [DecidableEq T] [Add T] [One T]
    (r : GlobAsyncRef T) (w : World T) :
    Option (GlobAsyncRef T × GlobAsyncRef T × World T) :=
  let result := r
  let (val, r, w) := r.operator_T w
  let val := val + 1
  match r.operator_assign w val with
  | none => none
  | some (r, w) => some (result, r, w)

/-- Member `operator-=(const T & ref)`:
`T val = operator T(); val -= ref; operator=(val);`. -/
def operator_sub_assign [DecidableEq T] [Sub T] (r : GlobAsyncRef T)
    (w : World T) (ref : T) : Option (GlobAsyncRef T × World T) :=
  let (val, r, w) := r.operator_T w
  let val := val - ref
  r.operator_assign w val

/-- Prefix `operator--()`: `T val = operator T(); --val; operator=(val);`. -/
def operator_pre_decrement [DecidableEq T] [Sub T] [One T]
    (r : GlobAsyncRef T) (w : World T) : Option (GlobAsyncRef T × World T) :=
  let (val, r, w) := r.operator_T w
  let val := val - 1
  r.operator_assign w val

/-- Postfix `operator--(int)`: `self_t result = *this;` then as the prefix
operator; yields `result`, the reference and the world. -/
def operator_post_decrement [DecidableEq T] [Sub T] [One T]
    (r : GlobAsyncRef T) (w : World T) :
    Option (GlobAsyncRef T × GlobAsyncRef T × World T) :=
  let result := r
  let (val, r, w) := r.operator_T w
  let val := val - 1
  match r.operator_assign w val with
  | none => none
  | some (r, w) => some (result, r, w)

/-- The specification of a compound operation, in the spec's words
"read-then-local-mutate-then-write of the whole reference": read `v = T(r)`,
mutate it locally to `f v`, assign `r = f v`. -/
def read_mutate_write [DecidableEq T] (f : T → T) (r : GlobAsyncRef T)
    (w : World T) : Option (GlobAsyncRef T × World T) :=
  GlobAsyncRef.operator_assign (r.operator_T w).2.1 (r.operator_T w).2.2
    (f (r.operator_T w).1)

end GlobAsyncRef

/-! ## `BlockPattern<1>`: further accessors -/

namespace BlockPattern

/-- Member function `coords(index)`: the one coordinate of a global linear
index. -/
def coords (_p : BlockPattern) (index : Nat) : Nat :=
  index

/-- Member function `at(g_coords)` (`at` is a keyword here):
`local_coords(g_coords)[0]`. -/
def at_ (p : BlockPattern) (g_coords : Nat) : Nat :=
  p.local_coords g_coords

/-- Member function `local_index(g_coords)`: the pair of `unit_at(g_coords[0])` and
`at(g_coords)`. -/
def local_index (p : BlockPattern) (g_coords : Nat) : Nat × Nat :=
  (p.unit_at g_coords, p.at_ g_coords)

/-- Member function `local(g_index)` (`local` is a keyword here):
`local_index(coords(g_index))`, unit first, index second. -/
def local_ (p : BlockPattern) (g_index : Nat) : Nat × Nat :=
  p.local_index (p.coords g_index)

/-- Member function `local_extents(unit)`: the array of the one extent
`unit == _team->myid() ? _local_size : initialize_local_extent(unit)`. -/
def local_extents (p : BlockPattern) (unit : Nat) : List Nat :=
  [if unit = p._myid then p._local_size else p.initialize_local_extent unit]

/-- Member function `is_local(index, unit)`: `unit_at(index) == unit`. -/
def is_local (p : BlockPattern) (index unit : Nat) : Bool :=
  p.unit_at index == unit

/-- Member function `is_local(index)`: `is_local(index, team().myid())`. -/
def is_local_myid (p : BlockPattern) (index : Nat) : Bool :=
  p.is_local index p._myid

/-- The specification of `local_size(unit)`, in the spec's words, over the
integers: "`(num_blocks / nunits) * block_size`, plus one extra `block_size`
if `unit < num_blocks mod nunits`, minus `underfilled_block_size` if `unit`
owns the last global block (i.e. `unit == (num_blocks mod nunits == 0 ?
nunits-1 : (num_blocks mod nunits)-1)`)". -/
def local_size_spec (num_blocks nunits block_size underfilled_block_size
    unit : Nat) : Int :=
  ((num_blocks / nunits : Nat) : Int) * (block_size : Int)
    + (if unit < num_blocks % nunits then (block_size : Int) else 0)
    - (if (unit : Int)
            = (if num_blocks % nunits = 0 then (nunits : Int) - 1
               else ((num_blocks % nunits : Nat) : Int) - 1)
       then (underfilled_block_size : Int) else 0)

end BlockPattern

/-! ## `GlobAsyncRef<T>`: sequences of calls -/

namespace GlobAsyncRef

variable {T : Type}

/-- A call of one of the value operations of `GlobAsyncRef<T>`: the value
conversion, the assignment and the six compound operators. -/
inductive Call (T : Type) where
  | operator_T
  | operator_assign (new_value : T)
  | operator_add_assign (ref : T)
  | operator_pre_increment
  | operator_post_increment
  | operator_sub_assign (ref : T)
  | operator_pre_decrement
  | operator_post_decrement

/-- One call on a reference: the reference and the world after it; the value
that a conversion returns and the copy that a postfix operator returns are
dropped. -/
def call [DecidableEq T] [Add T] [Sub T] [One T] (r : GlobAsyncRef T)
    (w : World T) (c : Call T) : Option (GlobAsyncRef T × World T) :=
  match c with
  | .operator_T => some ((r.operator_T w).2.1, (r.operator_T w).2.2)
  | .operator_assign new_value => r.operator_assign w new_value
  | .operator_add_assign ref => r.operator_add_assign w ref
  | .operator_pre_increment => r.operator_pre_increment w
  | .operator_post_increment =>
    (r.operator_post_increment w).map (fun y => (y.2.1, y.2.2))
  | .operator_sub_assign ref => r.operator_sub_assign w ref
  | .operator_pre_decrement => r.operator_pre_decrement w
  | .operator_post_decrement =>
    (r.operator_post_decrement w).map (fun y => (y.2.1, y.2.2))

/-- A sequence of calls on one reference, in order; no result as soon as one
call has none. -/
def calls [DecidableEq T] [Add T] [Sub T] [One T] (r : GlobAsyncRef T)
    (w : World T) : List (Call T) → Option (GlobAsyncRef T × World T)
  | [] => some (r, w)
  | c :: cs =>
    match r.call w c with
    | none => none
    | some (r1, w1) => calls r1 w1 cs

/-- The state known-coherent of a local reference to the cell at address
`a`: local, value known, `_lptr` is `a`, and the cached `_value` is the
content of the cell. -/
def coherent (r : GlobAsyncRef T) (w : World T) (a : Nat) : Prop :=
  r._is_local = true ∧ r._has_value = true ∧ r._lptr = some a
    ∧ r._value = w.local_mem a

instance coherent_decidable [DecidableEq T] (r : GlobAsyncRef T) (w : World T)
    (a : Nat) : Decidable (r.coherent w a) := by
  unfold coherent
  infer_instance

end GlobAsyncRef

/-! ## Concrete states used in the examples below -/

/-- A world of `Nat` cells: every local cell holds 5, the global pointer
`(0, 0, 0, 8)` is local at native address 100, every other pointer is remote,
and a blocking get delivers 7. -/
def demo_world : World Nat :=
  { local_mem := fun _ => 5,
    to_lptr := fun g => if g = dart_gptr_t.gptr 0 0 0 8 then some 100 else none,
    remote := fun _ => 7,
    log := [] }

/-- A global pointer into the memory of unit 1, remote in `demo_world`. -/
def demo_remote_gptr : dart_gptr_t := dart_gptr_t.gptr 0 1 0 8

/-- A global pointer into the memory of unit 0, local in `demo_world`. -/
def demo_local_gptr : dart_gptr_t := dart_gptr_t.gptr 0 0 0 8

/-- The reference `GlobAsyncRef<int>(gptr)` to the remote `demo_remote_gptr`,
constructed in `demo_world` over an indeterminate `_value` of 0. -/
def demo_remote_ref : GlobAsyncRef Nat :=
  (GlobAsyncRef.of_gptr 0 demo_world demo_remote_gptr).1

/-- A runtime, built with assertions, whose transport grants every allocation
with the pointer `(team, 0, k + 1, 0)`, `k` the number of calls logged
before, and answers every barrier and free with `DART_OK`. -/
def demo_runtime : Runtime :=
  { is_initialized := true,
    log := [],
    memalloc := fun log teamid _ _ _ =>
      (dart_ret_t.DART_OK, dart_gptr_t.gptr teamid 0 (log.length + 1) 0),
    barrier_ret := fun _ _ => dart_ret_t.DART_OK,
    memfree_ret := fun _ _ _ => dart_ret_t.DART_OK,
    assert_returns := fun ret value => ret == value }

/-- A runtime whose transport refuses every allocation and leaves a stale
pointer in the out-parameter. -/
def demo_runtime_failing : Runtime :=
  { is_initialized := true,
    log := [],
    memalloc := fun _ teamid _ _ _ =>
      (dart_ret_t.DART_ERR 1, dart_gptr_t.gptr teamid 0 99 0),
    barrier_ret := fun _ _ => dart_ret_t.DART_OK,
    memfree_ret := fun _ _ _ => dart_ret_t.DART_OK,
    assert_returns := fun ret value => ret == value }

/-- The element type `int`: 4 bytes, `n` values stored as `n` transport
elements of data type 3. -/
def demo_int : ElementType :=
  { sizeof := 4, dart_storage := fun n => { nelem := n, dtype := 3 } }


/-- The runtime `demo_runtime` after `dash::finalize()`. -/
def demo_runtime_finalized : Runtime :=
  { demo_runtime with is_initialized := false }

/-- An allocator on team 0 that owns two pointers. -/
def demo_allocator : CollectiveAllocator :=
  { _team_id := 0,
    _allocated := [dart_gptr_t.gptr 0 0 1 0, dart_gptr_t.gptr 0 0 2 0] }

/-- An allocator on team 7 that owns one pointer. -/
def demo_allocator_other : CollectiveAllocator :=
  { _team_id := 7, _allocated := [dart_gptr_t.gptr 7 0 3 0] }
/-! ## Proofs: arithmetic of the round-robin block assignment -/

theorem usub_of_le {a b : Nat} (h : b ≤ a) : usub a b = a - b := by
  simp [usub, h]

/-- Splitting `g = (g / b) * b + g % b` and recombining the quotient's own
quotient and remainder by `n` gives back `g`. -/
theorem block_recompose (g b n : Nat) (hb : 0 < b) :
    (((g / b / n * b + g % b) / b) * n + g / b % n) * b
      + (g / b / n * b + g % b) % b = g := by
  have hlt : g % b < b := Nat.mod_lt _ hb
  have h1 : (g / b / n * b + g % b) / b = g / b / n := by
    rw [Nat.add_comm, Nat.add_mul_div_right _ _ hb, Nat.div_eq_of_lt hlt,
      Nat.zero_add]
  have h2 : (g / b / n * b + g % b) % b = g % b := by
    rw [Nat.add_comm, Nat.add_mul_mod_self_right, Nat.mod_eq_of_lt hlt]
  rw [h1, h2, Nat.div_add_mod' (g / b) n, Nat.div_add_mod' g b]


theorem card_filter_range_succ (P : Nat → Prop) [DecidablePred P] (m : Nat) :
    ((Finset.range (m + 1)).filter P).card
      = ((Finset.range m).filter P).card + (if P m then 1 else 0) := by
  rw [← Nat.count_eq_card_filter_range, ← Nat.count_eq_card_filter_range,
    Nat.count_succ]

/-- Quotient and remainder of the successor. -/
theorem succ_div_mod (q n : Nat) (hn : 0 < n) :
    (q % n + 1 < n ∧ (q + 1) / n = q / n ∧ (q + 1) % n = q % n + 1)
    ∨ (q % n + 1 = n ∧ (q + 1) / n = q / n + 1 ∧ (q + 1) % n = 0) := by
  have hlt : q % n < n := Nat.mod_lt _ hn
  have hq : q + 1 = n * (q / n) + (q % n + 1) := by
    have := Nat.div_add_mod q n
    omega
  rcases Nat.lt_or_ge (q % n + 1) n with h | h
  · left
    refine ⟨h, ?_, ?_⟩
    · rw [hq, Nat.mul_add_div hn, Nat.div_eq_of_lt h, Nat.add_zero]
    · rw [hq, Nat.mul_add_mod, Nat.mod_eq_of_lt h]
  · right
    have he : q % n + 1 = n := by omega
    refine ⟨he, ?_, ?_⟩
    · rw [hq, he, Nat.mul_add_div hn, Nat.div_self hn]
    · rw [hq, he, Nat.mul_add_mod, Nat.mod_self]

/-- Number of block indices below `q` that round-robin assignment over `n`
units gives to unit `u`. -/
theorem card_blocks_of_unit (n u q : Nat) (hu : u < n) :
    ((Finset.range q).filter (fun k => k % n = u)).card
      = q / n + (if u < q % n then 1 else 0) := by
  have hn : 0 < n := by omega
  induction q with
  | zero => simp
  | succ q ih =>
    rw [card_filter_range_succ, ih]
    rcases succ_div_mod q n hn with ⟨h1, h2, h3⟩ | ⟨h1, h2, h3⟩
    · rw [h2, h3]
      by_cases hc : q % n = u
      · have h4 : ¬ u < q % n := by omega
        have h5 : u < q % n + 1 := by omega
        simp [hc, h4, h5]
      · by_cases hd : u < q % n
        · have h5 : u < q % n + 1 := by omega
          simp [hc, hd, h5]
        · have h5 : ¬ u < q % n + 1 := by omega
          simp [hc, hd, h5]
    · rw [h2, h3]
      by_cases hc : q % n = u
      · have h4 : ¬ u < q % n := by omega
        simp [hc, h4]
      · have hd : u < q % n := by omega
        simp [hc, hd]

/-- Elements of the partial block `q`: indices `q * b + i`, `i < r ≤ b`. -/
theorem card_owned_tail_block (b n u q r : Nat) (hr : r ≤ b) :
    ((Finset.range (q * b + r)).filter (fun g => g / b % n = u)).card
      = ((Finset.range (q * b)).filter (fun g => g / b % n = u)).card
        + (if q % n = u then r else 0) := by
  induction r with
  | zero => simp
  | succ r ih =>
    have hb : 0 < b := by omega
    have hd : (q * b + r) / b = q := by
      rw [Nat.add_comm, Nat.add_mul_div_right _ _ hb, Nat.div_eq_of_lt (by omega),
        Nat.zero_add]
    rw [← Nat.add_assoc, card_filter_range_succ, ih (by omega), hd]
    by_cases hc : q % n = u <;> simp [hc, Nat.add_assoc]

/-- Elements of the first `q` full blocks owned by unit `u`. -/
theorem card_owned_full_blocks (b n u q : Nat) :
    ((Finset.range (q * b)).filter (fun g => g / b % n = u)).card
      = b * ((Finset.range q).filter (fun k => k % n = u)).card := by
  induction q with
  | zero => simp
  | succ q ih =>
    rw [Nat.succ_mul, card_owned_tail_block b n u q b (Nat.le_refl b), ih,
      card_filter_range_succ, Nat.mul_add]
    by_cases hc : q % n = u <;> simp [hc]

/-- Number of global indices below `N` that lie in a block owned by `u`. -/
theorem card_owned (N b n u : Nat) (hb : 0 < b) (hu : u < n) :
    ((Finset.range N).filter (fun g => g / b % n = u)).card
      = b * (N / b / n + (if u < N / b % n then 1 else 0))
        + (if N / b % n = u then N % b else 0) := by
  have hN : N = N / b * b + N % b := (Nat.div_add_mod' N b).symm
  conv_lhs => rw [hN]
  rw [card_owned_tail_block b n u (N / b) (N % b)
      (Nat.le_of_lt (Nat.mod_lt _ hb)),
    card_owned_full_blocks, card_blocks_of_unit n u (N / b) hu]

/-- The arithmetic of `initialize_local_extent` in closed form: full blocks
owned by `u` plus, when `u` owns the last block, its filled part. -/
theorem local_extent_arith (N b n u : Nat) (hb : 0 < b) (hu : u < n) :
    usub
      ((math.div_ceil N b / n) * b
        + (if u < math.div_ceil N b % n then b else 0))
      (if u =
            (if math.div_ceil N b % n = 0 then usub n 1
             else usub (math.div_ceil N b % n) 1)
       then (if b = 0 ∨ N % b = 0 then 0 else usub b (N % b))
       else 0)
    = b * (N / b / n + (if u < N / b % n then 1 else 0))
        + (if N / b % n = u then N % b else 0) := by
  have hn : 0 < n := by omega
  have hb0 : b ≠ 0 := by omega
  have hrlt : N % b < b := Nat.mod_lt _ hb
  have hqlt : N / b % n < n := Nat.mod_lt _ hn
  by_cases hr : N % b = 0
  · simp only [math.div_ceil, hr, if_true, Nat.add_zero, or_true, ite_self]
    generalize N / b / n = a at *
    generalize N / b % n = c at *
    simp only [usub, SIZE_BITS, Nat.mul_comm a b]
    split_ifs <;> simp only [Nat.mul_add, Nat.mul_one, Nat.mul_zero] <;> omega
  · simp only [math.div_ceil, hr, if_false, hb0, false_or]
    rcases succ_div_mod (N / b) n hn with ⟨h1, h2, h3⟩ | ⟨h1, h2, h3⟩
    · rw [h2, h3]
      clear h2 h3
      generalize N / b / n = a at *
      generalize N / b % n = c at *
      generalize N % b = r at *
      have e1 : usub b r = b - r := usub_of_le (by omega)
      have e2 : usub (c + 1) 1 = c := by rw [usub_of_le (by omega)]; omega
      have e3 : ¬ c + 1 = 0 := by omega
      simp only [e1, e2, e3, if_false, Nat.mul_comm a b]
      simp only [usub, SIZE_BITS]
      split_ifs <;> simp only [Nat.mul_add, Nat.mul_one, Nat.mul_zero]
        <;> omega
    · rw [h2, h3]
      clear h2 h3
      generalize N / b / n = a at *
      generalize N / b % n = c at *
      generalize N % b = r at *
      have e1 : usub b r = b - r := usub_of_le (by omega)
      have e2 : usub n 1 = c := by rw [usub_of_le (by omega)]; omega
      have e4 : ¬ u < 0 := by omega
      simp only [e1, e2, e4, if_true, if_false, Nat.add_mul, Nat.one_mul,
        Nat.mul_comm a b, Nat.add_zero]
      simp only [usub, SIZE_BITS]
      split_ifs <;> simp only [Nat.mul_add, Nat.mul_one, Nat.mul_zero]
        <;> omega


/-! ## Proofs: the constructed pattern -/

namespace BlockPattern

theorem make_size (size : Nat) (dist : Distribution) (nunits myid : Nat) :
    (make size dist nunits myid)._size = size := rfl

theorem make_nunits (size : Nat) (dist : Distribution) (nunits myid : Nat) :
    (make size dist nunits myid)._nunits = nunits := rfl

theorem make_myid (size : Nat) (dist : Distribution) (nunits myid : Nat) :
    (make size dist nunits myid)._myid = myid := rfl

theorem make_nblocks (size : Nat) (dist : Distribution) (nunits myid : Nat) :
    (make size dist nunits myid)._nblocks
      = initialize_num_blocks size (make size dist nunits myid)._blocksize
          nunits := rfl

/-- The stored `_local_size` is `initialize_local_extent(myid)` evaluated on
the finished pattern, so `local_size(unit)` is `initialize_local_extent(unit)`
for every `unit`. -/
theorem make_local_size (size : Nat) (dist : Distribution)
    (nunits myid u : Nat) :
    (make size dist nunits myid).local_size u
      = (make size dist nunits myid).initialize_local_extent u := by
  unfold local_size
  split
  · next h => rw [h]; rfl
  · rfl

/-- The stored `_local_capacity` is `initialize_local_capacity()` evaluated on
the finished pattern. -/
theorem make_local_capacity (size : Nat) (dist : Distribution)
    (nunits myid : Nat) :
    (make size dist nunits myid)._local_capacity
      = (make size dist nunits myid).initialize_local_capacity := rfl

/-- With a positive block size the constructor stores
`div_ceil(size, blocksize)` blocks. -/
theorem make_nblocks_pos (size : Nat) (dist : Distribution)
    (nunits myid : Nat) (hb : 0 < (make size dist nunits myid)._blocksize) :
    (make size dist nunits myid)._nblocks
      = math.div_ceil size (make size dist nunits myid)._blocksize := by
  rw [make_nblocks]
  simp [initialize_num_blocks, Nat.pos_iff_ne_zero.mp hb]

/-- A pattern with a single block and a single unit holds the whole extent in
that block. -/
theorem single_block_size (N b : Nat) (hb : 0 < b)
    (h : math.div_ceil N b = 1) :
    N = b * (N / b) + N % b ∧ (N / b = 0 ∨ N % b = 0) ∧ N ≤ b := by
  have hm := Nat.div_add_mod N b
  have hlt : N % b < b := Nat.mod_lt _ hb
  unfold math.div_ceil at h
  refine ⟨hm.symm, ?_, ?_⟩
  · split at h <;> omega
  · split at h
    · next h0 =>
      have h1 : N / b = 1 := by omega
      rw [h1, h0] at hm
      omega
    · have h1 : N / b = 0 := by omega
      rw [h1] at hm
      omega

/-- Closed form of `initialize_local_extent` on a pattern whose number of
blocks is `div_ceil(size, blocksize)`. -/
theorem initialize_local_extent_closed (p : BlockPattern) (u : Nat)
    (hb : 0 < p._blocksize)
    (hnb : p._nblocks = math.div_ceil p._size p._blocksize)
    (hu : u < p._nunits) :
    p.initialize_local_extent u
      = p._blocksize
          * (p._size / p._blocksize / p._nunits
              + (if u < p._size / p._blocksize % p._nunits then 1 else 0))
        + (if p._size / p._blocksize % p._nunits = u
           then p._size % p._blocksize else 0) := by
  have hn0 : p._nunits ≠ 0 := by omega
  unfold initialize_local_extent
  rw [if_neg hn0]
  split
  · next h =>
    obtain ⟨h1, h2⟩ := h
    rw [hnb] at h1
    obtain ⟨e1, e2, _⟩ := single_block_size p._size p._blocksize hb h1
    have hu0 : u = 0 := by omega
    subst hu0
    rw [h2]
    simp only [Nat.div_one, Nat.mod_one, Nat.lt_irrefl, if_false, if_true,
      Nat.add_zero]
    exact e1
  · unfold underfilled_blocksize
    rw [hnb]
    exact local_extent_arith p._size p._blocksize p._nunits u hb hu

/-- On a constructed pattern with positive block size, `local_size(u)` counts
the global indices that `unit_at` maps to `u`. -/
theorem make_local_size_card (size : Nat) (dist : Distribution)
    (nunits myid u : Nat) (hb : 0 < (make size dist nunits myid)._blocksize)
    (hu : u < nunits) :
    (make size dist nunits myid).local_size u
      = ((Finset.range size).filter
          (fun g => (make size dist nunits myid).unit_at g = u)).card := by
  rw [make_local_size,
    initialize_local_extent_closed _ u hb (make_nblocks_pos size dist nunits myid hb)
      (by rw [make_nunits]; exact hu)]
  simp only [unit_at, make_size, make_nunits]
  exact (card_owned size _ nunits u hb hu).symm


/-- The minuend of `initialize_local_extent` is at most the local capacity
`div_ceil(nblocks, nunits) * blocksize`. -/
theorem local_blocks_le_capacity (nb n b u : Nat) :
    (nb / n) * b + (if u < nb % n then b else 0)
      ≤ math.div_ceil nb n * b := by
  unfold math.div_ceil
  by_cases h0 : nb % n = 0
  · simp [h0]
  · simp only [h0, if_false, Nat.add_mul, Nat.one_mul]
    split <;> omega

/-- With block size 0 the constructor yields no blocks and every unit an
empty local extent. -/
theorem make_local_size_blocksize_zero (size : Nat) (dist : Distribution)
    (nunits myid u : Nat) (hb : (make size dist nunits myid)._blocksize = 0) :
    (make size dist nunits myid).local_size u = 0 := by
  have hnb : (make size dist nunits myid)._nblocks = 0 := by
    rw [make_nblocks, hb]; rfl
  rw [make_local_size]
  unfold initialize_local_extent underfilled_blocksize
  rw [hnb, hb]
  simp [usub]

/-- In the subtraction of `initialize_local_extent` the subtrahend never
exceeds the minuend. -/
theorem local_extent_no_wrap (N b n u : Nat) (hb : 0 < b) (hu : u < n) :
    (if u =
          (if math.div_ceil N b % n = 0 then usub n 1
           else usub (math.div_ceil N b % n) 1)
     then (if b = 0 ∨ N % b = 0 then 0 else usub b (N % b))
     else 0)
    ≤ (math.div_ceil N b / n) * b
        + (if u < math.div_ceil N b % n then b else 0) := by
  have hn : 0 < n := by omega
  have hb0 : b ≠ 0 := by omega
  have hrlt : N % b < b := Nat.mod_lt _ hb
  have hqlt : N / b % n < n := Nat.mod_lt _ hn
  by_cases hr : N % b = 0
  · simp [hr]
  · simp only [math.div_ceil, hr, if_false, hb0, false_or]
    rcases succ_div_mod (N / b) n hn with ⟨h1, h2, h3⟩ | ⟨h1, h2, h3⟩
    · rw [h2, h3]
      clear h2 h3
      generalize N / b / n = a at *
      generalize N / b % n = c at *
      generalize N % b = r at *
      have e1 : usub b r = b - r := usub_of_le (by omega)
      have e2 : usub (c + 1) 1 = c := by rw [usub_of_le (by omega)]; omega
      have e3 : ¬ c + 1 = 0 := by omega
      simp only [e1, e2, e3, if_false]
      split_ifs <;> omega
    · rw [h2, h3]
      clear h2 h3
      generalize N / b / n = a at *
      generalize N / b % n = c at *
      generalize N % b = r at *
      have e1 : usub b r = b - r := usub_of_le (by omega)
      simp only [e1, if_true, Nat.add_mul, Nat.one_mul]
      split_ifs <;> omega

/-- The quotient `div_ceil a b` is 0 only for `a = 0`. -/
theorem div_ceil_eq_zero {a b : Nat} (h : math.div_ceil a b = 0) : a = 0 := by
  unfold math.div_ceil at h
  have hm := Nat.div_add_mod a b
  by_cases h0 : a % b = 0
  · rw [if_pos h0] at h
    have h1 : a / b = 0 := by omega
    rw [h1, h0] at hm
    omega
  · rw [if_neg h0] at h
    exact absurd h (Nat.succ_ne_zero _)

/-- The block size of a constructed pattern is 0 only for an empty extent,
provided `BLOCKCYCLIC` and `TILE` are given a block size of at least 1. -/
theorem make_blocksize_zero (size : Nat) (dist : Distribution)
    (nunits myid : Nat) (hn : 1 ≤ nunits)
    (hd : ∀ b, dist = .BLOCKCYCLIC b ∨ dist = .TILE b → 1 ≤ b)
    (hb : (make size dist nunits myid)._blocksize = 0) : size = 0 := by
  have hn0 : nunits ≠ 0 := by omega
  have h : dist.max_blocksize_in_range size nunits = 0 := by
    have : (make size dist nunits myid)._blocksize
        = initialize_blocksize size dist nunits := rfl
    rw [this] at hb
    simpa [initialize_blocksize, hn0] using hb
  cases dist with
  | NONE => exact h
  | BLOCKED => exact div_ceil_eq_zero h
  | CYCLIC => simp [Distribution.max_blocksize_in_range] at h
  | BLOCKCYCLIC b =>
    have := hd b (Or.inl rfl)
    simp only [Distribution.max_blocksize_in_range] at h
    omega
  | TILE b =>
    have := hd b (Or.inr rfl)
    simp only [Distribution.max_blocksize_in_range] at h
    omega

/-- The local sizes of all units of a constructed pattern add up to the
extent. -/
theorem make_sum_local_size (size : Nat) (dist : Distribution)
    (nunits myid : Nat) (hn : 1 ≤ nunits)
    (hd : ∀ b, dist = .BLOCKCYCLIC b ∨ dist = .TILE b → 1 ≤ b) :
    ∑ u ∈ Finset.range nunits, (make size dist nunits myid).local_size u
      = size := by
  by_cases hb : 0 < (make size dist nunits myid)._blocksize
  · have hmaps : ∀ g ∈ Finset.range size,
        (make size dist nunits myid).unit_at g ∈ Finset.range nunits := by
      intro g _
      rw [Finset.mem_range]
      exact Nat.mod_lt _ hn
    have hcard := Finset.card_eq_sum_card_fiberwise hmaps
    rw [Finset.card_range] at hcard
    refine (Finset.sum_congr rfl ?_).trans hcard.symm
    intro u hu
    exact make_local_size_card size dist nunits myid u hb
      (Finset.mem_range.mp hu)
  · have hb0 : (make size dist nunits myid)._blocksize = 0 := by omega
    rw [make_blocksize_zero size dist nunits myid hn hd hb0]
    apply Finset.sum_eq_zero
    intro u _
    apply make_local_size_blocksize_zero
    have h := make_blocksize_zero size dist nunits myid hn hd hb0
    subst h
    exact hb0

/-- No unit of a constructed pattern holds more than the local capacity. -/
theorem make_local_size_le_capacity (size : Nat) (dist : Distribution)
    (nunits myid u : Nat) (hu : u < nunits) :
    (make size dist nunits myid).local_size u
      ≤ (make size dist nunits myid)._local_capacity := by
  by_cases hb : 0 < (make size dist nunits myid)._blocksize
  · have hnb := make_nblocks_pos size dist nunits myid hb
    have hn0 : nunits ≠ 0 := by omega
    rw [make_local_size, make_local_capacity]
    unfold initialize_local_extent initialize_local_capacity
    rw [make_nunits, make_size, if_neg hn0, if_neg hn0]
    split
    · next h =>
      obtain ⟨h1, h2⟩ := h
      have hc : math.div_ceil (make size dist nunits myid)._nblocks nunits
          = 1 := by
        rw [h1, h2]; rfl
      show size ≤ math.div_ceil (make size dist nunits myid)._nblocks nunits
        * (make size dist nunits myid)._blocksize
      rw [hc, Nat.one_mul]
      rw [hnb] at h1
      exact (single_block_size size _ hb h1).2.2
    · unfold underfilled_blocksize
      rw [make_size, hnb]
      rw [usub_of_le (local_extent_no_wrap size _ nunits u hb hu)]
      exact Nat.le_trans (Nat.sub_le _ _) (local_blocks_le_capacity _ _ _ _)
  · have hb0 : (make size dist nunits myid)._blocksize = 0 := by omega
    rw [make_local_size_blocksize_zero size dist nunits myid u hb0]
    exact Nat.zero_le _

/-- On a constructed pattern the subtraction inside
`initialize_local_extent` stays at or above zero. -/
theorem make_local_extent_no_wrap (size : Nat) (dist : Distribution)
    (nunits myid u : Nat) (hu : u < nunits) :
    (if u =
          (if (make size dist nunits myid)._nblocks
                % (make size dist nunits myid)._nunits = 0
           then usub (make size dist nunits myid)._nunits 1
           else usub ((make size dist nunits myid)._nblocks
                        % (make size dist nunits myid)._nunits) 1)
     then (make size dist nunits myid).underfilled_blocksize
     else 0)
    ≤ ((make size dist nunits myid)._nblocks
          / (make size dist nunits myid)._nunits)
        * (make size dist nunits myid)._blocksize
      + (if u < (make size dist nunits myid)._nblocks
                  % (make size dist nunits myid)._nunits
         then (make size dist nunits myid)._blocksize else 0) := by
  by_cases hb : 0 < (make size dist nunits myid)._blocksize
  · unfold underfilled_blocksize
    rw [make_nblocks_pos size dist nunits myid hb, make_nunits, make_size]
    exact local_extent_no_wrap size _ nunits u hb hu
  · have hb0 : (make size dist nunits myid)._blocksize = 0 := by omega
    unfold underfilled_blocksize
    simp [hb0]

end BlockPattern

/-! ## Properties of `BlockPattern<1>` -/

/-- Claim C1: Round trip global -> (unit, local) -> global: in a pattern with
at least one unit and block size at least 1, every global index `g` (in
particular every `g` below the extent) satisfies
`global(unit_at(g), local_coords(g)) = g`. -/
theorem BlockPattern.global_unit_at_local_coords (p : BlockPattern) (g : Nat)
    (hn : 1 ≤ p._nunits) (hb : 1 ≤ p._blocksize) :
    p.global (p.unit_at g) (p.local_coords g) = g := by
  unfold BlockPattern.global
  split
  · have h1 : p._nunits = 1 := by omega
    simp [BlockPattern.local_coords, h1, Nat.div_add_mod']
  · simp only [BlockPattern.unit_at, BlockPattern.local_coords,
      Distribution.local_index_to_block_coord]
    exact block_recompose g p._blocksize p._nunits hb

/-- Witness of C1: `BLOCKED` over 10 elements and 3 units, global index 9. -/
theorem BlockPattern.global_unit_at_local_coords_witness :
    (BlockPattern.make 10 .BLOCKED 3 0).global
        ((BlockPattern.make 10 .BLOCKED 3 0).unit_at 9)
        ((BlockPattern.make 10 .BLOCKED 3 0).local_coords 9) = 9 :=
  BlockPattern.global_unit_at_local_coords (BlockPattern.make 10 .BLOCKED 3 0)
    9 (by decide) (by decide)

/-- Claim C2: For every extent, every number of units `nunits ≥ 1` and every
distribution (`BLOCKCYCLIC(b)` and `TILE(b)` with `b ≥ 1`), the local sizes
`local_size(u)` of the units `u` in `[0, nunits)` of the constructed pattern,
whichever unit constructs it, add up to the extent. -/
theorem BlockPattern.sum_local_size_eq_extent (size : Nat)
    (dist : Distribution) (nunits myid : Nat) (hn : 1 ≤ nunits)
    (hd : ∀ b, dist = .BLOCKCYCLIC b ∨ dist = .TILE b → 1 ≤ b) :
    ∑ u ∈ Finset.range nunits,
        (BlockPattern.make size dist nunits myid).local_size u = size :=
  BlockPattern.make_sum_local_size size dist nunits myid hn hd

/-- Witness of C2: `BLOCKCYCLIC(3)` over 10 elements and 4 units. -/
theorem BlockPattern.sum_local_size_eq_extent_witness :
    ∑ u ∈ Finset.range 4,
        (BlockPattern.make 10 (.BLOCKCYCLIC 3) 4 1).local_size u = 10 :=
  BlockPattern.sum_local_size_eq_extent 10 (.BLOCKCYCLIC 3) 4 1 (by decide)
    (by
      intro b h
      rcases h with h | h
      · injection h with h
        omega
      · cases h)

/-- Claim C3: `local_size(u)` is the number of elements unit `u` owns: on a
constructed pattern with block size at least 1, for every unit `u` below
`nunits`, `local_size(u)` is the number of global indices `g` below the
extent with `unit_at(g) = u`. -/
theorem BlockPattern.local_size_eq_card_unit_at (size : Nat)
    (dist : Distribution) (nunits myid u : Nat)
    (hb : 1 ≤ (BlockPattern.make size dist nunits myid)._blocksize)
    (hu : u < nunits) :
    (BlockPattern.make size dist nunits myid).local_size u
      = ((Finset.range size).filter
          (fun g => (BlockPattern.make size dist nunits myid).unit_at g = u)).card :=
  BlockPattern.make_local_size_card size dist nunits myid u hb hu

/-- Witness of C3: `BLOCKED` over 10 elements and 3 units, the last unit. -/
theorem BlockPattern.local_size_eq_card_unit_at_witness :
    (BlockPattern.make 10 .BLOCKED 3 0).local_size 2
      = ((Finset.range 10).filter
          (fun g => (BlockPattern.make 10 .BLOCKED 3 0).unit_at g = 2)).card :=
  BlockPattern.local_size_eq_card_unit_at 10 .BLOCKED 3 0 2 (by decide)
    (by decide)

/-- Claim C4: On every constructed pattern and for every unit `u` below
`nunits`: the subtrahend of the unsigned subtraction in
`initialize_local_extent(u)` is at most its minuend (the subtraction does not
wrap), `local_size(u)` is at most `local_capacity`, and `local_capacity` is
`div_ceil(nblocks, nunits) * blocksize` whatever its unit argument and
whichever unit constructed the pattern. -/
theorem BlockPattern.local_size_le_local_capacity (size : Nat)
    (dist : Distribution) (nunits myid u : Nat) (hu : u < nunits) :
    (if u =
          (if (BlockPattern.make size dist nunits myid)._nblocks
                % (BlockPattern.make size dist nunits myid)._nunits = 0
           then usub (BlockPattern.make size dist nunits myid)._nunits 1
           else usub ((BlockPattern.make size dist nunits myid)._nblocks
                        % (BlockPattern.make size dist nunits myid)._nunits) 1)
     then (BlockPattern.make size dist nunits myid).underfilled_blocksize
     else 0)
      ≤ ((BlockPattern.make size dist nunits myid)._nblocks
            / (BlockPattern.make size dist nunits myid)._nunits)
          * (BlockPattern.make size dist nunits myid)._blocksize
        + (if u < (BlockPattern.make size dist nunits myid)._nblocks
                    % (BlockPattern.make size dist nunits myid)._nunits
           then (BlockPattern.make size dist nunits myid)._blocksize else 0)
    ∧ (∀ v : Int,
        (BlockPattern.make size dist nunits myid).local_size u
          ≤ (BlockPattern.make size dist nunits myid).local_capacity v)
    ∧ (∀ (myid2 : Nat) (v : Int),
        (BlockPattern.make size dist nunits myid2).local_capacity v
          = math.div_ceil
              (BlockPattern.initialize_num_blocks size
                (BlockPattern.initialize_blocksize size dist nunits) nunits)
              nunits
            * BlockPattern.initialize_blocksize size dist nunits) := by
  refine ⟨BlockPattern.make_local_extent_no_wrap size dist nunits myid u hu,
    fun _ => BlockPattern.make_local_size_le_capacity size dist nunits myid u hu,
    ?_⟩
  intro myid2 v
  have hn0 : nunits ≠ 0 := by omega
  show (BlockPattern.make size dist nunits myid2).initialize_local_capacity = _
  unfold BlockPattern.initialize_local_capacity
  rw [BlockPattern.make_nunits, if_neg hn0]
  rfl

/-- Witness of C4: `BLOCKED` over 10 elements and 3 units, the unit of the
underfilled last block. -/
theorem BlockPattern.local_size_le_local_capacity_witness :
    (BlockPattern.make 10 .BLOCKED 3 0).local_size 2
      ≤ (BlockPattern.make 10 .BLOCKED 3 0).local_capacity (-1) :=
  (BlockPattern.local_size_le_local_capacity 10 .BLOCKED 3 0 2
    (by decide)).2.1 (-1)

/-! ## Properties of `GlobAsyncRef<T>` -/

/-- Claim C5: Write of a new value: if the value of the reference is not known
or differs from `v`, then `operator=(v)` leaves the cache at `v` with
`_has_value` and `_has_changed` set and issues exactly one store of `v`: for
a remote reference one `put_value_nonblock(v, _gptr)` appended to the
transport log and nothing else, for a local reference with address `a` the
write of `v` to `a` and no transport call. -/
theorem GlobAsyncRef.operator_assign_new_value {T : Type} [DecidableEq T]
    (r : GlobAsyncRef T) (w : World T) (v : T)
    (h : r._has_value = false ∨ r._value ≠ v) :
    (r._is_local = false →
      r.operator_assign w v
        = some ({ r with _value := v, _has_changed := true, _has_value := true },
                { w with log :=
                    w.log ++ [TransportCall.put_value_nonblock v r._gptr] }))
    ∧ (∀ a, r._is_local = true → r._lptr = some a →
      r.operator_assign w v
        = some ({ r with _value := v, _has_changed := true, _has_value := true },
                { w with local_mem := Function.update w.local_mem a v })) := by
  have hc : (!r._has_value || r._value != v) = true := by
    rcases h with h | h
    · simp [h]
    · simp [h]
  constructor
  · intro hl
    simp only [GlobAsyncRef.operator_assign, hc, if_true, hl, put_value_nonblock]
    rfl
  · intro a hl ha
    simp only [GlobAsyncRef.operator_assign, hc, if_true, hl, ha]

/-- Witness of C5: the first write of 123 through a fresh remote reference
issues one non-blocking put of 123. -/
theorem GlobAsyncRef.operator_assign_new_value_witness :
    demo_remote_ref.operator_assign demo_world 123
      = some ({ demo_remote_ref with
                  _value := 123, _has_changed := true, _has_value := true },
              { demo_world with log :=
                  demo_world.log
                    ++ [TransportCall.put_value_nonblock 123
                          demo_remote_ref._gptr] }) :=
  (GlobAsyncRef.operator_assign_new_value demo_remote_ref demo_world 123
    (Or.inl rfl)).1 rfl

/-- Claim C6: Redundant write.  (a) If the value of the reference is known and
equal to `v`, `operator=(v)` is a no-op: it returns with the reference (cache
and flags) and the world (memory and transport log) unchanged.  (b) Whenever
`operator=(v)` returns, a second `operator=(v)` right after changes nothing
at all, and the first call logged at most the one non-blocking put of `v`:
two equal writes in a row issue at most one remote store.  (c) `operator=(v)`
returns on every reference that is remote or has a local address. -/
theorem GlobAsyncRef.operator_assign_same_value {T : Type} [DecidableEq T]
    (r : GlobAsyncRef T) (w : World T) (v : T) :
    (r._has_value = true → r._value = v → r.operator_assign w v = some (r, w))
    ∧ (∀ (r1 : GlobAsyncRef T) (w1 : World T),
        r.operator_assign w v = some (r1, w1) →
          r1.operator_assign w1 v = some (r1, w1)
          ∧ (w1.log = w.log
              ∨ w1.log
                  = w.log ++ [TransportCall.put_value_nonblock v r._gptr]))
    ∧ ((r._is_local = true → r._lptr ≠ none) →
        ∃ r1 w1, r.operator_assign w v = some (r1, w1)) := by
  refine ⟨?_, ?_, ?_⟩
  · intro hk hv
    simp [GlobAsyncRef.operator_assign, hk, hv]
  · intro r1 w1 h
    unfold GlobAsyncRef.operator_assign at h
    by_cases hc : (!r._has_value || r._value != v) = true
    · rw [if_pos hc] at h
      by_cases hl : r._is_local = true
      · simp only [hl, if_true] at h
        cases ha : r._lptr with
        | none => simp [ha] at h
        | some a =>
          simp only [ha, Option.some.injEq, Prod.mk.injEq] at h
          obtain ⟨h1, h2⟩ := h
          subst h1 h2
          refine ⟨?_, Or.inl rfl⟩
          simp [GlobAsyncRef.operator_assign]
      · simp only [hl, Bool.false_eq_true, if_false, Option.some.injEq,
          Prod.mk.injEq] at h
        obtain ⟨h1, h2⟩ := h
        subst h1 h2
        refine ⟨?_, Or.inr rfl⟩
        simp [GlobAsyncRef.operator_assign]
    · rw [if_neg hc] at h
      simp only [Option.some.injEq, Prod.mk.injEq] at h
      obtain ⟨h1, h2⟩ := h
      subst h1 h2
      refine ⟨?_, Or.inl rfl⟩
      unfold GlobAsyncRef.operator_assign
      rw [if_neg hc]
  · intro hwf
    unfold GlobAsyncRef.operator_assign
    by_cases hc : (!r._has_value || r._value != v) = true
    · rw [if_pos hc]
      by_cases hl : r._is_local = true
      · cases ha : r._lptr with
        | none => exact absurd ha (hwf hl)
        | some a => simp [hl, ha]
      · simp [hl]
    · rw [if_neg hc]
      exact ⟨r, w, rfl⟩

/-- Witness of C6: after 123 was written through a fresh remote reference,
writing 123 again changes nothing. -/
theorem GlobAsyncRef.operator_assign_same_value_witness :
    GlobAsyncRef.operator_assign
        { demo_remote_ref with
            _value := 123, _has_changed := true, _has_value := true }
        (put_value_nonblock demo_world 123 demo_remote_gptr) 123
      = some ({ demo_remote_ref with
                  _value := 123, _has_changed := true, _has_value := true },
              put_value_nonblock demo_world 123 demo_remote_gptr) :=
  ((GlobAsyncRef.operator_assign_same_value demo_remote_ref demo_world
    123).2.1
    { demo_remote_ref with
        _value := 123, _has_changed := true, _has_value := true }
    (put_value_nonblock demo_world 123 demo_remote_gptr) rfl).1

/-- Claim C7, evaluated on the code: A fresh remote reference is in state unknown; its
value conversion returns the fetched 7 and logs one blocking get, but leaves
`_has_value` false, and the write of that same 7 right after issues a
non-blocking put. -/
theorem GlobAsyncRef.operator_T_unknown_remote_eval :
    demo_remote_ref._is_local = false
    ∧ demo_remote_ref._has_value = false
    ∧ (demo_remote_ref.operator_T demo_world).1 = 7
    ∧ (demo_remote_ref.operator_T demo_world).2.2.log
        = [TransportCall.get_value demo_remote_gptr]
    ∧ (demo_remote_ref.operator_T demo_world).2.1._has_value = false
    ∧ Option.map (fun x => x.2.log)
        (GlobAsyncRef.operator_assign
          (demo_remote_ref.operator_T demo_world).2.1
          (demo_remote_ref.operator_T demo_world).2.2 7)
        = some [TransportCall.get_value demo_remote_gptr,
                TransportCall.put_value_nonblock 7 demo_remote_gptr] := by
  refine ⟨rfl, rfl, rfl, rfl, rfl, rfl⟩

/-- Claim C8, evaluated on the code: After `ref = 123` a remote reference is known-dirty
with 123 cached; its value conversion nevertheless logs a blocking get and
returns what the get delivers, 7. -/
theorem GlobAsyncRef.operator_T_known_remote_eval :
    demo_remote_ref.operator_assign demo_world 123
      = some ({ demo_remote_ref with
                  _value := 123, _has_changed := true, _has_value := true },
              put_value_nonblock demo_world 123 demo_remote_gptr)
    ∧ (GlobAsyncRef.operator_T
          { demo_remote_ref with
              _value := 123, _has_changed := true, _has_value := true }
          (put_value_nonblock demo_world 123 demo_remote_gptr)).1 = 7
    ∧ (GlobAsyncRef.operator_T
          { demo_remote_ref with
              _value := 123, _has_changed := true, _has_value := true }
          (put_value_nonblock demo_world 123 demo_remote_gptr)).2.2.log
        = [TransportCall.put_value_nonblock 123 demo_remote_gptr,
           TransportCall.get_value demo_remote_gptr] := by
  refine ⟨rfl, rfl, rfl⟩

/-- Claim C9: Initial state: a reference constructed from a local address `a`
is known-clean with the content of `a` cached; a reference constructed from a
global pointer is, when the pointer is local at address `a`, known-clean with
the content of `a` cached, and when it is remote, unknown (`_has_value` and
`_has_changed` false); none of the constructors issues a transport call or
changes memory. -/
theorem GlobAsyncRef.initial_state {T : Type} (w : World T) (uninit : T) :
    (∀ a : Nat,
      GlobAsyncRef.of_lptr w (some a)
        = some ({ _value := w.local_mem a, _gptr := DART_GPTR_NULL,
                  _lptr := some a, _has_changed := false, _is_local := true,
                  _has_value := true }, w))
    ∧ (∀ gptr : dart_gptr_t,
      GlobAsyncRef.of_gptr uninit w gptr
        = match w.to_lptr gptr with
          | some a =>
            ({ _value := w.local_mem a, _gptr := gptr, _lptr := some a,
               _has_changed := false, _is_local := true, _has_value := true },
             w)
          | none =>
            ({ _value := uninit, _gptr := gptr, _lptr := none,
               _has_changed := false, _is_local := false,
               _has_value := false }, w)) := by
  constructor
  · intro a
    rfl
  · intro gptr
    unfold GlobAsyncRef.of_gptr GlobPtr.is_local GlobRef.operator_T
    cases h : w.to_lptr gptr with
    | none => simp
    | some a => simp [h]

/-! ## Properties of `CollectiveAllocator<ElementType>` -/

/-- Claim C10: `allocate(n)`: let the transport answer the aligned team
allocation with return code `ret` and pointer `out`.  The call is logged once
in either case; if `ret` is `DART_OK`, `allocate` returns `out` and appends it
to `_allocated`, the earlier entries and the team unchanged; otherwise it
returns `DART_GPTR_NULL` and the allocator is unchanged. -/
theorem CollectiveAllocator.allocate_result (E : ElementType)
    (self : CollectiveAllocator) (rt : Runtime) (n : Nat) (ret : dart_ret_t)
    (out : dart_gptr_t)
    (h : rt.memalloc rt.log self._team_id (E.dart_storage n).nelem
          (E.dart_storage n).dtype DART_GPTR_NULL = (ret, out)) :
    (self.allocate E rt n).2.2
        = { rt with log := rt.log ++
              [DartCall.dart_team_memalloc_aligned self._team_id
                (E.dart_storage n).nelem (E.dart_storage n).dtype] }
    ∧ (ret = dart_ret_t.DART_OK →
        (self.allocate E rt n).1 = out
        ∧ (self.allocate E rt n).2.1
            = { _team_id := self._team_id,
                _allocated := self._allocated ++ [out] })
    ∧ (ret ≠ dart_ret_t.DART_OK →
        (self.allocate E rt n).1 = DART_GPTR_NULL
        ∧ (self.allocate E rt n).2.1 = self) := by
  unfold CollectiveAllocator.allocate dart_team_memalloc_aligned
  simp only [h]
  by_cases hr : ret = dart_ret_t.DART_OK
  · simp [hr]
  · simp [hr]

/-- Witness of C10: a granted allocation of 10 elements on team 0 by an
allocator that already owns one pointer, and a refused one. -/
theorem CollectiveAllocator.allocate_result_witness :
    (CollectiveAllocator.allocate demo_int
        { _team_id := 0, _allocated := [dart_gptr_t.gptr 0 0 5 0] }
        demo_runtime 10).1 = dart_gptr_t.gptr 0 0 1 0
    ∧ (CollectiveAllocator.allocate demo_int
        { _team_id := 0, _allocated := [dart_gptr_t.gptr 0 0 5 0] }
        demo_runtime 10).2.1
        = { _team_id := 0,
            _allocated := [dart_gptr_t.gptr 0 0 5 0, dart_gptr_t.gptr 0 0 1 0] }
    ∧ (CollectiveAllocator.allocate demo_int
        { _team_id := 0, _allocated := [dart_gptr_t.gptr 0 0 5 0] }
        demo_runtime_failing 10).1 = DART_GPTR_NULL :=
  ⟨((CollectiveAllocator.allocate_result demo_int
      { _team_id := 0, _allocated := [dart_gptr_t.gptr 0 0 5 0] }
      demo_runtime 10 dart_ret_t.DART_OK (dart_gptr_t.gptr 0 0 1 0)
      rfl).2.1 rfl).1,
   ((CollectiveAllocator.allocate_result demo_int
      { _team_id := 0, _allocated := [dart_gptr_t.gptr 0 0 5 0] }
      demo_runtime 10 dart_ret_t.DART_OK (dart_gptr_t.gptr 0 0 1 0)
      rfl).2.1 rfl).2,
   ((CollectiveAllocator.allocate_result demo_int
      { _team_id := 0, _allocated := [dart_gptr_t.gptr 0 0 5 0] }
      demo_runtime_failing 10 (dart_ret_t.DART_ERR 1)
      (dart_gptr_t.gptr 0 0 99 0) rfl).2.2 (by decide)).1⟩

/-! ## Proofs: deallocation and `clear()` -/

namespace CollectiveAllocator

/-- After `dash::finalize()`, `_deallocate` returns at once. -/
theorem _deallocate_finalized (self : CollectiveAllocator) (rt : Runtime)
    (gptr : dart_gptr_t) (keep : Bool) (hi : rt.is_initialized = false) :
    self._deallocate rt gptr keep = some (self, rt) := by
  simp [_deallocate, hi]

/-- While the runtime is initialised and the assertions pass, `_deallocate`
issues a barrier and then the free, and erases the pointer unless it is told
to keep the reference. -/
theorem _deallocate_initialized (self : CollectiveAllocator) (rt : Runtime)
    (gptr : dart_gptr_t) (keep : Bool) (hi : rt.is_initialized = true)
    (hpass : rt.asserts_pass) :
    self._deallocate rt gptr keep
      = some (if keep = true then self
              else { self with
                       _allocated :=
                         self._allocated.filter (fun g => g != gptr) },
              { rt with log := rt.log ++
                  [DartCall.dart_barrier self._team_id,
                   DartCall.dart_team_memfree self._team_id gptr] }) := by
  obtain ⟨hb, hf⟩ := hpass
  cases keep <;>
    simp [_deallocate, hi, dart_barrier, dart_team_memfree, hb, hf,
      List.append_assoc]

/-- After `dash::finalize()`, the loop of `clear()` does nothing. -/
theorem clear_loop_finalized (self : CollectiveAllocator) (rt : Runtime)
    (l : List dart_gptr_t) (hi : rt.is_initialized = false) :
    self.clear_loop rt l = some (self, rt) := by
  induction l with
  | nil => rfl
  | cons p rest ih =>
    simp only [clear_loop, _deallocate_finalized self rt p true hi]
    exact ih

/-- While the runtime is initialised and the assertions pass, the loop of
`clear()` issues a barrier and a free for every entry, in order, and leaves
the allocator as it is. -/
theorem clear_loop_initialized (self : CollectiveAllocator)
    (l : List dart_gptr_t) (rt : Runtime) (hi : rt.is_initialized = true)
    (hpass : rt.asserts_pass) :
    self.clear_loop rt l
      = some (self,
              { rt with log := rt.log ++
                  l.flatMap (fun p =>
                    [DartCall.dart_barrier self._team_id,
                     DartCall.dart_team_memfree self._team_id p]) }) := by
  induction l generalizing rt with
  | nil => simp [clear_loop]
  | cons p rest ih =>
    simp only [clear_loop, _deallocate_initialized self rt p true hi hpass,
      if_true]
    rw [ih { rt with log := rt.log ++
        [DartCall.dart_barrier self._team_id,
         DartCall.dart_team_memfree self._team_id p] } hi hpass]
    simp [List.flatMap_cons, List.append_assoc]

/-- After `dash::finalize()`, `clear()` only empties `_allocated`. -/
theorem clear_finalized (self : CollectiveAllocator) (rt : Runtime)
    (hi : rt.is_initialized = false) :
    self.clear rt = some ({ self with _allocated := [] }, rt) := by
  simp [clear, clear_loop_finalized self rt _ hi]

/-- While the runtime is initialised and the assertions pass, `clear()`
releases every entry and empties `_allocated`. -/
theorem clear_initialized (self : CollectiveAllocator) (rt : Runtime)
    (hi : rt.is_initialized = true) (hpass : rt.asserts_pass) :
    self.clear rt
      = some ({ self with _allocated := [] },
              { rt with log := rt.log ++
                  self._allocated.flatMap (fun p =>
                    [DartCall.dart_barrier self._team_id,
                     DartCall.dart_team_memfree self._team_id p]) }) := by
  simp [clear, clear_loop_initialized self _ rt hi hpass]

/-- An allocator that owns nothing is cleared without any transport call,
whatever the state of the runtime. -/
theorem clear_empty (self : CollectiveAllocator) (rt : Runtime)
    (h : self._allocated = []) : self.clear rt = some (self, rt) := by
  cases self with
  | mk t a =>
    simp only at h
    subst h
    rfl

/-- A free of `p` occurs among the release calls of `l` as often as `p`
occurs in `l`. -/
theorem count_release_calls (teamid : Nat) (p : dart_gptr_t)
    (l : List dart_gptr_t) :
    (l.flatMap (fun q =>
        [DartCall.dart_barrier teamid,
         DartCall.dart_team_memfree teamid q])).count
        (DartCall.dart_team_memfree teamid p)
      = l.count p := by
  induction l with
  | nil => rfl
  | cons q rest ih =>
    rw [List.flatMap_cons, List.count_append, ih, List.count_cons]
    by_cases hq : q = p
    · subst hq
      simp [List.count_cons]
      omega
    · have hq2 : ¬ p = q := fun h => hq h.symm
      simp [List.count_cons, hq, hq2]

/-- Every free among the release calls of `l` on team `teamid` is a free on
that team of an entry of `l`. -/
theorem mem_release_calls (teamid t : Nat) (p : dart_gptr_t)
    (l : List dart_gptr_t)
    (h : DartCall.dart_team_memfree t p ∈
          l.flatMap (fun q =>
            [DartCall.dart_barrier teamid,
             DartCall.dart_team_memfree teamid q])) :
    t = teamid ∧ p ∈ l := by
  rw [List.mem_flatMap] at h
  obtain ⟨q, hq, hm⟩ := h
  simp at hm
  exact ⟨hm.1, hm.2 ▸ hq⟩

end CollectiveAllocator

/-! ## Properties of `CollectiveAllocator<ElementType>`: release and ownership -/

/-- Claim C11: Allocate/deallocate round trip.  While the runtime is
initialised (and the assertions on the transport's answers pass),
`deallocate(p)` issues one barrier and then one free of `p` on the
allocator's team and erases `p` from `_allocated`, every other entry staying
in place; in particular, on an allocator that owns nothing, a granted
`allocate(n)` followed by `deallocate` of the returned pointer leaves
`_allocated` empty, the transport having seen the allocation, one barrier and
one free of that pointer. -/
theorem CollectiveAllocator.allocate_deallocate_round_trip (E : ElementType)
    (self : CollectiveAllocator) (rt : Runtime) (n : Nat) (p : dart_gptr_t)
    (hi : rt.is_initialized = true) (hpass : rt.asserts_pass) :
    self.deallocate rt p
      = some ({ self with
                  _allocated := self._allocated.filter (fun g => g != p) },
              { rt with log := rt.log ++
                  [DartCall.dart_barrier self._team_id,
                   DartCall.dart_team_memfree self._team_id p] })
    ∧ p ∉ self._allocated.filter (fun g => g != p)
    ∧ (∀ q, q ≠ p →
        (self._allocated.filter (fun g => g != p)).count q
          = self._allocated.count q)
    ∧ (self._allocated = [] →
        ∀ out,
          rt.memalloc rt.log self._team_id (E.dart_storage n).nelem
              (E.dart_storage n).dtype DART_GPTR_NULL
            = (dart_ret_t.DART_OK, out) →
          (self.allocate E rt n).1 = out
          ∧ (self.allocate E rt n).2.1.deallocate (self.allocate E rt n).2.2
                (self.allocate E rt n).1
              = some ({ _team_id := self._team_id, _allocated := [] },
                      { rt with log := rt.log ++
                          [DartCall.dart_team_memalloc_aligned self._team_id
                             (E.dart_storage n).nelem (E.dart_storage n).dtype,
                           DartCall.dart_barrier self._team_id,
                           DartCall.dart_team_memfree self._team_id out] })) := by
  refine ⟨?_, ?_, ?_, ?_⟩
  · unfold CollectiveAllocator.deallocate
    rw [CollectiveAllocator._deallocate_initialized self rt p false hi hpass]
    simp
  · simp [List.mem_filter]
  · intro q hq
    rw [List.count_filter]
    simpa using hq
  · intro hempty out halloc
    have hal : self.allocate E rt n
        = (out, { self with _allocated := self._allocated ++ [out] },
            { rt with log := rt.log ++
                [DartCall.dart_team_memalloc_aligned self._team_id
                  (E.dart_storage n).nelem (E.dart_storage n).dtype] }) := by
      simp [CollectiveAllocator.allocate, dart_team_memalloc_aligned, halloc]
    rw [hal]
    refine ⟨rfl, ?_⟩
    have h2 := CollectiveAllocator._deallocate_initialized
      { self with _allocated := self._allocated ++ [out] }
      { rt with log := rt.log ++
          [DartCall.dart_team_memalloc_aligned self._team_id
            (E.dart_storage n).nelem (E.dart_storage n).dtype] }
      out false hi hpass
    unfold CollectiveAllocator.deallocate
    simp only []
    rw [h2]
    simp [hempty, List.append_assoc]

/-- Witness of C11: on the demo runtime an allocator on team 0 that owns two
pointers deallocates the first; and an allocator that owns nothing allocates
10 elements and deallocates them again. -/
theorem CollectiveAllocator.allocate_deallocate_round_trip_witness :
    demo_allocator.deallocate demo_runtime (dart_gptr_t.gptr 0 0 1 0)
      = some ({ _team_id := 0, _allocated := [dart_gptr_t.gptr 0 0 2 0] },
              { demo_runtime with log :=
                  [DartCall.dart_barrier 0,
                   DartCall.dart_team_memfree 0 (dart_gptr_t.gptr 0 0 1 0)] })
    ∧ (CollectiveAllocator.allocate demo_int
          { _team_id := 0, _allocated := [] } demo_runtime 10).2.1.deallocate
        (CollectiveAllocator.allocate demo_int
          { _team_id := 0, _allocated := [] } demo_runtime 10).2.2
        (CollectiveAllocator.allocate demo_int
          { _team_id := 0, _allocated := [] } demo_runtime 10).1
      = some ({ _team_id := 0, _allocated := [] },
              { demo_runtime with log :=
                  [DartCall.dart_team_memalloc_aligned 0 10 3,
                   DartCall.dart_barrier 0,
                   DartCall.dart_team_memfree 0 (dart_gptr_t.gptr 0 0 1 0)] }) :=
  ⟨(CollectiveAllocator.allocate_deallocate_round_trip demo_int demo_allocator
      demo_runtime 10 (dart_gptr_t.gptr 0 0 1 0) rfl
      ⟨fun _ _ => rfl, fun _ _ _ => rfl⟩).1,
   ((CollectiveAllocator.allocate_deallocate_round_trip demo_int
      { _team_id := 0, _allocated := [] } demo_runtime 10
      (dart_gptr_t.gptr 0 0 1 0) rfl
      ⟨fun _ _ => rfl, fun _ _ _ => rfl⟩).2.2.2 rfl
      (dart_gptr_t.gptr 0 0 1 0) rfl).2⟩

/-- Claim C12, as stated, fails: on the initialised demo runtime two
`deallocate(p)` in succession both return and issue two frees of `p`. -/
theorem CollectiveAllocator.deallocate_twice_counterexample :
    Option.map (fun x => x.2.log)
        ((demo_allocator.deallocate demo_runtime
            (dart_gptr_t.gptr 0 0 1 0)).bind
          (fun x => x.1.deallocate x.2 (dart_gptr_t.gptr 0 0 1 0)))
      = some [DartCall.dart_barrier 0,
              DartCall.dart_team_memfree 0 (dart_gptr_t.gptr 0 0 1 0),
              DartCall.dart_barrier 0,
              DartCall.dart_team_memfree 0 (dart_gptr_t.gptr 0 0 1 0)]
    ∧ ¬ List.count (DartCall.dart_team_memfree 0 (dart_gptr_t.gptr 0 0 1 0))
          [DartCall.dart_barrier 0,
           DartCall.dart_team_memfree 0 (dart_gptr_t.gptr 0 0 1 0),
           DartCall.dart_barrier 0,
           DartCall.dart_team_memfree 0 (dart_gptr_t.gptr 0 0 1 0)] ≤ 1 := by
  refine ⟨rfl, by decide⟩

/-- Claim C12, amended: two `deallocate(p)` in succession issue no transport
call and change nothing when the runtime is not initialised; while it is
initialised (and the assertions pass) each of the two calls issues one
barrier and then one free of `p`, two frees of `p` in all, and the second
call leaves `_allocated` as the first left it, without `p`. -/
theorem CollectiveAllocator.deallocate_twice (self : CollectiveAllocator)
    (rt : Runtime) (p : dart_gptr_t) :
    (rt.is_initialized = false →
      (self.deallocate rt p).bind (fun x => x.1.deallocate x.2 p)
        = some (self, rt))
    ∧ (rt.is_initialized = true → rt.asserts_pass →
      (self.deallocate rt p).bind (fun x => x.1.deallocate x.2 p)
        = some ({ self with
                    _allocated := self._allocated.filter (fun g => g != p) },
                { rt with log := rt.log ++
                    [DartCall.dart_barrier self._team_id,
                     DartCall.dart_team_memfree self._team_id p,
                     DartCall.dart_barrier self._team_id,
                     DartCall.dart_team_memfree self._team_id p] })) := by
  constructor
  · intro hi
    unfold CollectiveAllocator.deallocate
    rw [CollectiveAllocator._deallocate_finalized self rt p false hi]
    exact CollectiveAllocator._deallocate_finalized self rt p false hi
  · intro hi hpass
    unfold CollectiveAllocator.deallocate
    rw [CollectiveAllocator._deallocate_initialized self rt p false hi hpass]
    simp only [Option.some_bind, Bool.false_eq_true, if_false]
    rw [CollectiveAllocator._deallocate_initialized
      { self with _allocated := self._allocated.filter (fun g => g != p) }
      { rt with log := rt.log ++
          [DartCall.dart_barrier self._team_id,
           DartCall.dart_team_memfree self._team_id p] }
      p false hi hpass]
    simp [List.filter_filter, List.append_assoc]

/-- Witness of C12, amended: after `dash::finalize()` two deallocations of an
owned pointer change nothing. -/
theorem CollectiveAllocator.deallocate_twice_witness :
    (demo_allocator.deallocate demo_runtime_finalized
        (dart_gptr_t.gptr 0 0 1 0)).bind
      (fun x => x.1.deallocate x.2 (dart_gptr_t.gptr 0 0 1 0))
      = some (demo_allocator, demo_runtime_finalized) :=
  (CollectiveAllocator.deallocate_twice demo_allocator demo_runtime_finalized
    (dart_gptr_t.gptr 0 0 1 0)).1 rfl

/-- Claim C13: Post-teardown deallocation is a guarded no-op: when the
runtime is not initialised, `deallocate(p)` returns with the allocator and
the runtime (its transport log) unchanged, for every `p`; `clear()` and the
destructor return with an empty `_allocated` and the runtime unchanged. -/
theorem CollectiveAllocator.deallocate_after_finalize
    (self : CollectiveAllocator) (rt : Runtime) (p : dart_gptr_t)
    (hi : rt.is_initialized = false) :
    self.deallocate rt p = some (self, rt)
    ∧ self.clear rt = some ({ self with _allocated := [] }, rt)
    ∧ self.destroy rt = some ({ self with _allocated := [] }, rt) :=
  ⟨CollectiveAllocator._deallocate_finalized self rt p false hi,
   CollectiveAllocator.clear_finalized self rt hi,
   CollectiveAllocator.clear_finalized self rt hi⟩

/-- Witness of C13: the demo allocator after `dash::finalize()`. -/
theorem CollectiveAllocator.deallocate_after_finalize_witness :
    demo_allocator.deallocate demo_runtime_finalized (dart_gptr_t.gptr 0 0 1 0)
      = some (demo_allocator, demo_runtime_finalized)
    ∧ demo_allocator.destroy demo_runtime_finalized
      = some ({ demo_allocator with _allocated := [] }, demo_runtime_finalized) :=
  ⟨(CollectiveAllocator.deallocate_after_finalize demo_allocator
      demo_runtime_finalized (dart_gptr_t.gptr 0 0 1 0) rfl).1,
   (CollectiveAllocator.deallocate_after_finalize demo_allocator
      demo_runtime_finalized (dart_gptr_t.gptr 0 0 1 0) rfl).2.2⟩

/-- Claim C14: Move construction transfers ownership: the allocator
move-constructed from `other` has the team and the `_allocated` of `other`,
`other` keeps its team and owns nothing, the runtime (its transport log) is
unchanged, and destroying the moved-from `other` afterwards, in whatever
state the runtime then is, returns without a transport call. -/
theorem CollectiveAllocator.move_construct_transfers
    (other : CollectiveAllocator) (rt : Runtime) :
    (CollectiveAllocator.move_construct other rt).1
      = { _team_id := other._team_id, _allocated := other._allocated }
    ∧ (CollectiveAllocator.move_construct other rt).2.1
      = { _team_id := other._team_id, _allocated := [] }
    ∧ (CollectiveAllocator.move_construct other rt).2.2 = rt
    ∧ (∀ rt2 : Runtime,
        (CollectiveAllocator.move_construct other rt).2.1.destroy rt2
          = some ((CollectiveAllocator.move_construct other rt).2.1, rt2)) :=
  ⟨rfl, rfl, rfl, fun rt2 => CollectiveAllocator.clear_empty _ rt2 rfl⟩

/-- Claim C15: Move assignment transfers ownership.  For distinct objects:
the target takes the team and the `_allocated` of `other`, `other` keeps its
team and owns nothing; the transport sees nothing when the runtime is not
initialised and otherwise (the assertions passing) exactly a barrier and a
free, on the target's former team, for every entry the target owned, so
that an entry of `other` that the target did not own is not freed; and
destroying `other` afterwards returns without a transport call.
Self-assignment returns with the object and the runtime unchanged. -/
theorem CollectiveAllocator.operator_move_assign_transfers
    (self other : CollectiveAllocator) (rt : Runtime) :
    self.operator_move_assign none rt = some (self, none, rt)
    ∧ (rt.is_initialized = false →
        self.operator_move_assign (some other) rt
          = some ({ _team_id := other._team_id,
                    _allocated := other._allocated },
                  some { _team_id := other._team_id, _allocated := [] }, rt))
    ∧ (rt.is_initialized = true → rt.asserts_pass →
        self.operator_move_assign (some other) rt
          = some ({ _team_id := other._team_id,
                    _allocated := other._allocated },
                  some { _team_id := other._team_id, _allocated := [] },
                  { rt with log := rt.log ++
                      self._allocated.flatMap (fun p =>
                        [DartCall.dart_barrier self._team_id,
                         DartCall.dart_team_memfree self._team_id p]) }))
    ∧ (∀ p : dart_gptr_t,
        (self._allocated.flatMap (fun q =>
            [DartCall.dart_barrier self._team_id,
             DartCall.dart_team_memfree self._team_id q])).count
            (DartCall.dart_team_memfree self._team_id p)
          = self._allocated.count p)
    ∧ (∀ (t : Nat) (p : dart_gptr_t), p ∈ other._allocated →
        p ∉ self._allocated →
        DartCall.dart_team_memfree t p ∉
          self._allocated.flatMap (fun q =>
            [DartCall.dart_barrier self._team_id,
             DartCall.dart_team_memfree self._team_id q]))
    ∧ (∀ rt2 : Runtime,
        CollectiveAllocator.destroy
            { _team_id := other._team_id, _allocated := [] } rt2
          = some ({ _team_id := other._team_id, _allocated := [] }, rt2)) := by
  refine ⟨rfl, ?_, ?_, ?_, ?_, ?_⟩
  · intro hi
    simp [CollectiveAllocator.operator_move_assign,
      CollectiveAllocator.clear_finalized self rt hi]
  · intro hi hpass
    simp [CollectiveAllocator.operator_move_assign,
      CollectiveAllocator.clear_initialized self rt hi hpass]
  · intro p
    exact CollectiveAllocator.count_release_calls self._team_id p _
  · intro t p _ hp hm
    exact hp (CollectiveAllocator.mem_release_calls self._team_id t p _ hm).2
  · intro rt2
    exact CollectiveAllocator.clear_empty _ rt2 rfl

/-- Witness of C15: on the demo runtime the allocator on team 7, owning one
pointer, is move-assigned the allocator on team 0, which owns two. -/
theorem CollectiveAllocator.operator_move_assign_transfers_witness :
    demo_allocator_other.operator_move_assign (some demo_allocator)
        demo_runtime
      = some ({ _team_id := 0,
                _allocated :=
                  [dart_gptr_t.gptr 0 0 1 0, dart_gptr_t.gptr 0 0 2 0] },
              some { _team_id := 0, _allocated := [] },
              { demo_runtime with log :=
                  [DartCall.dart_barrier 7,
                   DartCall.dart_team_memfree 7 (dart_gptr_t.gptr 7 0 3 0)] }) :=
  (CollectiveAllocator.operator_move_assign_transfers demo_allocator_other
    demo_allocator demo_runtime).2.2.1 rfl ⟨fun _ _ => rfl, fun _ _ _ => rfl⟩

/-- Claim C16: Destruction releases everything exactly once: while the
runtime is initialised (and the assertions pass), destroying an allocator
whose `_allocated` holds pairwise distinct pointers issues, entry by entry,
a barrier and then the free of that entry on the allocator's team, hence
exactly one free for each owned pointer and no free of anything else, and
leaves `_allocated` empty. -/
theorem CollectiveAllocator.destroy_releases_once
    (self : CollectiveAllocator) (rt : Runtime)
    (hi : rt.is_initialized = true) (hpass : rt.asserts_pass)
    (hnd : self._allocated.Nodup) :
    self.destroy rt
      = some ({ self with _allocated := [] },
              { rt with log := rt.log ++
                  self._allocated.flatMap (fun p =>
                    [DartCall.dart_barrier self._team_id,
                     DartCall.dart_team_memfree self._team_id p]) })
    ∧ (∀ p ∈ self._allocated,
        (self._allocated.flatMap (fun q =>
            [DartCall.dart_barrier self._team_id,
             DartCall.dart_team_memfree self._team_id q])).count
            (DartCall.dart_team_memfree self._team_id p) = 1)
    ∧ (∀ (t : Nat) (p : dart_gptr_t),
        DartCall.dart_team_memfree t p ∈
            self._allocated.flatMap (fun q =>
              [DartCall.dart_barrier self._team_id,
               DartCall.dart_team_memfree self._team_id q]) →
          t = self._team_id ∧ p ∈ self._allocated) := by
  refine ⟨CollectiveAllocator.clear_initialized self rt hi hpass, ?_, ?_⟩
  · intro p hp
    rw [CollectiveAllocator.count_release_calls]
    exact List.count_eq_one_of_mem hnd hp
  · intro t p hm
    exact CollectiveAllocator.mem_release_calls self._team_id t p _ hm

/-- Witness of C16: the demo allocator, owning two distinct pointers, is
destroyed on the demo runtime. -/
theorem CollectiveAllocator.destroy_releases_once_witness :
    demo_allocator.destroy demo_runtime
      = some ({ demo_allocator with _allocated := [] },
              { demo_runtime with log := demo_runtime.log ++
                  demo_allocator._allocated.flatMap (fun p =>
                    [DartCall.dart_barrier demo_allocator._team_id,
                     DartCall.dart_team_memfree demo_allocator._team_id p]) }) :=
  (CollectiveAllocator.destroy_releases_once demo_allocator demo_runtime rfl
    ⟨fun _ _ => rfl, fun _ _ _ => rfl⟩ (by decide)).1

/-- Claim C17, evaluated on the code: the copy constructor yields, for every
`other`, an allocator with the team of `other` that owns nothing, `other`
and the runtime (its transport log) unchanged; the converting copy
constructor from an allocator of another element type has no result, for
`demo_allocator` as for every other allocator, because it reads the private
`_team_id` of a class that does not befriend it. -/
theorem CollectiveAllocator.copy_construct_converting_eval :
    (∀ (other : CollectiveAllocator) (rt : Runtime),
      CollectiveAllocator.copy_construct other rt
        = ({ _team_id := other._team_id, _allocated := [] }, other, rt))
    ∧ (CollectiveAllocator.copy_construct demo_allocator demo_runtime).1
        = { _team_id := 0, _allocated := [] }
    ∧ CollectiveAllocator.copy_construct_from false demo_allocator
        demo_runtime = none
    ∧ (∀ (other : CollectiveAllocator) (rt : Runtime),
        CollectiveAllocator.copy_construct_from false other rt = none) :=
  ⟨fun _ _ => rfl, rfl, rfl, fun _ _ => rfl⟩

/-- Claim C18, evaluated on the code: an allocator on team 0 is copy-assigned
an allocator on team 7; the assignment returns the target unchanged, still on
team 0, and the two compare unequal. -/
theorem CollectiveAllocator.operator_assign_keeps_team_eval :
    demo_allocator._team_id = 0
    ∧ demo_allocator_other._team_id = 7
    ∧ (demo_allocator.operator_assign demo_allocator_other demo_runtime).1
        = demo_allocator
    ∧ (demo_allocator.operator_assign demo_allocator_other
          demo_runtime).1._team_id = 0
    ∧ CollectiveAllocator.operator_eq
        (demo_allocator.operator_assign demo_allocator_other demo_runtime).1
        (demo_allocator.operator_assign demo_allocator_other
          demo_runtime).2.1 = false := by
  refine ⟨rfl, rfl, rfl, rfl, rfl⟩

/-- Claim C19: Allocator equality: the free `operator==` holds exactly when
the element sizes and the team identifiers agree, the member `operator==`
(same element type) exactly when the team identifiers agree; neither looks
at `_allocated`; the relation is reflexive, symmetric and transitive; and
both `operator!=` are the negations. -/
theorem CollectiveAllocator.operator_eq_equivalence :
    (∀ (T U : ElementType) (lhs rhs : CollectiveAllocator),
        allocator.operator_eq T U lhs rhs = true
          ↔ T.sizeof = U.sizeof ∧ lhs._team_id = rhs._team_id)
    ∧ (∀ (T : ElementType) (lhs rhs : CollectiveAllocator),
        lhs.operator_eq rhs = allocator.operator_eq T T lhs rhs
        ∧ (lhs.operator_eq rhs = true ↔ lhs._team_id = rhs._team_id))
    ∧ (∀ (T U : ElementType) (lhs rhs : CollectiveAllocator)
          (s1 s2 : List dart_gptr_t),
        allocator.operator_eq T U { lhs with _allocated := s1 }
            { rhs with _allocated := s2 }
          = allocator.operator_eq T U lhs rhs)
    ∧ (∀ (T : ElementType) (a : CollectiveAllocator),
        allocator.operator_eq T T a a = true)
    ∧ (∀ (T U : ElementType) (a b : CollectiveAllocator),
        allocator.operator_eq T U a b = true →
          allocator.operator_eq U T b a = true)
    ∧ (∀ (T U V : ElementType) (a b c : CollectiveAllocator),
        allocator.operator_eq T U a b = true →
          allocator.operator_eq U V b c = true →
            allocator.operator_eq T V a c = true)
    ∧ (∀ (T U : ElementType) (lhs rhs : CollectiveAllocator),
        allocator.operator_ne T U lhs rhs
          = !(allocator.operator_eq T U lhs rhs))
    ∧ (∀ lhs rhs : CollectiveAllocator,
        lhs.operator_ne rhs = !(lhs.operator_eq rhs)) := by
  refine ⟨?_, ?_, ?_, ?_, ?_, ?_, ?_, ?_⟩
  · intro T U lhs rhs
    simp [allocator.operator_eq]
  · intro T lhs rhs
    simp [allocator.operator_eq, CollectiveAllocator.operator_eq]
  · intro T U lhs rhs s1 s2
    rfl
  · intro T a
    simp [allocator.operator_eq]
  · intro T U a b h
    simp only [allocator.operator_eq, Bool.and_eq_true, beq_iff_eq] at h ⊢
    exact ⟨h.1.symm, h.2.symm⟩
  · intro T U V a b c h1 h2
    simp only [allocator.operator_eq, Bool.and_eq_true, beq_iff_eq] at h1 h2 ⊢
    exact ⟨h1.1.trans h2.1, h1.2.trans h2.2⟩
  · intro T U lhs rhs
    rfl
  · intro lhs rhs
    rfl

/-! ## Proofs: `BLOCKED` over an extent that the units divide -/

namespace BlockPattern

/-- The block size of a `BLOCKED` pattern whose extent is a multiple of the
number of units is the quotient. -/
theorem make_blocked_blocksize (size nunits myid : Nat) (hn : 1 ≤ nunits)
    (hdiv : nunits ∣ size) :
    (make size .BLOCKED nunits myid)._blocksize = size / nunits := by
  have hn0 : nunits ≠ 0 := by omega
  have hm : size % nunits = 0 := Nat.mod_eq_zero_of_dvd hdiv
  show initialize_blocksize size .BLOCKED nunits = size / nunits
  simp [initialize_blocksize, hn0, Distribution.max_blocksize_in_range,
    math.div_ceil, hm]

/-- A `BLOCKED` pattern over a non-empty extent that is a multiple of the
number of units has one block per unit, and the extent is a multiple of the
block size. -/
theorem make_blocked_nblocks (size nunits myid : Nat) (hn : 1 ≤ nunits)
    (hdiv : nunits ∣ size) (hs : 0 < size) :
    0 < size / nunits
    ∧ size % (size / nunits) = 0
    ∧ size / (size / nunits) = nunits
    ∧ (make size .BLOCKED nunits myid)._nblocks = nunits := by
  obtain ⟨c, hc⟩ := hdiv
  have hcpos : 0 < c := by
    rcases Nat.eq_zero_or_pos c with h | h
    · rw [h, Nat.mul_zero] at hc
      omega
    · exact h
  have hq : size / nunits = c := by
    rw [hc]
    exact Nat.mul_div_cancel_left c (by omega)
  have hmod : size % c = 0 := by
    rw [hc]
    exact Nat.mul_mod_left nunits c
  have hdivc : size / c = nunits := by
    rw [hc]
    exact Nat.mul_div_cancel nunits hcpos
  have hb : (make size .BLOCKED nunits myid)._blocksize = c := by
    rw [make_blocked_blocksize size nunits myid hn ⟨c, hc⟩, hq]
  refine ⟨by omega, by rw [hq]; exact hmod, by rw [hq]; exact hdivc, ?_⟩
  rw [make_nblocks_pos size .BLOCKED nunits myid (by omega), hb]
  simp [math.div_ceil, hmod, hdivc]

end BlockPattern

/-! ## Properties of `BlockPattern<1>`: `BLOCKED` -/

/-- Claim C20: `BLOCKED` over an extent that is a multiple of `nunits ≥ 1`:
`underfilled_blocksize` is 0; every unit `u` below `nunits` has
`local_size(u) = extent / nunits`; a non-empty extent is cut into `nunits`
blocks; and every global block `k` has offset `k * (extent / nunits)` and
extent `extent / nunits`, all its indices being owned by unit `k`. -/
theorem BlockPattern.blocked_divisible (size nunits myid : Nat)
    (hn : 1 ≤ nunits) (hdiv : nunits ∣ size) :
    (BlockPattern.make size .BLOCKED nunits myid).underfilled_blocksize = 0
    ∧ (∀ u, u < nunits →
        (BlockPattern.make size .BLOCKED nunits myid).local_size u
          = size / nunits)
    ∧ (0 < size →
        (BlockPattern.make size .BLOCKED nunits myid)._nblocks = nunits)
    ∧ (∀ k, k < (BlockPattern.make size .BLOCKED nunits myid)._nblocks →
        ((BlockPattern.make size .BLOCKED nunits myid).block k).offset
          = k * (size / nunits)
        ∧ ((BlockPattern.make size .BLOCKED nunits myid).block k).extent
          = size / nunits
        ∧ ∀ g,
            ((BlockPattern.make size .BLOCKED nunits myid).block k).offset ≤ g →
            g < ((BlockPattern.make size .BLOCKED nunits myid).block k).offset
                + ((BlockPattern.make size .BLOCKED nunits myid).block k).extent →
            (BlockPattern.make size .BLOCKED nunits myid).unit_at g = k) := by
  have hb := BlockPattern.make_blocked_blocksize size nunits myid hn hdiv
  have huf :
      (BlockPattern.make size .BLOCKED nunits myid).underfilled_blocksize
        = 0 := by
    unfold BlockPattern.underfilled_blocksize
    rw [hb, BlockPattern.make_size]
    rcases Nat.eq_zero_or_pos size with hs | hs
    · simp [hs]
    · simp [(BlockPattern.make_blocked_nblocks size nunits myid hn hdiv hs).2.1]
  refine ⟨huf, ?_, ?_, ?_⟩
  · intro u hu
    rcases Nat.eq_zero_or_pos size with hs | hs
    · rw [BlockPattern.make_local_size_blocksize_zero size .BLOCKED nunits
        myid u (by rw [hb, hs, Nat.zero_div]), hs, Nat.zero_div]
    · obtain ⟨h1, h2, h3, _⟩ :=
        BlockPattern.make_blocked_nblocks size nunits myid hn hdiv hs
      have hbpos : 0 < (BlockPattern.make size .BLOCKED nunits myid)._blocksize := by
        rw [hb]; exact h1
      rw [BlockPattern.make_local_size,
        BlockPattern.initialize_local_extent_closed _ u hbpos
          (BlockPattern.make_nblocks_pos size .BLOCKED nunits myid hbpos)
          (by rw [BlockPattern.make_nunits]; exact hu)]
      rw [hb, BlockPattern.make_size, BlockPattern.make_nunits, h2, h3]
      simp [Nat.div_self (show 0 < nunits by omega)]
  · intro hs
    exact (BlockPattern.make_blocked_nblocks size nunits myid hn hdiv hs).2.2.2
  · intro k hk
    rcases Nat.eq_zero_or_pos size with hs | hs
    · have hnb : (BlockPattern.make size .BLOCKED nunits myid)._nblocks = 0 := by
        rw [BlockPattern.make_nblocks, hb, hs]
        simp [BlockPattern.initialize_num_blocks]
      omega
    · obtain ⟨h1, _, _, h4⟩ :=
        BlockPattern.make_blocked_nblocks size nunits myid hn hdiv hs
      rw [h4] at hk
      have hext :
          ((BlockPattern.make size .BLOCKED nunits myid).block k).extent
            = size / nunits := by
        simp only [BlockPattern.block, huf, ite_self, hb]
        exact usub_of_le (Nat.zero_le _)
      have hoff :
          ((BlockPattern.make size .BLOCKED nunits myid).block k).offset
            = k * (size / nunits) := by
        simp only [BlockPattern.block, hb]
      refine ⟨hoff, hext, ?_⟩
      intro g hg1 hg2
      rw [hoff] at hg1 hg2
      rw [hext] at hg2
      unfold BlockPattern.unit_at
      rw [hb, BlockPattern.make_nunits]
      have hgk : g / (size / nunits) = k := by
        apply Nat.div_eq_of_lt_le
        · exact hg1
        · rw [Nat.succ_mul]; exact hg2
      rw [hgk]
      exact Nat.mod_eq_of_lt hk

/-- Witness of C20: `BLOCKED` over 12 elements and 3 units. -/
theorem BlockPattern.blocked_divisible_witness :
    (BlockPattern.make 12 .BLOCKED 3 0).underfilled_blocksize = 0
    ∧ (BlockPattern.make 12 .BLOCKED 3 0).local_size 2 = 12 / 3
    ∧ ((BlockPattern.make 12 .BLOCKED 3 0).block 2).offset = 2 * (12 / 3)
    ∧ (BlockPattern.make 12 .BLOCKED 3 0).unit_at 11 = 2 :=
  ⟨(BlockPattern.blocked_divisible 12 3 0 (by decide) (by decide)).1,
   (BlockPattern.blocked_divisible 12 3 0 (by decide) (by decide)).2.1 2
     (by decide),
   ((BlockPattern.blocked_divisible 12 3 0 (by decide) (by decide)).2.2.2 2
     (by decide)).1,
   ((BlockPattern.blocked_divisible 12 3 0 (by decide) (by decide)).2.2.2 2
     (by decide)).2.2 11 (by decide) (by decide)⟩

/-! ## Proofs: local indices and the global indices a unit owns -/

/-- Order of naturals by quotient and remainder. -/
theorem lt_iff_div_mod (k q n : Nat) (hn : 0 < n) :
    k < q ↔ k / n < q / n ∨ (k / n = q / n ∧ k % n < q % n) := by
  have hk := Nat.div_add_mod k n
  have hq := Nat.div_add_mod q n
  have hkm : k % n < n := Nat.mod_lt _ hn
  have hqm : q % n < n := Nat.mod_lt _ hn
  generalize k / n = a1 at *
  generalize q / n = a2 at *
  generalize k % n = c1 at *
  generalize q % n = c2 at *
  rcases Nat.lt_trichotomy a1 a2 with h | h | h
  · have := Nat.mul_le_mul_left n (Nat.succ_le_of_lt h)
    rw [Nat.mul_succ] at this
    constructor
    · intro _; exact Or.inl h
    · intro _; omega
  · subst h
    constructor
    · intro h1; right; exact ⟨rfl, by omega⟩
    · intro h1
      rcases h1 with h1 | ⟨_, h1⟩
      · omega
      · omega
  · have := Nat.mul_le_mul_left n (Nat.succ_le_of_lt h)
    rw [Nat.mul_succ] at this
    constructor
    · intro h1; omega
    · intro h1
      rcases h1 with h1 | ⟨h1, _⟩
      · omega
      · omega

/-- Quotient and remainder of `j * n + u` for `u < n`. -/
theorem mul_add_div_mod (j n u : Nat) (hu : u < n) :
    (j * n + u) / n = j ∧ (j * n + u) % n = u := by
  have hn : 0 < n := by omega
  constructor
  · rw [Nat.add_comm, Nat.add_mul_div_right _ _ hn, Nat.div_eq_of_lt hu,
      Nat.zero_add]
  · rw [Nat.add_comm, Nat.add_mul_mod_self_right, Nat.mod_eq_of_lt hu]

/-- The `j`-th block of unit `u` is among the first `q` blocks exactly when
`j` is below the number of those blocks that `u` owns. -/
theorem own_block_lt (j u q n : Nat) (hu : u < n) :
    j * n + u < q ↔ j < q / n + (if u < q % n then 1 else 0) := by
  have hn : 0 < n := by omega
  obtain ⟨h1, h2⟩ := mul_add_div_mod j n u hu
  rw [lt_iff_div_mod (j * n + u) q n hn, h1, h2]
  split <;> omega

/-- Local index `l` of unit `u`, below the unit's local size, lies at a
global index below the extent `N`. -/
theorem global_lt_extent (N b n u l : Nat) (hb : 0 < b) (hu : u < n)
    (hl : l < b * (N / b / n + (if u < N / b % n then 1 else 0))
              + (if N / b % n = u then N % b else 0)) :
    ((l / b) * n + u) * b + l % b < N := by
  have hN := Nat.div_add_mod N b
  have hL := Nat.div_add_mod l b
  have hr : N % b < b := Nat.mod_lt _ hb
  have hi : l % b < b := Nat.mod_lt _ hb
  have hown := own_block_lt (l / b) u (N / b) n hu
  have hq := Nat.div_add_mod (N / b) n
  generalize N / b = q at *
  generalize N % b = r at *
  generalize l / b = j at *
  generalize l % b = i at *
  by_cases hj : j < q / n + (if u < q % n then 1 else 0)
  · have h1 : j * n + u + 1 ≤ q := hown.mpr hj
    have h2 := Nat.mul_le_mul_right b h1
    rw [Nat.add_mul, Nat.one_mul] at h2
    have h3 : q * b = b * q := Nat.mul_comm _ _
    omega
  · have h1 : q / n + (if u < q % n then 1 else 0) ≤ j := by omega
    have h2 := Nat.mul_le_mul_left b h1
    have hqu : q % n = u := by
      by_contra hne
      rw [if_neg hne] at hl
      omega
    rw [if_pos hqu] at hl
    have hnlt : ¬ u < q % n := by omega
    rw [if_neg hnlt, Nat.add_zero] at hl h1 h2
    have hjle : j ≤ q / n := by
      by_contra hgt
      have h4 := Nat.mul_le_mul_left b (show q / n + 1 ≤ j by omega)
      rw [Nat.mul_add, Nat.mul_one] at h4
      omega
    have hje : j = q / n := by omega
    have hjq : j * n + u = q := by
      rw [hje, ← hqu, Nat.mul_comm]
      exact hq
    rw [hjq]
    have h3 : q * b = b * q := Nat.mul_comm _ _
    have h5 : b * j = b * (q / n) := by rw [hje]
    omega

/-- The local index of a global index `g` below the extent `N` is below the
local size of the unit that owns `g`. -/
theorem local_lt_local_size (N b n g : Nat) (hb : 0 < b) (hn : 0 < n)
    (hg : g < N) :
    (g / b / n) * b + g % b
      < b * (N / b / n + (if g / b % n < N / b % n then 1 else 0))
          + (if N / b % n = g / b % n then N % b else 0) := by
  have hN := Nat.div_add_mod N b
  have hG := Nat.div_add_mod g b
  have hr : N % b < b := Nat.mod_lt _ hb
  have hi : g % b < b := Nat.mod_lt _ hb
  have hkq : g / b ≤ N / b := Nat.div_le_div_right (Nat.le_of_lt hg)
  have hu : g / b % n < n := Nat.mod_lt _ hn
  have hown := own_block_lt (g / b / n) (g / b % n) (N / b) n hu
  have hk : g / b / n * n + g / b % n = g / b := Nat.div_add_mod' _ _
  rw [hk] at hown
  generalize N / b = q at *
  generalize N % b = r at *
  generalize g % b = i at *
  rcases Nat.lt_or_ge (g / b) q with hlt | hge
  · have h1 := hown.mp hlt
    have h2 := Nat.mul_le_mul_left b (Nat.succ_le_of_lt h1)
    rw [Nat.mul_succ] at h2
    have h3 : g / b / n * b = b * (g / b / n) := Nat.mul_comm _ _
    have h4 : 0 ≤ (if q % n = g / b % n then r else 0) := Nat.zero_le _
    omega
  · have he : g / b = q := by omega
    rw [he] at hG ⊢
    have h1 : ¬ q % n < q % n := Nat.lt_irrefl _
    rw [if_neg h1, if_pos rfl, Nat.add_zero]
    have h3 : q / n * b = b * (q / n) := Nat.mul_comm _ _
    omega

/-- The global index of a local index grows with the local index. -/
theorem global_strict_mono (b n u l1 l2 : Nat) (hb : 0 < b) (hn : 0 < n)
    (h : l1 < l2) :
    ((l1 / b) * n + u) * b + l1 % b < ((l2 / b) * n + u) * b + l2 % b := by
  have h1 := Nat.div_add_mod l1 b
  have h2 := Nat.div_add_mod l2 b
  have hi1 : l1 % b < b := Nat.mod_lt _ hb
  have hi2 : l2 % b < b := Nat.mod_lt _ hb
  have hj : l1 / b ≤ l2 / b := Nat.div_le_div_right (Nat.le_of_lt h)
  generalize l1 / b = j1 at *
  generalize l2 / b = j2 at *
  generalize l1 % b = i1 at *
  generalize l2 % b = i2 at *
  rcases Nat.eq_or_lt_of_le hj with he | hlt
  · subst he
    omega
  · have h3 : j1 * n + u + 1 ≤ j2 * n + u := by
      have := Nat.mul_le_mul_right n (Nat.succ_le_of_lt hlt)
      rw [Nat.succ_mul] at this
      omega
    have h4 := Nat.mul_le_mul_right b h3
    rw [Nat.add_mul (j1 * n + u) 1 b, Nat.one_mul] at h4
    omega

namespace BlockPattern

/-- Closed form of `local_size(u)` on a constructed pattern with positive
block size: the full blocks of `u` and, if `u` owns it, the filled part of
the last block. -/
theorem make_local_size_closed (size : Nat) (dist : Distribution)
    (nunits myid u : Nat) (hb : 0 < (make size dist nunits myid)._blocksize)
    (hu : u < nunits) :
    (make size dist nunits myid).local_size u
      = (make size dist nunits myid)._blocksize
          * (size / (make size dist nunits myid)._blocksize / nunits
              + (if u < size / (make size dist nunits myid)._blocksize % nunits
                 then 1 else 0))
        + (if size / (make size dist nunits myid)._blocksize % nunits = u
           then size % (make size dist nunits myid)._blocksize else 0) := by
  rw [make_local_size,
    initialize_local_extent_closed _ u hb
      (make_nblocks_pos size dist nunits myid hb)
      (by rw [make_nunits]; exact hu)]
  simp only [make_size, make_nunits]

/-- For a unit `u` below `_nunits` (the only unit, 0, when there is one),
`global(u, l)` is `(floor(l / b) * nunits + u) * b + l mod b`. -/
theorem global_eq (p : BlockPattern) (u l : Nat) (hu : u < p._nunits) :
    p.global u l
      = ((l / p._blocksize) * p._nunits + u) * p._blocksize
          + l % p._blocksize := by
  unfold global
  split
  · have h1 : p._nunits = 1 := by omega
    have h0 : u = 0 := by omega
    rw [h1, h0, Nat.mul_one, Nat.add_zero]
    exact (Nat.div_add_mod' l p._blocksize).symm
  · rfl

/-- The unit and the local index of `global(u, l)` are `u` and `l`. -/
theorem unit_at_local_coords_global (p : BlockPattern) (u l : Nat)
    (hb : 0 < p._blocksize) (hu : u < p._nunits) :
    p.unit_at (p.global u l) = u ∧ p.local_coords (p.global u l) = l := by
  rw [global_eq p u l hu]
  have hi : l % p._blocksize < p._blocksize := Nat.mod_lt _ hb
  have hd : (((l / p._blocksize) * p._nunits + u) * p._blocksize
      + l % p._blocksize) / p._blocksize
        = (l / p._blocksize) * p._nunits + u := by
    rw [Nat.add_comm, Nat.add_mul_div_right _ _ hb, Nat.div_eq_of_lt hi,
      Nat.zero_add]
  have hm : (((l / p._blocksize) * p._nunits + u) * p._blocksize
      + l % p._blocksize) % p._blocksize = l % p._blocksize := by
    rw [Nat.add_comm, Nat.add_mul_mod_self_right, Nat.mod_eq_of_lt hi]
  obtain ⟨h1, h2⟩ := mul_add_div_mod (l / p._blocksize) p._nunits u hu
  unfold unit_at local_coords
  rw [hd, hm, h1, h2]
  exact ⟨rfl, Nat.div_add_mod' l p._blocksize⟩

/-- On a constructed pattern, a local index below `local_size(u)` lies at a
global index below the extent. -/
theorem make_global_lt_size (size : Nat) (dist : Distribution)
    (nunits myid u l : Nat) (hu : u < nunits)
    (hl : l < (make size dist nunits myid).local_size u) :
    0 < (make size dist nunits myid)._blocksize
    ∧ (make size dist nunits myid).global u l < size := by
  have hb : 0 < (make size dist nunits myid)._blocksize := by
    rcases Nat.eq_zero_or_pos (make size dist nunits myid)._blocksize
      with h0 | hpos
    · rw [make_local_size_blocksize_zero size dist nunits myid u h0] at hl
      omega
    · exact hpos
  refine ⟨hb, ?_⟩
  rw [global_eq _ u l (by rw [make_nunits]; exact hu), make_nunits]
  rw [make_local_size_closed size dist nunits myid u hb hu] at hl
  exact global_lt_extent size _ nunits u l hb hu hl

/-- On a constructed pattern with positive block size, the local index of a
global index below the extent is below the local size of its owner. -/
theorem make_local_coords_lt (size : Nat) (dist : Distribution)
    (nunits myid g : Nat) (hb : 0 < (make size dist nunits myid)._blocksize)
    (hn : 0 < nunits) (hg : g < size) :
    (make size dist nunits myid).local_coords g
      < (make size dist nunits myid).local_size
          ((make size dist nunits myid).unit_at g) := by
  have hu : (make size dist nunits myid).unit_at g < nunits :=
    Nat.mod_lt _ hn
  rw [make_local_size_closed size dist nunits myid _ hb hu]
  unfold local_coords unit_at
  rw [make_nunits]
  exact local_lt_local_size size _ nunits g hb hn hg

/-- For a unit below `_nunits`, `global(u, ·)` is strictly increasing. -/
theorem global_lt_global (p : BlockPattern) (u l1 l2 : Nat)
    (hb : 0 < p._blocksize) (hu : u < p._nunits) (h : l1 < l2) :
    p.global u l1 < p.global u l2 := by
  rw [global_eq p u l1 hu, global_eq p u l2 hu]
  exact global_strict_mono p._blocksize p._nunits u l1 l2 hb (by omega) h

end BlockPattern

/-! ## Proofs: `BLOCKED` and `CYCLIC` in closed form -/

/-- The rounded-up quotient `b = div_ceil N n` of a positive `N` is positive
and the least `b` with `N ≤ n * b`. -/
theorem div_ceil_bounds (N n : Nat) (hN : 0 < N) (hn : 0 < n) :
    0 < math.div_ceil N n
    ∧ N ≤ n * math.div_ceil N n
    ∧ n * math.div_ceil N n < N + n := by
  have h := Nat.div_add_mod N n
  have hm : N % n < n := Nat.mod_lt _ hn
  unfold math.div_ceil
  by_cases h0 : N % n = 0
  · rw [if_pos h0, Nat.add_zero]
    rw [h0, Nat.add_zero] at h
    refine ⟨?_, by omega, by omega⟩
    rcases Nat.eq_zero_or_pos (N / n) with hz | hp
    · rw [hz, Nat.mul_zero] at h
      omega
    · exact hp
  · rw [if_neg h0, Nat.mul_add, Nat.mul_one]
    refine ⟨Nat.succ_pos _, by omega, by omega⟩

/-- The local sizes of `BLOCKED`: full blocks up to the extent, then the rest,
then nothing. -/
theorem blocked_arith (N n u : Nat) (hN : 0 < N) (hu : u < n) :
    math.div_ceil N n
        * (N / math.div_ceil N n / n
            + (if u < N / math.div_ceil N n % n then 1 else 0))
      + (if N / math.div_ceil N n % n = u then N % math.div_ceil N n else 0)
    = min (math.div_ceil N n) (N - u * math.div_ceil N n) := by
  have hn : 0 < n := by omega
  obtain ⟨hb, h1, h2⟩ := div_ceil_bounds N n hN hn
  generalize math.div_ceil N n = b at *
  have hNb := Nat.div_add_mod N b
  have hr : N % b < b := Nat.mod_lt _ hb
  have hqn : N / b ≤ n := by
    by_contra hgt
    have h3 := Nat.mul_le_mul_left b (show n + 1 ≤ N / b by omega)
    rw [Nat.mul_add, Nat.mul_one, Nat.mul_comm b n] at h3
    omega
  generalize N / b = q at *
  generalize N % b = r at *
  rcases Nat.eq_or_lt_of_le hqn with he | hlt
  · subst he
    have hr0 : r = 0 := by
      have : b * q = q * b := Nat.mul_comm _ _
      omega
    subst hr0
    rw [Nat.div_self hn, Nat.mod_self]
    have h3 := Nat.mul_le_mul_right b (show u + 1 ≤ q by omega)
    rw [Nat.add_mul, Nat.one_mul] at h3
    have h4 : b * q = q * b := Nat.mul_comm _ _
    have h5 : ¬ u < 0 := by omega
    rw [if_neg h5]
    split <;> simp only [Nat.add_zero, Nat.mul_one] <;> omega
  · rw [Nat.div_eq_of_lt hlt, Nat.mod_eq_of_lt hlt, Nat.zero_add]
    rcases Nat.lt_trichotomy u q with h3 | h3 | h3
    · have h4 := Nat.mul_le_mul_right b (show u + 1 ≤ q by omega)
      rw [Nat.add_mul, Nat.one_mul] at h4
      have h5 : b * q = q * b := Nat.mul_comm _ _
      have h6 : ¬ q = u := by omega
      rw [if_pos h3, if_neg h6, Nat.mul_one, Nat.add_zero]
      omega
    · subst h3
      have h5 : b * u = u * b := Nat.mul_comm _ _
      rw [if_neg (Nat.lt_irrefl _), if_pos rfl, Nat.mul_zero, Nat.zero_add]
      omega
    · have h4 := Nat.mul_le_mul_right b (show q + 1 ≤ u by omega)
      rw [Nat.add_mul, Nat.one_mul] at h4
      have h5 : b * q = q * b := Nat.mul_comm _ _
      have h6 : ¬ q = u := by omega
      have h7 : ¬ u < q := by omega
      rw [if_neg h7, if_neg h6, Nat.mul_zero, Nat.add_zero]
      omega

/-- Round-robin over single elements: unit `u` gets
`floor((N + n - 1 - u) / n)` of `N` elements. -/
theorem cyclic_arith (N n u : Nat) (hu : u < n) :
    N / n + (if u < N % n then 1 else 0) = (N + n - 1 - u) / n := by
  have hn : 0 < n := by omega
  have h := Nat.div_add_mod N n
  have hm : N % n < n := Nat.mod_lt _ hn
  generalize N / n = a at *
  generalize N % n = c at *
  symm
  have hna : n * a = a * n := Nat.mul_comm _ _
  by_cases hc : u < c
  · rw [if_pos hc]
    apply Nat.div_eq_of_lt_le
    · rw [Nat.add_mul, Nat.one_mul]; omega
    · rw [Nat.succ_mul, Nat.add_mul, Nat.one_mul]; omega
  · rw [if_neg hc, Nat.add_zero]
    apply Nat.div_eq_of_lt_le
    · omega
    · rw [Nat.succ_mul]; omega

namespace BlockPattern

/-- The calling unit does not enter `initialize_local_extent`,
`underfilled_blocksize`, `unit_at` and the block size. -/
theorem make_myid_irrelevant (size : Nat) (dist : Distribution)
    (nunits myid : Nat) :
    (∀ u, (make size dist nunits myid).local_size u
        = (make size dist nunits 0).initialize_local_extent u)
    ∧ (make size dist nunits myid).underfilled_blocksize
        = (make size dist nunits 0).underfilled_blocksize
    ∧ (∀ g, (make size dist nunits myid).unit_at g
        = (make size dist nunits 0).unit_at g)
    ∧ (make size dist nunits myid)._blocksize
        = (make size dist nunits 0)._blocksize :=
  ⟨fun u => (make_local_size size dist nunits myid u).trans rfl, rfl,
    fun _ => rfl, rfl⟩

end BlockPattern

/-! ## Properties of `BlockPattern<1>`: distributions and block geometry -/

/-- Claim C21: `BLOCKED` in general: for every extent `≥ 1`, every number of
units and every unit `u` below it, the block size is
`div_ceil(extent, nunits)` and
`local_size(u) = min(block_size, max(0, extent - u * block_size))`; in
particular 10 elements over 3 units give block size 4, local sizes 4, 4, 2
and `underfilled_blocksize` 2, whichever unit constructs the pattern. -/
theorem BlockPattern.blocked_local_size (size nunits myid u : Nat)
    (hs : 1 ≤ size) (hu : u < nunits) :
    (BlockPattern.make size .BLOCKED nunits myid)._blocksize
      = math.div_ceil size nunits
    ∧ (((BlockPattern.make size .BLOCKED nunits myid).local_size u : Nat) : Int)
      = min ((math.div_ceil size nunits : Nat) : Int)
          (max 0 ((size : Int) - (u : Int) * (math.div_ceil size nunits : Nat)))
    ∧ (BlockPattern.make 10 .BLOCKED 3 myid)._blocksize = 4
    ∧ (BlockPattern.make 10 .BLOCKED 3 myid).local_size 0 = 4
    ∧ (BlockPattern.make 10 .BLOCKED 3 myid).local_size 1 = 4
    ∧ (BlockPattern.make 10 .BLOCKED 3 myid).local_size 2 = 2
    ∧ (BlockPattern.make 10 .BLOCKED 3 myid).underfilled_blocksize = 2 := by
  have hn0 : nunits ≠ 0 := by omega
  have hbs : (BlockPattern.make size .BLOCKED nunits myid)._blocksize
      = math.div_ceil size nunits := by
    show BlockPattern.initialize_blocksize size .BLOCKED nunits = _
    simp [BlockPattern.initialize_blocksize, hn0,
      Distribution.max_blocksize_in_range]
  have hbpos := (div_ceil_bounds size nunits hs (by omega)).1
  have hnat : (BlockPattern.make size .BLOCKED nunits myid).local_size u
      = min (math.div_ceil size nunits)
          (size - u * math.div_ceil size nunits) := by
    rw [BlockPattern.make_local_size_closed size .BLOCKED nunits myid u
      (by rw [hbs]; exact hbpos) hu, hbs]
    exact blocked_arith size nunits u hs hu
  obtain ⟨e1, e2, _, e4⟩ :=
    BlockPattern.make_myid_irrelevant 10 .BLOCKED 3 myid
  refine ⟨hbs, ?_, ?_, ?_, ?_, ?_, ?_⟩
  · rw [hnat]
    have hc : ((u * math.div_ceil size nunits : Nat) : Int)
        = (u : Int) * (math.div_ceil size nunits : Nat) := Nat.cast_mul _ _
    generalize math.div_ceil size nunits = b at *
    generalize (u : Int) * (b : Int) = m at *
    generalize u * b = m0 at *
    omega
  · rw [e4]; decide
  · rw [e1]; decide
  · rw [e1]; decide
  · rw [e1]; decide
  · rw [e2]; decide

/-- Witness of C21: 5 elements over 4 units, the unit of the short block. -/
theorem BlockPattern.blocked_local_size_witness :
    (((BlockPattern.make 5 .BLOCKED 4 0).local_size 2 : Nat) : Int)
      = min ((math.div_ceil 5 4 : Nat) : Int)
          (max 0 ((5 : Nat) - ((2 : Nat) : Int) * (math.div_ceil 5 4 : Nat))) :=
  (BlockPattern.blocked_local_size 5 4 0 2 (by decide) (by decide)).2.1

/-- Claim C22: `CYCLIC` in general: for every extent and every number of
units `≥ 1` the block size is 1, `unit_at(g) = g mod nunits` for every `g`
below the extent, and `local_size(u) = floor((extent + nunits - 1 - u) /
nunits)` for every unit `u` below `nunits`; in particular 10 elements over 3
units have the owners 0, 1, 2, 0, 1, 2, 0, 1, 2, 0 and the local sizes 4, 3,
3, whichever unit constructs the pattern. -/
theorem BlockPattern.cyclic_local_size (size nunits myid : Nat)
    (hn : 1 ≤ nunits) :
    (BlockPattern.make size .CYCLIC nunits myid)._blocksize = 1
    ∧ (∀ g, g < size →
        (BlockPattern.make size .CYCLIC nunits myid).unit_at g = g % nunits)
    ∧ (∀ u, u < nunits →
        (BlockPattern.make size .CYCLIC nunits myid).local_size u
          = (size + nunits - 1 - u) / nunits)
    ∧ (List.range 10).map (BlockPattern.make 10 .CYCLIC 3 myid).unit_at
        = [0, 1, 2, 0, 1, 2, 0, 1, 2, 0]
    ∧ (BlockPattern.make 10 .CYCLIC 3 myid).local_size 0 = 4
    ∧ (BlockPattern.make 10 .CYCLIC 3 myid).local_size 1 = 3
    ∧ (BlockPattern.make 10 .CYCLIC 3 myid).local_size 2 = 3 := by
  have hn0 : nunits ≠ 0 := by omega
  have hbs : (BlockPattern.make size .CYCLIC nunits myid)._blocksize = 1 := by
    show BlockPattern.initialize_blocksize size .CYCLIC nunits = 1
    simp [BlockPattern.initialize_blocksize, hn0,
      Distribution.max_blocksize_in_range]
  obtain ⟨e1, _, e3, _⟩ :=
    BlockPattern.make_myid_irrelevant 10 .CYCLIC 3 myid
  refine ⟨hbs, ?_, ?_, ?_, ?_, ?_, ?_⟩
  · intro g _
    unfold BlockPattern.unit_at
    rw [hbs, Nat.div_one, BlockPattern.make_nunits]
  · intro u hu
    rw [BlockPattern.make_local_size_closed size .CYCLIC nunits myid u
      (by rw [hbs]; exact Nat.one_pos) hu, hbs]
    simp only [Nat.div_one, Nat.mod_one, ite_self, Nat.add_zero, Nat.one_mul]
    exact cyclic_arith size nunits u hu
  · have : (BlockPattern.make 10 .CYCLIC 3 myid).unit_at
        = (BlockPattern.make 10 .CYCLIC 3 0).unit_at := funext e3
    rw [this]; decide
  · rw [e1]; decide
  · rw [e1]; decide
  · rw [e1]; decide

/-- Witness of C22: 10 elements over 3 units, unit 1. -/
theorem BlockPattern.cyclic_local_size_witness :
    (BlockPattern.make 10 .CYCLIC 3 0).local_size 1 = (10 + 3 - 1 - 1) / 3 :=
  (BlockPattern.cyclic_local_size 10 3 0 (by decide)).2.2.1 1 (by decide)

/-- Claim C23, as stated, fails: `BLOCKED` over 5 elements and 4 units has
block size 2 and 3 blocks, not 4. -/
theorem BlockPattern.blocked_nblocks_counterexample :
    (BlockPattern.make 5 .BLOCKED 4 0)._blocksize = 2
    ∧ (BlockPattern.make 5 .BLOCKED 4 0)._nblocks = 3
    ∧ (BlockPattern.make 5 .BLOCKED 4 0)._nblocks
        ≠ (BlockPattern.make 5 .BLOCKED 4 0)._nunits := by
  refine ⟨rfl, rfl, by decide⟩

/-- Claim C23, amended: for every `BLOCKED` pattern with extent `≥ 1` and
`nunits ≥ 1`, with block size `b = div_ceil(extent, nunits)`, the number of
global blocks is `div_ceil(extent, b)`, at least 1 and at most `nunits` (at
most one block per unit), and it equals `nunits` exactly when
`(nunits - 1) * b < extent`. -/
theorem BlockPattern.blocked_nblocks (size nunits myid : Nat) (hs : 1 ≤ size)
    (hn : 1 ≤ nunits) :
    (BlockPattern.make size .BLOCKED nunits myid)._blocksize
      = math.div_ceil size nunits
    ∧ (BlockPattern.make size .BLOCKED nunits myid)._nblocks
      = math.div_ceil size (math.div_ceil size nunits)
    ∧ 1 ≤ (BlockPattern.make size .BLOCKED nunits myid)._nblocks
    ∧ (BlockPattern.make size .BLOCKED nunits myid)._nblocks ≤ nunits
    ∧ ((BlockPattern.make size .BLOCKED nunits myid)._nblocks = nunits
        ↔ (nunits - 1) * math.div_ceil size nunits < size) := by
  have hn0 : nunits ≠ 0 := by omega
  have hbs : (BlockPattern.make size .BLOCKED nunits myid)._blocksize
      = math.div_ceil size nunits := by
    show BlockPattern.initialize_blocksize size .BLOCKED nunits = _
    simp [BlockPattern.initialize_blocksize, hn0,
      Distribution.max_blocksize_in_range]
  obtain ⟨hb, h1, h2⟩ := div_ceil_bounds size nunits hs hn
  have hnb : (BlockPattern.make size .BLOCKED nunits myid)._nblocks
      = math.div_ceil size (math.div_ceil size nunits) := by
    rw [BlockPattern.make_nblocks_pos size .BLOCKED nunits myid
      (by rw [hbs]; exact hb), hbs]
  obtain ⟨hc, h3, h4⟩ :=
    div_ceil_bounds size (math.div_ceil size nunits) hs hb
  refine ⟨hbs, hnb, by rw [hnb]; exact hc, ?_, ?_⟩
  · rw [hnb]
    generalize math.div_ceil size (math.div_ceil size nunits) = c at *
    generalize math.div_ceil size nunits = b at *
    by_contra hgt
    have h5 := Nat.mul_le_mul_left b (show nunits + 1 ≤ c by omega)
    rw [Nat.mul_add, Nat.mul_one, Nat.mul_comm b nunits] at h5
    omega
  · rw [hnb]
    generalize math.div_ceil size (math.div_ceil size nunits) = c at *
    generalize math.div_ceil size nunits = b at *
    have hsub : (nunits - 1) * b + b = nunits * b := by
      rw [← Nat.succ_mul]
      congr 1
      omega
    constructor
    · intro he
      subst he
      have : b * c = c * b := Nat.mul_comm _ _
      omega
    · intro hlt
      have hle : c ≤ nunits := by
        by_contra hgt
        have h5 := Nat.mul_le_mul_left b (show nunits + 1 ≤ c by omega)
        rw [Nat.mul_add, Nat.mul_one, Nat.mul_comm b nunits] at h5
        omega
      by_contra hne
      have h5 := Nat.mul_le_mul_left b (show c ≤ nunits - 1 by omega)
      rw [Nat.mul_comm b (nunits - 1)] at h5
      omega

/-- Witness of C23, amended: 5 elements over 4 units. -/
theorem BlockPattern.blocked_nblocks_witness :
    (BlockPattern.make 5 .BLOCKED 4 0)._nblocks ≤ 4
    ∧ ((BlockPattern.make 5 .BLOCKED 4 0)._nblocks = 4
        ↔ (4 - 1) * math.div_ceil 5 4 < 5) :=
  ⟨(BlockPattern.blocked_nblocks 5 4 0 (by decide) (by decide)).2.2.2.1,
   (BlockPattern.blocked_nblocks 5 4 0 (by decide) (by decide)).2.2.2.2⟩

/-- Claim C24: Global block geometry tiles the index space: on a constructed
pattern with block size `b ≥ 1`, every block `k` below `num_blocks` has
offset `k * b`; its extent is `b` when it is not the last block and
`b - underfilled_blocksize`, at least 1, when it is; a block that is not the
last ends where the next one begins, the last block ends at the extent; and
every `g` inside block `k` has `block_at(g) = k`. -/
theorem BlockPattern.block_geometry (size : Nat) (dist : Distribution)
    (nunits myid k : Nat)
    (hb : 1 ≤ (BlockPattern.make size dist nunits myid)._blocksize)
    (hk : k < (BlockPattern.make size dist nunits myid)._nblocks) :
    ((BlockPattern.make size dist nunits myid).block k).offset
      = k * (BlockPattern.make size dist nunits myid)._blocksize
    ∧ (k + 1 < (BlockPattern.make size dist nunits myid)._nblocks →
        ((BlockPattern.make size dist nunits myid).block k).extent
          = (BlockPattern.make size dist nunits myid)._blocksize
        ∧ ((BlockPattern.make size dist nunits myid).block k).offset
            + ((BlockPattern.make size dist nunits myid).block k).extent
          = ((BlockPattern.make size dist nunits myid).block (k + 1)).offset)
    ∧ (k + 1 = (BlockPattern.make size dist nunits myid)._nblocks →
        ((BlockPattern.make size dist nunits myid).block k).extent
            + (BlockPattern.make size dist nunits myid).underfilled_blocksize
          = (BlockPattern.make size dist nunits myid)._blocksize
        ∧ 1 ≤ ((BlockPattern.make size dist nunits myid).block k).extent
        ∧ ((BlockPattern.make size dist nunits myid).block k).offset
            + ((BlockPattern.make size dist nunits myid).block k).extent
          = size)
    ∧ (∀ g,
        ((BlockPattern.make size dist nunits myid).block k).offset ≤ g →
        g < ((BlockPattern.make size dist nunits myid).block k).offset
              + ((BlockPattern.make size dist nunits myid).block k).extent →
        (BlockPattern.make size dist nunits myid).block_at g = k) := by
  have hnb := BlockPattern.make_nblocks_pos size dist nunits myid hb
  have hN := Nat.div_add_mod size
    (BlockPattern.make size dist nunits myid)._blocksize
  have hr : size % (BlockPattern.make size dist nunits myid)._blocksize
      < (BlockPattern.make size dist nunits myid)._blocksize :=
    Nat.mod_lt _ hb
  have huf : (BlockPattern.make size dist nunits myid).underfilled_blocksize
      = if size % (BlockPattern.make size dist nunits myid)._blocksize = 0
        then 0
        else (BlockPattern.make size dist nunits myid)._blocksize
              - size % (BlockPattern.make size dist nunits myid)._blocksize := by
    unfold BlockPattern.underfilled_blocksize
    rw [BlockPattern.make_size]
    have hb0 : (BlockPattern.make size dist nunits myid)._blocksize ≠ 0 := by
      omega
    simp only [hb0, false_or]
    split
    · rfl
    · exact usub_of_le (Nat.le_of_lt hr)
  have hext : ((BlockPattern.make size dist nunits myid).block k).extent
      = (BlockPattern.make size dist nunits myid)._blocksize
          - (if k + 1 < (BlockPattern.make size dist nunits myid)._nblocks
             then 0
             else (BlockPattern.make size dist nunits myid).underfilled_blocksize) := by
    have h1 : usub (BlockPattern.make size dist nunits myid)._nblocks 1
        = (BlockPattern.make size dist nunits myid)._nblocks - 1 :=
      usub_of_le (by omega)
    simp only [BlockPattern.block, h1]
    have hle : (if k < (BlockPattern.make size dist nunits myid)._nblocks - 1
          then 0
          else (BlockPattern.make size dist nunits myid).underfilled_blocksize)
        ≤ (BlockPattern.make size dist nunits myid)._blocksize := by
      rw [huf]
      split_ifs <;> omega
    rw [usub_of_le hle]
    by_cases hc : k + 1 < (BlockPattern.make size dist nunits myid)._nblocks
    · rw [if_pos hc, if_pos (by omega)]
    · rw [if_neg hc, if_neg (by omega)]
  have hoff : ∀ j, ((BlockPattern.make size dist nunits myid).block j).offset
      = j * (BlockPattern.make size dist nunits myid)._blocksize :=
    fun _ => rfl
  have hbat : ∀ g, (BlockPattern.make size dist nunits myid).block_at g
      = g / (BlockPattern.make size dist nunits myid)._blocksize :=
    fun _ => rfl
  simp only [hbat]
  rw [hext, hoff]
  rw [hnb] at hk ⊢
  rw [huf]
  unfold math.div_ceil at hk ⊢
  generalize (BlockPattern.make size dist nunits myid)._blocksize = b at *
  have hkb : (k + 1) * b = k * b + b := by rw [Nat.add_mul, Nat.one_mul]
  have hqb : b * (size / b) = (size / b) * b := Nat.mul_comm _ _
  refine ⟨rfl, ?_, ?_, ?_⟩
  · intro hlt
    rw [if_pos hlt, hoff, hkb]
    exact ⟨by omega, by omega⟩
  · intro he
    rw [if_neg (by omega)]
    by_cases h0 : size % b = 0
    · rw [if_pos h0] at he ⊢
      rw [h0] at hN
      have hq : k + 1 = size / b := by omega
      rw [← hq, Nat.mul_comm, hkb] at hN
      exact ⟨by omega, by omega, by omega⟩
    · rw [if_neg h0] at he ⊢
      have hq : k = size / b := by omega
      rw [← hq, Nat.mul_comm] at hN
      exact ⟨by omega, by omega, by omega⟩
  · intro g hg1 hg2
    apply Nat.div_eq_of_lt_le hg1
    rw [Nat.succ_mul]
    split at hg2 <;> split at hg2 <;> omega

/-- Witness of C24: `BLOCKED` over 10 elements and 3 units, whose blocks are
`[0, 4)`, `[4, 8)` and `[8, 10)`: the last block, `k = 2`. -/
theorem BlockPattern.block_geometry_witness :
    ((BlockPattern.make 10 .BLOCKED 3 0).block 2).offset = 2 * 4
    ∧ ((BlockPattern.make 10 .BLOCKED 3 0).block 2).offset
        + ((BlockPattern.make 10 .BLOCKED 3 0).block 2).extent = 10 :=
  ⟨(BlockPattern.block_geometry 10 .BLOCKED 3 0 2 (by decide) (by decide)).1,
   ((BlockPattern.block_geometry 10 .BLOCKED 3 0 2 (by decide)
      (by decide)).2.2.1 (by decide)).2.2⟩

/-! ## Proofs: the local range -/

namespace BlockPattern

/-- Going from a global index to its unit and local index and back gives the
global index. -/
theorem global_of_local_coords (p : BlockPattern) (g : Nat)
    (hn : 0 < p._nunits) (hb : 0 < p._blocksize) :
    p.global (p.unit_at g) (p.local_coords g) = g := by
  have h := global_eq p (p.unit_at g) (p.local_coords g)
    (by unfold unit_at; exact Nat.mod_lt _ hn)
  rw [h]
  unfold unit_at local_coords
  exact block_recompose g p._blocksize p._nunits hb

/-- The stored local range is `initialize_local_range(_local_size)` evaluated
on the finished pattern, and the stored `_local_size` is
`local_size(myid)`. -/
theorem make_lbegin_lend (size : Nat) (dist : Distribution)
    (nunits myid : Nat) :
    (make size dist nunits myid)._lbegin_lend
        = (make size dist nunits myid).initialize_local_range
            (make size dist nunits myid)._local_size
    ∧ (make size dist nunits myid)._local_size
        = (make size dist nunits myid).local_size myid := by
  refine ⟨rfl, ?_⟩
  unfold local_size
  rw [if_pos (make_myid size dist nunits myid).symm]

/-- `global(u, ·)` is monotone for a unit below `_nunits`. -/
theorem global_le_global (p : BlockPattern) (u l1 l2 : Nat)
    (hb : 0 < p._blocksize) (hu : u < p._nunits) (h : l1 ≤ l2) :
    p.global u l1 ≤ p.global u l2 := by
  rcases Nat.eq_or_lt_of_le h with he | hlt
  · rw [he]
  · exact Nat.le_of_lt (global_lt_global p u l1 l2 hb hu hlt)

end BlockPattern

/-- Claim C26: Local range `[lbegin, lend)` of a pattern constructed by a
unit `myid` of the team: if the calling unit's local size is 0 then
`lbegin = lend = 0`; otherwise `lbegin = global(0)`,
`lend = global(local_size - 1) + 1`, both `lbegin` and `lend - 1` are owned
by the calling unit, `lend ≤ extent`, and every global index below the extent
that the calling unit owns lies in `[lbegin, lend)`. -/
theorem BlockPattern.local_range (size : Nat) (dist : Distribution)
    (nunits myid : Nat) (hm : myid < nunits) :
    ((BlockPattern.make size dist nunits myid)._local_size = 0 →
      (BlockPattern.make size dist nunits myid).lbegin = 0
      ∧ (BlockPattern.make size dist nunits myid).lend = 0)
    ∧ ((BlockPattern.make size dist nunits myid)._local_size ≠ 0 →
      (BlockPattern.make size dist nunits myid).lbegin
        = (BlockPattern.make size dist nunits myid).global myid 0
      ∧ (BlockPattern.make size dist nunits myid).lend
        = (BlockPattern.make size dist nunits myid).global myid
            ((BlockPattern.make size dist nunits myid)._local_size - 1) + 1
      ∧ (BlockPattern.make size dist nunits myid).unit_at
          (BlockPattern.make size dist nunits myid).lbegin = myid
      ∧ (BlockPattern.make size dist nunits myid).unit_at
          ((BlockPattern.make size dist nunits myid).lend - 1) = myid
      ∧ (BlockPattern.make size dist nunits myid).lend ≤ size
      ∧ ∀ g, g < size →
          (BlockPattern.make size dist nunits myid).unit_at g = myid →
          (BlockPattern.make size dist nunits myid).lbegin ≤ g
          ∧ g < (BlockPattern.make size dist nunits myid).lend) := by
  obtain ⟨hrange, hls⟩ := BlockPattern.make_lbegin_lend size dist nunits myid
  have hmu : myid < (BlockPattern.make size dist nunits myid)._nunits := by
    rw [BlockPattern.make_nunits]; exact hm
  constructor
  · intro h0
    unfold BlockPattern.lbegin BlockPattern.lend
    rw [hrange, h0]
    exact ⟨rfl, rfl⟩
  · intro hne
    have hpos : 0 < (BlockPattern.make size dist nunits myid).local_size myid := by
      rw [← hls]; omega
    obtain ⟨hb, hfirst⟩ :=
      BlockPattern.make_global_lt_size size dist nunits myid myid 0 hm hpos
    have hlast :=
      (BlockPattern.make_global_lt_size size dist nunits myid myid
        ((BlockPattern.make size dist nunits myid)._local_size - 1) hm
        (by rw [← hls]; omega)).2
    have hbegin : (BlockPattern.make size dist nunits myid).lbegin
        = (BlockPattern.make size dist nunits myid).global myid 0 := by
      unfold BlockPattern.lbegin
      rw [hrange]
      unfold BlockPattern.initialize_local_range
      rw [if_neg hne, BlockPattern.make_myid]
    have hend : (BlockPattern.make size dist nunits myid).lend
        = (BlockPattern.make size dist nunits myid).global myid
            ((BlockPattern.make size dist nunits myid)._local_size - 1) + 1 := by
      unfold BlockPattern.lend
      rw [hrange]
      unfold BlockPattern.initialize_local_range
      rw [if_neg hne, BlockPattern.make_myid, usub_of_le (by omega)]
    refine ⟨hbegin, hend, ?_, ?_, ?_, ?_⟩
    · rw [hbegin]
      exact (BlockPattern.unit_at_local_coords_global _ myid 0 hb hmu).1
    · rw [hend, Nat.add_sub_cancel]
      exact (BlockPattern.unit_at_local_coords_global _ myid _ hb hmu).1
    · rw [hend]
      omega
    · intro g hg hown
      have hl := BlockPattern.make_local_coords_lt size dist nunits myid g hb
        (by omega) hg
      rw [hown, ← hls] at hl
      have hback := BlockPattern.global_of_local_coords
        (BlockPattern.make size dist nunits myid) g (by omega) hb
      rw [hown] at hback
      rw [hbegin, hend]
      constructor
      · have := BlockPattern.global_le_global _ myid 0
          ((BlockPattern.make size dist nunits myid).local_coords g) hb hmu
          (Nat.zero_le _)
        omega
      · have := BlockPattern.global_le_global _ myid
          ((BlockPattern.make size dist nunits myid).local_coords g)
          ((BlockPattern.make size dist nunits myid)._local_size - 1) hb hmu
          (by omega)
        omega

/-- Witness of C26: `BLOCKCYCLIC(2)` over 10 elements and 3 units, built by
unit 1, which owns the indices 2, 3, 8 and 9. -/
theorem BlockPattern.local_range_witness :
    (BlockPattern.make 10 (.BLOCKCYCLIC 2) 3 1).lbegin
      = (BlockPattern.make 10 (.BLOCKCYCLIC 2) 3 1).global 1 0
    ∧ (BlockPattern.make 10 (.BLOCKCYCLIC 2) 3 1).lend ≤ 10 :=
  ⟨((BlockPattern.local_range 10 (.BLOCKCYCLIC 2) 3 1 (by decide)).2
      (by decide)).1,
   ((BlockPattern.local_range 10 (.BLOCKCYCLIC 2) 3 1 (by decide)).2
      (by decide)).2.2.2.2.1⟩

/-! ## Proofs: local blocks -/

/-- Local size `b * cnt + tail` with `tail < b` splits into `cnt` full blocks
and a remainder `tail`. -/
theorem local_size_div_mod (b cnt tail : Nat) (ht : tail < b) :
    (b * cnt + tail) / b = cnt ∧ (b * cnt + tail) % b = tail := by
  have hb : 0 < b := by omega
  constructor
  · rw [Nat.mul_add_div hb, Nat.div_eq_of_lt ht, Nat.add_zero]
  · rw [Nat.mul_add_mod, Nat.mod_eq_of_lt ht]

/-- The `l`-th local block of unit `u` is the global block `l * n + u`: that
block exists, and the extent computed from the local size is the extent
computed from the global block index. -/
theorem local_block_arith (N b n u l : Nat) (hb : 0 < b) (hu : u < n)
    (hl : l < math.div_ceil
        (b * (N / b / n + (if u < N / b % n then 1 else 0))
          + (if N / b % n = u then N % b else 0)) b) :
    l * n + u < math.div_ceil N b
    ∧ (if l = math.div_ceil
            (b * (N / b / n + (if u < N / b % n then 1 else 0))
              + (if N / b % n = u then N % b else 0)) b - 1
       then
         (if (b * (N / b / n + (if u < N / b % n then 1 else 0))
                + (if N / b % n = u then N % b else 0)) % b = 0
          then b
          else (b * (N / b / n + (if u < N / b % n then 1 else 0))
                + (if N / b % n = u then N % b else 0)) % b)
       else b)
      = b - (if l * n + u < math.div_ceil N b - 1 then 0
             else (if N % b = 0 then 0 else b - N % b)) := by
  have hr : N % b < b := Nat.mod_lt _ hb
  have ht : (if N / b % n = u then N % b else 0) < b := by
    split <;> omega
  obtain ⟨hd, hm⟩ := local_size_div_mod b
    (N / b / n + (if u < N / b % n then 1 else 0))
    (if N / b % n = u then N % b else 0) ht
  have hown := own_block_lt l u (N / b) n hu
  have hq := Nat.div_add_mod (N / b) n
  rw [Nat.mul_comm] at hq
  unfold math.div_ceil at hl ⊢
  rw [hd, hm] at hl
  rw [hd, hm]
  clear hd hm
  generalize N / b = q at *
  generalize N % b = r at *
  generalize q / n = a at *
  generalize q % n = c at *
  by_cases hlt : l < a + (if u < c then 1 else 0)
  · have hk := hown.mpr hlt
    clear hown hq
    generalize l * n + u = k at *
    split_ifs at hl hlt ⊢ <;> omega
  · have hk : ¬ (l * n + u < q) := fun h => hlt (hown.mp h)
    have hla : l = a := by
      split_ifs at hl hlt <;> omega
    have hcu : c = u := by
      split_ifs at hl hlt <;> omega
    subst hla
    have hkq : l * n + u = q := by omega
    rw [hkq]
    clear hown hq hk hkq
    split_ifs at hl hlt ⊢ <;> omega

namespace BlockPattern

/-- The stored `_nlblocks` is `div_ceil(_local_size, _blocksize)` for a
positive block size and 0 otherwise. -/
theorem make_nlblocks (size : Nat) (dist : Distribution) (nunits myid : Nat) :
    (make size dist nunits myid)._nlblocks
      = if (make size dist nunits myid)._blocksize > 0
        then math.div_ceil (make size dist nunits myid)._local_size
              (make size dist nunits myid)._blocksize
        else 0 := rfl

/-- Member function `underfilled_blocksize` on a constructed pattern with
positive block size, without the unsigned subtraction. -/
theorem make_underfilled (size : Nat) (dist : Distribution)
    (nunits myid : Nat) (hb : 0 < (make size dist nunits myid)._blocksize) :
    (make size dist nunits myid).underfilled_blocksize
      = if size % (make size dist nunits myid)._blocksize = 0 then 0
        else (make size dist nunits myid)._blocksize
              - size % (make size dist nunits myid)._blocksize := by
  unfold underfilled_blocksize
  rw [make_size]
  have hb0 : (make size dist nunits myid)._blocksize ≠ 0 := by omega
  simp only [hb0, false_or]
  split
  · rfl
  · exact usub_of_le (Nat.le_of_lt (Nat.mod_lt _ hb))

/-- The first element of the `l`-th local block of unit `u` is the first
element of the global block `l * nunits + u`. -/
theorem global_block_start (p : BlockPattern) (u l : Nat)
    (hb : 0 < p._blocksize) (hu : u < p._nunits) :
    p.global u (l * p._blocksize) = (l * p._nunits + u) * p._blocksize := by
  rw [global_eq p u _ hu, Nat.mul_div_cancel _ hb, Nat.mul_mod_left,
    Nat.add_zero]

end BlockPattern

/-- Claim C25: Local block geometry agrees with global block geometry: on a
pattern constructed by a unit `myid` of the team, for every local block index
`l` below `num_local_blocks`, the global block
`k = block_at(global(myid, l * block_size))` is `l * nunits + myid`, the
unit's `l`-th block under round-robin assignment, and lies below
`num_blocks`; `local_block(l)` has the offset and the extent of `block(k)`;
`local_block_local(l)` has offset `l * block_size` and that same extent; and
the first local block starts at global offset `myid * block_size`. -/
theorem BlockPattern.local_block_geometry (size : Nat) (dist : Distribution)
    (nunits myid l : Nat) (hm : myid < nunits)
    (hl : l < (BlockPattern.make size dist nunits myid)._nlblocks) :
    (BlockPattern.make size dist nunits myid).block_at
        ((BlockPattern.make size dist nunits myid).global myid
          (l * (BlockPattern.make size dist nunits myid)._blocksize))
      = l * nunits + myid
    ∧ l * nunits + myid < (BlockPattern.make size dist nunits myid)._nblocks
    ∧ ((BlockPattern.make size dist nunits myid).local_block l).offset
      = ((BlockPattern.make size dist nunits myid).block
          ((BlockPattern.make size dist nunits myid).block_at
            ((BlockPattern.make size dist nunits myid).global myid
              (l * (BlockPattern.make size dist nunits myid)._blocksize)))).offset
    ∧ ((BlockPattern.make size dist nunits myid).local_block l).extent
      = ((BlockPattern.make size dist nunits myid).block
          ((BlockPattern.make size dist nunits myid).block_at
            ((BlockPattern.make size dist nunits myid).global myid
              (l * (BlockPattern.make size dist nunits myid)._blocksize)))).extent
    ∧ ((BlockPattern.make size dist nunits myid).local_block_local l).offset
      = l * (BlockPattern.make size dist nunits myid)._blocksize
    ∧ ((BlockPattern.make size dist nunits myid).local_block_local l).extent
      = ((BlockPattern.make size dist nunits myid).block
          ((BlockPattern.make size dist nunits myid).block_at
            ((BlockPattern.make size dist nunits myid).global myid
              (l * (BlockPattern.make size dist nunits myid)._blocksize)))).extent
    ∧ ((BlockPattern.make size dist nunits myid).local_block 0).offset
      = myid * (BlockPattern.make size dist nunits myid)._blocksize := by
  have hnl := BlockPattern.make_nlblocks size dist nunits myid
  have hb : 0 < (BlockPattern.make size dist nunits myid)._blocksize := by
    rcases Nat.eq_zero_or_pos
      (BlockPattern.make size dist nunits myid)._blocksize with h0 | hpos
    · rw [hnl, if_neg (by omega)] at hl
      omega
    · exact hpos
  rw [if_pos hb] at hnl
  have hmu : myid < (BlockPattern.make size dist nunits myid)._nunits := by
    rw [BlockPattern.make_nunits]; exact hm
  have hls : (BlockPattern.make size dist nunits myid)._local_size = _ :=
    ((BlockPattern.make_lbegin_lend size dist nunits myid).2).trans
      (BlockPattern.make_local_size_closed size dist nunits myid myid hb hm)
  have hnb := BlockPattern.make_nblocks_pos size dist nunits myid hb
  have huf := BlockPattern.make_underfilled size dist nunits myid hb
  have hstart := BlockPattern.global_block_start
    (BlockPattern.make size dist nunits myid) myid l hb hmu
  rw [BlockPattern.make_nunits] at hstart
  have hzero := BlockPattern.global_block_start
    (BlockPattern.make size dist nunits myid) myid 0 hb hmu
  simp only [Nat.zero_mul, Nat.zero_add] at hzero
  have hk : (BlockPattern.make size dist nunits myid).block_at
        ((BlockPattern.make size dist nunits myid).global myid
          (l * (BlockPattern.make size dist nunits myid)._blocksize))
      = l * nunits + myid := by
    unfold BlockPattern.block_at
    rw [hstart, Nat.mul_div_cancel _ hb]
  rw [hnl, hls] at hl
  obtain ⟨hlt, hext⟩ := local_block_arith size
    (BlockPattern.make size dist nunits myid)._blocksize nunits myid l hb hm hl
  have hnb1 : usub (BlockPattern.make size dist nunits myid)._nblocks 1
      = (BlockPattern.make size dist nunits myid)._nblocks - 1 :=
    usub_of_le (by rw [hnb]; omega)
  have hnl1 : usub (BlockPattern.make size dist nunits myid)._nlblocks 1
      = (BlockPattern.make size dist nunits myid)._nlblocks - 1 :=
    usub_of_le (by rw [hnl, hls]; omega)
  have hlocal : (if l = usub (BlockPattern.make size dist nunits myid)._nlblocks 1
        then
          (if (BlockPattern.make size dist nunits myid)._local_size
                % (BlockPattern.make size dist nunits myid)._blocksize = 0
           then (BlockPattern.make size dist nunits myid)._blocksize
           else (BlockPattern.make size dist nunits myid)._local_size
                % (BlockPattern.make size dist nunits myid)._blocksize)
        else (BlockPattern.make size dist nunits myid)._blocksize)
      = ((BlockPattern.make size dist nunits myid).block
          (l * nunits + myid)).extent := by
    have hsub : usub (BlockPattern.make size dist nunits myid)._blocksize
          (if l * nunits + myid
                < (BlockPattern.make size dist nunits myid)._nblocks - 1
           then 0
           else (BlockPattern.make size dist nunits myid).underfilled_blocksize)
        = (BlockPattern.make size dist nunits myid)._blocksize
          - (if l * nunits + myid
                < (BlockPattern.make size dist nunits myid)._nblocks - 1
             then 0
             else (BlockPattern.make size dist nunits myid).underfilled_blocksize) := by
      apply usub_of_le
      rw [huf]
      split_ifs <;> omega
    show _ = usub _ _
    rw [hnb1, hsub, huf, hnl1, hnl, hls, hnb]
    exact hext
  refine ⟨hk, ?_, ?_, ?_, rfl, ?_, ?_⟩
  · rw [hnb]; exact hlt
  · rw [hk]
    show (BlockPattern.make size dist nunits myid).global
        (BlockPattern.make size dist nunits myid)._myid _ = _
    rw [BlockPattern.make_myid, hstart]
    rfl
  · rw [hk]; exact hlocal
  · rw [hk]; exact hlocal
  · show (BlockPattern.make size dist nunits myid).global
        (BlockPattern.make size dist nunits myid)._myid _ = _
    rw [BlockPattern.make_myid, Nat.zero_mul, hzero]

/-- Witness of C25: `BLOCKCYCLIC(2)` over 10 elements and 3 units, built by
unit 1, whose local blocks are the global blocks 1 and 4, `[2, 4)` and
`[8, 10)`: the second local block. -/
theorem BlockPattern.local_block_geometry_witness :
    (BlockPattern.make 10 (.BLOCKCYCLIC 2) 3 1).block_at
        ((BlockPattern.make 10 (.BLOCKCYCLIC 2) 3 1).global 1
          (1 * (BlockPattern.make 10 (.BLOCKCYCLIC 2) 3 1)._blocksize))
      = 1 * 3 + 1
    ∧ 1 * 3 + 1 < (BlockPattern.make 10 (.BLOCKCYCLIC 2) 3 1)._nblocks :=
  ⟨(BlockPattern.local_block_geometry 10 (.BLOCKCYCLIC 2) 3 1 1 (by decide)
      (by decide)).1,
   (BlockPattern.local_block_geometry 10 (.BLOCKCYCLIC 2) 3 1 1 (by decide)
      (by decide)).2.1⟩

/-! ## Proofs: a team of 0 units, equality, compound operators -/

/-- The checked `div_ceil` has no result for a divisor 0: the guards of the
constructor are what keeps a team of 0 units away from it. -/
theorem math.div_ceil_checked_zero (a : Nat) :
    math.div_ceil_checked a 0 = none := rfl

/-- Claim C27: Zero units: for every extent and distribution, constructing a
pattern over a team of 0 units evaluates no division or modulo by zero (the
construction with checked divisions yields the constructed pattern), and the
pattern has `block_size`, `num_blocks`, `num_local_blocks`,
`local_capacity`, `underfilled_blocksize`, `lbegin` and `lend` all equal to
0 and `local_size(unit) = 0` for every unit argument, these accessors
evaluating no division or modulo by zero either. -/
theorem BlockPattern.zero_units (size : Nat) (dist : Distribution)
    (myid : Nat) :
    BlockPattern.make_checked size dist 0 myid
      = some (BlockPattern.make size dist 0 myid)
    ∧ (BlockPattern.make size dist 0 myid)._blocksize = 0
    ∧ (BlockPattern.make size dist 0 myid)._nblocks = 0
    ∧ (BlockPattern.make size dist 0 myid)._local_size = 0
    ∧ (∀ unit, (BlockPattern.make size dist 0 myid).local_size unit = 0
        ∧ (BlockPattern.make size dist 0 myid).local_size_checked unit
            = some 0)
    ∧ (BlockPattern.make size dist 0 myid)._nlblocks = 0
    ∧ (∀ unit, (BlockPattern.make size dist 0 myid).local_capacity unit = 0)
    ∧ (BlockPattern.make size dist 0 myid).underfilled_blocksize = 0
    ∧ (BlockPattern.make size dist 0 myid).underfilled_blocksize_checked
        = some 0
    ∧ (BlockPattern.make size dist 0 myid).lbegin = 0
    ∧ (BlockPattern.make size dist 0 myid).lend = 0 := by
  refine ⟨rfl, rfl, rfl, rfl, ?_, rfl, fun _ => rfl, rfl, rfl, rfl, rfl⟩
  intro unit
  constructor
  · rw [BlockPattern.make_local_size]
    rfl
  · unfold BlockPattern.local_size_checked
    split
    · rfl
    · rfl

/-- Claim C28: Pattern equality covers every derived field: two constructed
patterns, distinct objects, that compare equal under `operator==` agree on
`block_size`, `num_blocks`, `num_local_blocks`, `local_size`, `lbegin`,
`lend`, and also on `local_capacity` (which `operator==` does not compare)
and on `local_size(u)` for every unit `u`; `operator!=` is the negation of
`operator==` on every pair of patterns; and a pattern equals itself. -/
theorem BlockPattern.operator_eq_covers_derived (s1 : Nat)
    (d1 : Distribution) (n1 m1 s2 : Nat) (d2 : Distribution) (n2 m2 : Nat)
    (teamspec_eq : Bool)
    (h : (BlockPattern.make s1 d1 n1 m1).operator_eq
          (some (BlockPattern.make s2 d2 n2 m2)) teamspec_eq = true) :
    (BlockPattern.make s1 d1 n1 m1)._blocksize
      = (BlockPattern.make s2 d2 n2 m2)._blocksize
    ∧ (BlockPattern.make s1 d1 n1 m1)._nblocks
      = (BlockPattern.make s2 d2 n2 m2)._nblocks
    ∧ (BlockPattern.make s1 d1 n1 m1)._nlblocks
      = (BlockPattern.make s2 d2 n2 m2)._nlblocks
    ∧ (BlockPattern.make s1 d1 n1 m1)._local_size
      = (BlockPattern.make s2 d2 n2 m2)._local_size
    ∧ (BlockPattern.make s1 d1 n1 m1).lbegin
      = (BlockPattern.make s2 d2 n2 m2).lbegin
    ∧ (BlockPattern.make s1 d1 n1 m1).lend
      = (BlockPattern.make s2 d2 n2 m2).lend
    ∧ (∀ u v : Int, (BlockPattern.make s1 d1 n1 m1).local_capacity u
        = (BlockPattern.make s2 d2 n2 m2).local_capacity v)
    ∧ (∀ u, (BlockPattern.make s1 d1 n1 m1).local_size u
        = (BlockPattern.make s2 d2 n2 m2).local_size u)
    ∧ (∀ (p : BlockPattern) (other : Option BlockPattern) (t : Bool),
        p.operator_ne other t = !(p.operator_eq other t))
    ∧ (∀ (p : BlockPattern) (t : Bool), p.operator_eq none t = true)
    ∧ (∀ p : BlockPattern, p.operator_eq (some p) true = true) := by
  simp only [BlockPattern.operator_eq, Bool.and_eq_true, beq_iff_eq] at h
  obtain ⟨⟨⟨⟨⟨⟨⟨⟨hsz, _⟩, _⟩, hnb⟩, hnl⟩, hls⟩, hbs⟩, hnu⟩, hrange⟩ := h
  refine ⟨hbs, hnb, hnl, hls, ?_, ?_, ?_, ?_, fun _ _ _ => rfl,
    fun _ _ => rfl, ?_⟩
  · unfold BlockPattern.lbegin
    rw [hrange]
  · unfold BlockPattern.lend
    rw [hrange]
  · intro _ _
    show (BlockPattern.make s1 d1 n1 m1)._local_capacity
      = (BlockPattern.make s2 d2 n2 m2)._local_capacity
    rw [BlockPattern.make_local_capacity, BlockPattern.make_local_capacity]
    unfold BlockPattern.initialize_local_capacity
    rw [hnu, hnb, hbs]
  · intro u
    rw [BlockPattern.make_local_size, BlockPattern.make_local_size]
    unfold BlockPattern.initialize_local_extent
      BlockPattern.underfilled_blocksize
    rw [hnu, hnb, hbs, hsz]
  · intro p
    simp [BlockPattern.operator_eq]

/-- Witness of C28: two patterns `BLOCKED` over 10 elements and 3 units, both
built by unit 0. -/
theorem BlockPattern.operator_eq_covers_derived_witness :
    (BlockPattern.make 10 .BLOCKED 3 0).operator_eq
        (some (BlockPattern.make 10 .BLOCKED 3 0)) true = true
    ∧ (∀ u v : Int, (BlockPattern.make 10 .BLOCKED 3 0).local_capacity u
        = (BlockPattern.make 10 .BLOCKED 3 0).local_capacity v) :=
  ⟨by decide,
   (BlockPattern.operator_eq_covers_derived 10 .BLOCKED 3 0 10 .BLOCKED 3 0
      true (by decide)).2.2.2.2.2.2.1⟩

namespace GlobAsyncRef

/-- The value conversion issues no store: a local reference leaves the world
as it is, a remote one appends one blocking get to the transport log; the
reference keeps its flags, pointers and locality. -/
theorem operator_T_world {T : Type} (r : GlobAsyncRef T) (w : World T) :
    (r._is_local = true → r.operator_T w = (r._value, r, w))
    ∧ (r._is_local = false →
        r.operator_T w
          = (w.remote r._gptr, { r with _value := w.remote r._gptr },
              { w with log := w.log ++ [TransportCall.get_value r._gptr] })) := by
  constructor
  · intro h
    simp [operator_T, h]
  · intro h
    simp [operator_T, h, get_value]

/-- Whenever `operator=(v)` returns, the world is unchanged, or one
non-blocking put of `v` was logged for a remote reference, or `v` was written
to the address of a local reference. -/
theorem operator_assign_world {T : Type} [DecidableEq T]
    (r : GlobAsyncRef T) (w : World T) (v : T) (r1 : GlobAsyncRef T)
    (w1 : World T) (h : r.operator_assign w v = some (r1, w1)) :
    w1 = w
    ∨ (r._is_local = false
        ∧ w1 = { w with log :=
                  w.log ++ [TransportCall.put_value_nonblock v r._gptr] })
    ∨ (∃ a, r._is_local = true ∧ r._lptr = some a
        ∧ w1 = { w with local_mem := Function.update w.local_mem a v }) := by
  unfold operator_assign at h
  by_cases hc : (!r._has_value || r._value != v) = true
  · rw [if_pos hc] at h
    by_cases hl : r._is_local = true
    · simp only [hl, if_true] at h
      cases ha : r._lptr with
      | none => simp [ha] at h
      | some a =>
        simp only [ha, Option.some.injEq, Prod.mk.injEq] at h
        exact Or.inr (Or.inr ⟨a, hl, rfl, h.2.symm⟩)
    · simp only [hl, Bool.false_eq_true, if_false, Option.some.injEq,
        Prod.mk.injEq] at h
      have hl2 : r._is_local = false := by simpa using hl
      exact Or.inr (Or.inl ⟨hl2, h.2.symm⟩)
  · rw [if_neg hc] at h
    simp only [Option.some.injEq, Prod.mk.injEq] at h
    exact Or.inl h.2.symm

end GlobAsyncRef

/-- Claim C29: Compound operations are read-then-mutate-then-write: for every
reference `r`, world and value `x`, `r += x` has exactly the result
(reference with cache and flags, local memory, transport log) of reading
`v = T(r)` and then assigning `r = v + x`; `r -= x` is `r = T(r) - x`;
`++r` and `r++` are `r = T(r) + 1`, `--r` and `r--` are `r = T(r) - 1`, the
postfix forms yielding in addition the copy of `r` taken before.  The read
issues no store, and whenever the write returns it issues at most one: it
leaves the world as the read left it, or logs one non-blocking put of the
new value for a remote reference, or writes the new value to the address of
a local reference. -/
theorem GlobAsyncRef.compound_read_mutate_write {T : Type} [DecidableEq T]
    [Add T] [Sub T] [One T] (r : GlobAsyncRef T) (w : World T) (x : T) :
    r.operator_add_assign w x
      = GlobAsyncRef.read_mutate_write (fun v => v + x) r w
    ∧ r.operator_sub_assign w x
      = GlobAsyncRef.read_mutate_write (fun v => v - x) r w
    ∧ r.operator_pre_increment w
      = GlobAsyncRef.read_mutate_write (fun v => v + 1) r w
    ∧ r.operator_post_increment w
      = Option.map (fun y => (r, y.1, y.2))
          (GlobAsyncRef.read_mutate_write (fun v => v + 1) r w)
    ∧ r.operator_pre_decrement w
      = GlobAsyncRef.read_mutate_write (fun v => v - 1) r w
    ∧ r.operator_post_decrement w
      = Option.map (fun y => (r, y.1, y.2))
          (GlobAsyncRef.read_mutate_write (fun v => v - 1) r w)
    ∧ ((r.operator_T w).2.2.local_mem = w.local_mem
        ∧ ((r.operator_T w).2.2.log = w.log
            ∨ (r.operator_T w).2.2.log
                = w.log ++ [TransportCall.get_value r._gptr]))
    ∧ (∀ (f : T → T) (r1 : GlobAsyncRef T) (w1 : World T),
        GlobAsyncRef.read_mutate_write f r w = some (r1, w1) →
          w1 = (r.operator_T w).2.2
          ∨ (r._is_local = false
              ∧ w1 = put_value_nonblock (r.operator_T w).2.2
                        (f (r.operator_T w).1) r._gptr)
          ∨ (∃ a, r._is_local = true ∧ r._lptr = some a
              ∧ w1 = World.mk
                        (Function.update (r.operator_T w).2.2.local_mem a
                          (f (r.operator_T w).1))
                        (r.operator_T w).2.2.to_lptr
                        (r.operator_T w).2.2.remote
                        (r.operator_T w).2.2.log)) := by
  refine ⟨rfl, rfl, rfl, ?_, rfl, ?_, ?_, ?_⟩
  · rcases hT : r.operator_T w with ⟨v, r2, w2⟩
    simp only [GlobAsyncRef.operator_post_increment,
      GlobAsyncRef.read_mutate_write, hT]
    cases GlobAsyncRef.operator_assign r2 w2 (v + 1) <;> rfl
  · rcases hT : r.operator_T w with ⟨v, r2, w2⟩
    simp only [GlobAsyncRef.operator_post_decrement,
      GlobAsyncRef.read_mutate_write, hT]
    cases GlobAsyncRef.operator_assign r2 w2 (v - 1) <;> rfl
  · cases hl : r._is_local
    · rw [(GlobAsyncRef.operator_T_world r w).2 hl]
      exact ⟨rfl, Or.inr rfl⟩
    · rw [(GlobAsyncRef.operator_T_world r w).1 hl]
      exact ⟨rfl, Or.inl rfl⟩
  · intro f r1 w1 h
    have hsame : (r.operator_T w).2.1._is_local = r._is_local
        ∧ (r.operator_T w).2.1._lptr = r._lptr
        ∧ (r.operator_T w).2.1._gptr = r._gptr := by
      cases hl : r._is_local
      · rw [(GlobAsyncRef.operator_T_world r w).2 hl]
        exact ⟨hl, rfl, rfl⟩
      · rw [(GlobAsyncRef.operator_T_world r w).1 hl]
        exact ⟨hl, rfl, rfl⟩
    have h2 := GlobAsyncRef.operator_assign_world _ _ _ r1 w1 h
    rw [hsame.1, hsame.2.1, hsame.2.2] at h2
    exact h2

/-- Claim C30, evaluated on the code: Read-your-own-writes before flush holds
for every local reference (after `r = v` returns, `T(r)` yields `v`), but not
for a remote one: after `demo_remote_ref = 123`, with no flush performed and
the non-blocking put of 123 not completed (a blocking get still delivers 7),
the value conversion logs a blocking get and yields 7, not 123. -/
theorem GlobAsyncRef.read_own_write_eval :
    (∀ (r : GlobAsyncRef Nat) (w : World Nat) (v : Nat)
        (r1 : GlobAsyncRef Nat) (w1 : World Nat),
        r._is_local = true → r.operator_assign w v = some (r1, w1) →
          (r1.operator_T w1).1 = v)
    ∧ Option.map (fun y => (GlobAsyncRef.operator_T y.1 y.2).1)
        (demo_remote_ref.operator_assign demo_world 123) = some 7
    ∧ Option.map (fun y => y.2.log)
        (demo_remote_ref.operator_assign demo_world 123)
        = some [TransportCall.put_value_nonblock 123 demo_remote_gptr]
    ∧ Option.map (fun y => (GlobAsyncRef.operator_T y.1 y.2).2.2.log)
        (demo_remote_ref.operator_assign demo_world 123)
        = some [TransportCall.put_value_nonblock 123 demo_remote_gptr,
                TransportCall.get_value demo_remote_gptr] := by
  refine ⟨?_, rfl, rfl, rfl⟩
  intro r w v r1 w1 hl h
  unfold GlobAsyncRef.operator_assign at h
  by_cases hc : (!r._has_value || r._value != v) = true
  · rw [if_pos hc] at h
    simp only [hl, if_true] at h
    cases ha : r._lptr with
    | none => simp [ha] at h
    | some a =>
      simp only [ha, Option.some.injEq, Prod.mk.injEq] at h
      obtain ⟨h1, h2⟩ := h
      subst h1 h2
      simp [GlobAsyncRef.operator_T, hl]
  · rw [if_neg hc] at h
    simp only [Option.some.injEq, Prod.mk.injEq] at h
    obtain ⟨h1, h2⟩ := h
    subst h1 h2
    have hv : r._value = v := by
      simp only [Bool.or_eq_true, Bool.not_eq_true', bne_iff_ne, ne_eq,
        not_or, Bool.not_eq_false, not_not] at hc
      exact hc.2
    simp [GlobAsyncRef.operator_T, hl, hv]

/-! ## Further properties of the allocator and of the pattern -/

/-- Claim C31, evaluated on the code: `allocate(0)` asks the transport for 0
elements like any other request; when the transport grants it with the
pointer `(0, 0, 1, 0)`, `allocate(0)` returns that pointer, not
`DART_GPTR_NULL`, and records it in `_allocated`.  Only when the transport
refuses does it return `DART_GPTR_NULL` and record nothing. -/
theorem CollectiveAllocator.allocate_zero_eval :
    (demo_int.dart_storage 0).nelem = 0
    ∧ (CollectiveAllocator.allocate demo_int demo_allocator demo_runtime 0).1
        = dart_gptr_t.gptr 0 0 1 0
    ∧ (CollectiveAllocator.allocate demo_int demo_allocator demo_runtime 0).1
        ≠ DART_GPTR_NULL
    ∧ (CollectiveAllocator.allocate demo_int demo_allocator demo_runtime
        0).2.1._allocated
        = demo_allocator._allocated ++ [dart_gptr_t.gptr 0 0 1 0]
    ∧ (CollectiveAllocator.allocate demo_int demo_allocator demo_runtime
        0).2.2.log
        = [DartCall.dart_team_memalloc_aligned 0 0 3]
    ∧ (CollectiveAllocator.allocate demo_int demo_allocator
        demo_runtime_failing 0).1 = DART_GPTR_NULL
    ∧ (CollectiveAllocator.allocate demo_int demo_allocator
        demo_runtime_failing 0).2.1 = demo_allocator := by
  refine ⟨rfl, rfl, by decide, rfl, rfl, rfl, rfl⟩

/-! ## Proofs: the local capacity -/

/-- Unit 0 owns the most elements, and that number is the local capacity
`div_ceil(div_ceil(N, b), n) * b` less the underfill of the last block when
unit 0 is the only unit with the most blocks and the last block is one of
them (`n = 1`, or `div_ceil(N, b) mod n = 1`). -/
theorem capacity_arith (N b n u : Nat) (hb : 0 < b) (hu : u < n) :
    b * (N / b / n + (if u < N / b % n then 1 else 0))
        + (if N / b % n = u then N % b else 0)
      ≤ b * (N / b / n + (if 0 < N / b % n then 1 else 0))
        + (if N / b % n = 0 then N % b else 0)
    ∧ b * (N / b / n + (if 0 < N / b % n then 1 else 0))
        + (if N / b % n = 0 then N % b else 0)
        + (if n = 1 ∨ math.div_ceil N b % n = 1
           then (if N % b = 0 then 0 else b - N % b) else 0)
      = math.div_ceil (math.div_ceil N b) n * b := by
  have hn : 0 < n := by omega
  have hrlt : N % b < b := Nat.mod_lt _ hb
  have hclt : N / b % n < n := Nat.mod_lt _ hn
  unfold math.div_ceil
  by_cases hr : N % b = 0
  · simp only [hr, if_true, Nat.add_zero, ite_self, Nat.sub_zero]
    generalize N / b / n = a at *
    generalize N / b % n = c at *
    rw [Nat.mul_comm (a + if c = 0 then 0 else 1) b]
    constructor
    · apply Nat.mul_le_mul_left
      split_ifs <;> omega
    · congr 2
      split_ifs <;> omega
  · simp only [hr, if_false]
    rcases succ_div_mod (N / b) n hn with ⟨h1, h2, h3⟩ | ⟨h1, h2, h3⟩
    · rw [h2, h3]
      generalize N / b / n = a at *
      generalize N / b % n = c at *
      generalize N % b = r at *
      have hc1 : c + 1 ≠ 0 := Nat.succ_ne_zero c
      simp only [hc1, if_false, Nat.add_mul, Nat.mul_add, Nat.one_mul,
        Nat.mul_one, Nat.mul_zero, Nat.mul_comm a b]
      generalize b * a = ba at *
      constructor
      · split_ifs <;> omega
      · split_ifs <;> omega
    · rw [h2, h3]
      generalize N / b / n = a at *
      generalize N / b % n = c at *
      generalize N % b = r at *
      simp only [if_true, or_false, Nat.add_zero, Nat.add_mul, Nat.mul_add,
        Nat.one_mul, Nat.mul_one, Nat.mul_zero, Nat.mul_comm a b]
      generalize b * a = ba at *
      constructor
      · split_ifs <;> omega
      · split_ifs <;> (try simp only [or_false] at *) <;> omega

namespace BlockPattern

/-- On a constructed pattern over at least one unit, unit 0 owns the most
elements, and its local size and the underfill of the last block, when that
block is one of the most blocks that only unit 0 owns, add up to the local
capacity. -/
theorem make_local_size_zero_max (size : Nat) (dist : Distribution)
    (nunits myid : Nat) (hn : 1 ≤ nunits) :
    (∀ u, u < nunits →
      (make size dist nunits myid).local_size u
        ≤ (make size dist nunits myid).local_size 0)
    ∧ (make size dist nunits myid).local_size 0
        + (if nunits = 1 ∨ (make size dist nunits myid)._nblocks % nunits = 1
           then (make size dist nunits myid).underfilled_blocksize else 0)
      = (make size dist nunits myid)._local_capacity := by
  have hn0 : nunits ≠ 0 := by omega
  have hcap : (make size dist nunits myid)._local_capacity
      = math.div_ceil (make size dist nunits myid)._nblocks nunits
          * (make size dist nunits myid)._blocksize := by
    rw [make_local_capacity]
    unfold initialize_local_capacity
    rw [make_nunits, if_neg hn0]
  rcases Nat.eq_zero_or_pos (make size dist nunits myid)._blocksize
    with hb | hb
  · have hz := fun u => make_local_size_blocksize_zero size dist nunits myid u hb
    have huf : (make size dist nunits myid).underfilled_blocksize = 0 := by
      simp [underfilled_blocksize, hb]
    constructor
    · intro u _
      rw [hz u, hz 0]
    · rw [hz 0, huf, hcap, hb]
      simp
  · have hnb := make_nblocks_pos size dist nunits myid hb
    have huf := make_underfilled size dist nunits myid hb
    have h0 := make_local_size_closed size dist nunits myid 0 hb (by omega)
    constructor
    · intro u hu
      rw [make_local_size_closed size dist nunits myid u hb hu, h0]
      exact (capacity_arith size _ nunits u hb hu).1
    · rw [h0, hcap, huf, hnb]
      exact (capacity_arith size _ nunits 0 hb (by omega)).2

end BlockPattern

/-- Claim C32, as stated, fails: `BLOCKCYCLIC(3)` over 2 elements and 2 units
has one block of 2 elements; the local sizes are 2 and 0, their maximum is 2,
but the local capacity is one full block, 3. -/
theorem BlockPattern.local_capacity_counterexample :
    (BlockPattern.make 2 (.BLOCKCYCLIC 3) 2 0).local_size 0 = 2
    ∧ (BlockPattern.make 2 (.BLOCKCYCLIC 3) 2 0).local_size 1 = 0
    ∧ (BlockPattern.make 2 (.BLOCKCYCLIC 3) 2 0).local_capacity (-1) = 3
    ∧ (Finset.range 2).sup
          (fun u => (BlockPattern.make 2 (.BLOCKCYCLIC 3) 2 0).local_size u)
        ≠ (BlockPattern.make 2 (.BLOCKCYCLIC 3) 2 0).local_capacity (-1) := by
  refine ⟨rfl, rfl, rfl, by decide⟩

/-- Claim C32, amended: on every constructed pattern with `nunits ≥ 1`,
`local_capacity()` is an upper bound of `local_size(u)` for every unit `u`
below `nunits`; the maximum of the local sizes is `local_size(0)`, and it
falls short of `local_capacity()` by exactly `underfilled_blocksize` when
`nunits = 1` or `num_blocks mod nunits = 1` (unit 0 alone owns the most
blocks, the underfilled last block among them) and by nothing otherwise; in
particular the maximum is `local_capacity()` whenever no block is
underfilled. -/
theorem BlockPattern.local_capacity_max (size : Nat) (dist : Distribution)
    (nunits myid : Nat) (hn : 1 ≤ nunits) :
    (∀ (u : Nat) (v : Int), u < nunits →
      (BlockPattern.make size dist nunits myid).local_size u
        ≤ (BlockPattern.make size dist nunits myid).local_capacity v)
    ∧ (Finset.range nunits).sup
          (fun u => (BlockPattern.make size dist nunits myid).local_size u)
        = (BlockPattern.make size dist nunits myid).local_size 0
    ∧ (∀ v : Int,
        (Finset.range nunits).sup
            (fun u => (BlockPattern.make size dist nunits myid).local_size u)
          + (if nunits = 1
                ∨ (BlockPattern.make size dist nunits myid)._nblocks % nunits
                    = 1
             then (BlockPattern.make size dist nunits myid).underfilled_blocksize
             else 0)
          = (BlockPattern.make size dist nunits myid).local_capacity v)
    ∧ (∀ v : Int,
        (BlockPattern.make size dist nunits myid).underfilled_blocksize = 0 →
        (Finset.range nunits).sup
            (fun u => (BlockPattern.make size dist nunits myid).local_size u)
          = (BlockPattern.make size dist nunits myid).local_capacity v) := by
  obtain ⟨hmax, hsum⟩ :=
    BlockPattern.make_local_size_zero_max size dist nunits myid hn
  have hsup : (Finset.range nunits).sup
        (fun u => (BlockPattern.make size dist nunits myid).local_size u)
      = (BlockPattern.make size dist nunits myid).local_size 0 := by
    apply le_antisymm
    · apply Finset.sup_le
      intro u hu
      exact hmax u (Finset.mem_range.mp hu)
    · exact Finset.le_sup
        (f := fun u => (BlockPattern.make size dist nunits myid).local_size u)
        (Finset.mem_range.mpr hn)
  refine ⟨?_, hsup, ?_, ?_⟩
  · intro u _ hu
    exact BlockPattern.make_local_size_le_capacity size dist nunits myid u hu
  · intro _
    rw [hsup]
    exact hsum
  · intro _ h0
    rw [hsup]
    rw [h0] at hsum
    simpa using hsum

/-- Witness of C32, amended: `BLOCKCYCLIC(3)` over 2 elements and 2 units,
where the maximum 2 and the underfill 1 add up to the capacity 3. -/
theorem BlockPattern.local_capacity_max_witness :
    (Finset.range 2).sup
        (fun u => (BlockPattern.make 2 (.BLOCKCYCLIC 3) 2 0).local_size u)
      + (if 2 = 1 ∨ (BlockPattern.make 2 (.BLOCKCYCLIC 3) 2 0)._nblocks % 2 = 1
         then (BlockPattern.make 2 (.BLOCKCYCLIC 3) 2 0).underfilled_blocksize
         else 0)
      = (BlockPattern.make 2 (.BLOCKCYCLIC 3) 2 0).local_capacity (-1) :=
  (BlockPattern.local_capacity_max 2 (.BLOCKCYCLIC 3) 2 0 (by decide)).2.2.1
    (-1)

/-- Claim C33, as stated, fails: the pattern `BLOCKED` over 10 elements and a
team of 0 units has block size 0 and `underfilled_blocksize` 0, which is not
below the block size. -/
theorem BlockPattern.underfilled_blocksize_counterexample :
    (BlockPattern.make 10 .BLOCKED 0 0)._blocksize = 0
    ∧ (BlockPattern.make 10 .BLOCKED 0 0).underfilled_blocksize = 0
    ∧ ¬ ((BlockPattern.make 10 .BLOCKED 0 0).underfilled_blocksize
          < (BlockPattern.make 10 .BLOCKED 0 0)._blocksize) := by
  refine ⟨rfl, rfl, by decide⟩

/-- Claim C33, amended: for every pattern, `underfilled_blocksize` is 0 when
the block size is 0; when the block size is at least 1 it is below the block
size, 0 when the extent is a multiple of the block size and
`block_size - (extent mod block_size)` otherwise, the unsigned subtraction
not wrapping. -/
theorem BlockPattern.underfilled_blocksize_bounds (p : BlockPattern) :
    (p._blocksize = 0 → p.underfilled_blocksize = 0)
    ∧ (1 ≤ p._blocksize →
        p.underfilled_blocksize < p._blocksize
        ∧ p._size % p._blocksize ≤ p._blocksize
        ∧ (p._size % p._blocksize = 0 → p.underfilled_blocksize = 0)
        ∧ (p._size % p._blocksize ≠ 0 →
            p.underfilled_blocksize
              = p._blocksize - p._size % p._blocksize)) := by
  constructor
  · intro h0
    simp [BlockPattern.underfilled_blocksize, h0]
  · intro hb
    have hr : p._size % p._blocksize < p._blocksize := Nat.mod_lt _ hb
    have hb0 : p._blocksize ≠ 0 := by omega
    have hsub : usub p._blocksize (p._size % p._blocksize)
        = p._blocksize - p._size % p._blocksize :=
      usub_of_le (Nat.le_of_lt hr)
    unfold BlockPattern.underfilled_blocksize
    simp only [hb0, false_or, hsub]
    refine ⟨?_, Nat.le_of_lt hr, ?_, ?_⟩
    · split <;> omega
    · intro h
      rw [if_pos h]
    · intro h
      rw [if_neg h]

/-- Witness of C33, amended: `BLOCKED` over 10 elements and 3 units, block
size 4 and 2 elements missing in the last block. -/
theorem BlockPattern.underfilled_blocksize_bounds_witness :
    (BlockPattern.make 10 .BLOCKED 3 0).underfilled_blocksize
        < (BlockPattern.make 10 .BLOCKED 3 0)._blocksize
    ∧ (BlockPattern.make 10 .BLOCKED 3 0).underfilled_blocksize
        = (BlockPattern.make 10 .BLOCKED 3 0)._blocksize
            - (BlockPattern.make 10 .BLOCKED 3 0)._size
                % (BlockPattern.make 10 .BLOCKED 3 0)._blocksize :=
  ⟨((BlockPattern.underfilled_blocksize_bounds
      (BlockPattern.make 10 .BLOCKED 3 0)).2 (by decide)).1,
   ((BlockPattern.underfilled_blocksize_bounds
      (BlockPattern.make 10 .BLOCKED 3 0)).2 (by decide)).2.2.2 (by decide)⟩

/-! ## Proofs: what the calls of a reference leave pending -/

namespace GlobAsyncRef

/-- The value conversion keeps `_gptr` and `_has_changed` and logs nothing or
one blocking get of `_gptr`. -/
theorem operator_T_frame {T : Type} (r : GlobAsyncRef T) (w : World T) :
    (r.operator_T w).2.1._gptr = r._gptr
    ∧ (r.operator_T w).2.1._has_changed = r._has_changed
    ∧ ((r.operator_T w).2.2.log = w.log
        ∨ (r.operator_T w).2.2.log
            = w.log ++ [TransportCall.get_value r._gptr]) := by
  cases hl : r._is_local
  · rw [(operator_T_world r w).2 hl]
    exact ⟨rfl, rfl, Or.inr rfl⟩
  · rw [(operator_T_world r w).1 hl]
    exact ⟨rfl, rfl, Or.inl rfl⟩

/-- Whenever `operator=(v)` returns, it has kept `_gptr`, has not cleared
`_has_changed`, and has logged nothing or one non-blocking put to `_gptr`. -/
theorem operator_assign_frame {T : Type} [DecidableEq T]
    (r : GlobAsyncRef T) (w : World T) (v : T) (r1 : GlobAsyncRef T)
    (w1 : World T) (h : r.operator_assign w v = some (r1, w1)) :
    r1._gptr = r._gptr
    ∧ (r._has_changed = true → r1._has_changed = true)
    ∧ (w1.log = w.log
        ∨ w1.log = w.log ++ [TransportCall.put_value_nonblock v r._gptr]) := by
  unfold operator_assign at h
  by_cases hc : (!r._has_value || r._value != v) = true
  · rw [if_pos hc] at h
    by_cases hl : r._is_local = true
    · simp only [hl, if_true] at h
      cases ha : r._lptr with
      | none => simp [ha] at h
      | some a =>
        simp only [ha, Option.some.injEq, Prod.mk.injEq] at h
        obtain ⟨h1, h2⟩ := h
        subst h1 h2
        exact ⟨rfl, fun _ => rfl, Or.inl rfl⟩
    · simp only [hl, Bool.false_eq_true, if_false, Option.some.injEq,
        Prod.mk.injEq] at h
      obtain ⟨h1, h2⟩ := h
      subst h1 h2
      exact ⟨rfl, fun _ => rfl, Or.inr rfl⟩
  · rw [if_neg hc] at h
    simp only [Option.some.injEq, Prod.mk.injEq] at h
    obtain ⟨h1, h2⟩ := h
    subst h1 h2
    exact ⟨rfl, fun hd => hd, Or.inl rfl⟩

/-- A read followed by a write that returns keeps `_gptr`, does not clear
`_has_changed`, and appends to the log only blocking gets and non-blocking
puts of `_gptr`. -/
theorem read_mutate_write_frame {T : Type} [DecidableEq T] (f : T → T)
    (r : GlobAsyncRef T) (w : World T) (r1 : GlobAsyncRef T) (w1 : World T)
    (h : read_mutate_write f r w = some (r1, w1)) :
    r1._gptr = r._gptr
    ∧ (r._has_changed = true → r1._has_changed = true)
    ∧ ∃ l, w1.log = w.log ++ l
        ∧ ∀ x ∈ l, x = TransportCall.get_value r._gptr
            ∨ ∃ v, x = TransportCall.put_value_nonblock v r._gptr := by
  obtain ⟨t1, t2, t3⟩ := operator_T_frame r w
  obtain ⟨a1, a2, a3⟩ := operator_assign_frame _ _ _ r1 w1 h
  rw [t1] at a1 a3
  rw [t2] at a2
  refine ⟨a1, a2, ?_⟩
  rcases t3 with t3 | t3 <;> rcases a3 with a3 | a3 <;> rw [t3] at a3
  · exact ⟨[], by simpa using a3, by simp⟩
  · exact ⟨[_], a3, by simp⟩
  · exact ⟨[_], a3, by simp⟩
  · refine ⟨[_, _], by simpa using a3, ?_⟩
    intro x hx
    simp only [List.mem_cons, List.mem_singleton, List.not_mem_nil,
      or_false] at hx
    rcases hx with hx | hx
    · exact Or.inl hx
    · exact Or.inr ⟨_, hx⟩

/-- One call that returns keeps `_gptr`, does not clear `_has_changed`, and
appends to the log only blocking gets and non-blocking puts of `_gptr`. -/
theorem call_frame {T : Type} [DecidableEq T] [Add T] [Sub T] [One T]
    (r : GlobAsyncRef T) (w : World T) (c : Call T) (r1 : GlobAsyncRef T)
    (w1 : World T) (h : r.call w c = some (r1, w1)) :
    r1._gptr = r._gptr
    ∧ (r._has_changed = true → r1._has_changed = true)
    ∧ ∃ l, w1.log = w.log ++ l
        ∧ ∀ x ∈ l, x = TransportCall.get_value r._gptr
            ∨ ∃ v, x = TransportCall.put_value_nonblock v r._gptr := by
  have hpost : ∀ (o : Option (GlobAsyncRef T × World T)),
      Option.map (fun y : GlobAsyncRef T × GlobAsyncRef T × World T =>
          (y.2.1, y.2.2)) (Option.map (fun y => (r, y.1, y.2)) o) = o := by
    intro o
    cases o <;> rfl
  cases c with
  | operator_T =>
    simp only [call, Option.some.injEq, Prod.mk.injEq] at h
    obtain ⟨h1, h2⟩ := h
    subst h1 h2
    obtain ⟨t1, t2, t3⟩ := operator_T_frame r w
    refine ⟨t1, fun hd => t2.trans hd, ?_⟩
    rcases t3 with t3 | t3
    · exact ⟨[], by simpa using t3, by simp⟩
    · exact ⟨[_], t3, by simp⟩
  | operator_assign v =>
    obtain ⟨a1, a2, a3⟩ := operator_assign_frame r w v r1 w1 h
    refine ⟨a1, a2, ?_⟩
    rcases a3 with a3 | a3
    · exact ⟨[], by simpa using a3, by simp⟩
    · exact ⟨[_], a3, by simp⟩
  | operator_add_assign x =>
    exact read_mutate_write_frame (fun v => v + x) r w r1 w1 h
  | operator_pre_increment =>
    exact read_mutate_write_frame (fun v => v + 1) r w r1 w1 h
  | operator_post_increment =>
    have h2 : read_mutate_write (fun v => v + 1) r w = some (r1, w1) := by
      rw [← hpost (read_mutate_write (fun v => v + 1) r w)]
      rcases hT : r.operator_T w with ⟨v, r2, w2⟩
      simp only [call, operator_post_increment, hT] at h
      simp only [read_mutate_write, hT]
      cases hA : GlobAsyncRef.operator_assign r2 w2 (v + 1) with
      | none => simp [hA] at h
      | some y => simpa [hA] using h
    exact read_mutate_write_frame (fun v => v + 1) r w r1 w1 h2
  | operator_sub_assign x =>
    exact read_mutate_write_frame (fun v => v - x) r w r1 w1 h
  | operator_pre_decrement =>
    exact read_mutate_write_frame (fun v => v - 1) r w r1 w1 h
  | operator_post_decrement =>
    have h2 : read_mutate_write (fun v => v - 1) r w = some (r1, w1) := by
      rw [← hpost (read_mutate_write (fun v => v - 1) r w)]
      rcases hT : r.operator_T w with ⟨v, r2, w2⟩
      simp only [call, operator_post_decrement, hT] at h
      simp only [read_mutate_write, hT]
      cases hA : GlobAsyncRef.operator_assign r2 w2 (v - 1) with
      | none => simp [hA] at h
      | some y => simpa [hA] using h
    exact read_mutate_write_frame (fun v => v - 1) r w r1 w1 h2

/-- A sequence of calls that returns keeps `_gptr`, does not clear
`_has_changed`, and appends to the log only blocking gets and non-blocking
puts of `_gptr`. -/
theorem calls_frame {T : Type} [DecidableEq T] [Add T] [Sub T] [One T]
    (cs : List (Call T)) :
    ∀ (r : GlobAsyncRef T) (w : World T) (r1 : GlobAsyncRef T)
      (w1 : World T), r.calls w cs = some (r1, w1) →
      r1._gptr = r._gptr
      ∧ (r._has_changed = true → r1._has_changed = true)
      ∧ ∃ l, w1.log = w.log ++ l
          ∧ ∀ x ∈ l, x = TransportCall.get_value r._gptr
              ∨ ∃ v, x = TransportCall.put_value_nonblock v r._gptr := by
  induction cs with
  | nil =>
    intro r w r1 w1 h
    simp only [calls, Option.some.injEq, Prod.mk.injEq] at h
    obtain ⟨h1, h2⟩ := h
    subst h1 h2
    exact ⟨rfl, fun hd => hd, [], by simp, by simp⟩
  | cons c cs ih =>
    intro r w r1 w1 h
    cases hc : r.call w c with
    | none => simp [calls, hc] at h
    | some y =>
      obtain ⟨r2, w2⟩ := y
      simp only [calls, hc] at h
      obtain ⟨c1, c2, l1, c3, c4⟩ := call_frame r w c r2 w2 hc
      obtain ⟨i1, i2, l2, i3, i4⟩ := ih r2 w2 r1 w1 h
      rw [c1] at i1 i4
      refine ⟨i1, fun hd => i2 (c2 hd), l1 ++ l2, ?_, ?_⟩
      · rw [i3, c3, List.append_assoc]
      · intro x hx
        rcases List.mem_append.mp hx with hx | hx
        · exact c4 x hx
        · exact i4 x hx

end GlobAsyncRef

/-- Claim C34, evaluated on the code: the class has no member that completes
pending stores.  After `demo_remote_ref = 123` the reference is dirty and the
one non-blocking put of 123 is pending; whatever sequence of the value
operations of the class follows, the reference stays dirty
(`_has_changed` is never cleared) and the transport is only asked for further
blocking gets and non-blocking puts of the same pointer. -/
theorem GlobAsyncRef.pending_store_stays_pending :
    Option.map (fun y => (y.1._has_changed, y.2.log))
        (demo_remote_ref.operator_assign demo_world 123)
      = some (true, [TransportCall.put_value_nonblock 123 demo_remote_gptr])
    ∧ (∀ (cs : List (GlobAsyncRef.Call Nat)) (r : GlobAsyncRef Nat)
        (w : World Nat) (r1 : GlobAsyncRef Nat) (w1 : World Nat),
        r._has_changed = true → r.calls w cs = some (r1, w1) →
          r1._has_changed = true
          ∧ ∃ l, w1.log = w.log ++ l
              ∧ ∀ x ∈ l, x = TransportCall.get_value r._gptr
                  ∨ ∃ v, x = TransportCall.put_value_nonblock v r._gptr) := by
  refine ⟨rfl, ?_⟩
  intro cs r w r1 w1 hd h
  obtain ⟨_, h2, h3⟩ := GlobAsyncRef.calls_frame cs r w r1 w1 h
  exact ⟨h2 hd, h3⟩

namespace BlockPattern

/-- On a constructed pattern member function `initialize_local_extent(u)`
is, for every unit `u` below `nunits`, the unsigned difference of its general
branch: the special case of one block on one unit returns the same value. -/
theorem make_local_extent_general (size : Nat) (dist : Distribution)
    (nunits myid u : Nat) (hu : u < nunits) :
    (make size dist nunits myid).initialize_local_extent u
      = usub
          (((make size dist nunits myid)._nblocks / nunits)
              * (make size dist nunits myid)._blocksize
            + (if u < (make size dist nunits myid)._nblocks % nunits
               then (make size dist nunits myid)._blocksize else 0))
          (if u =
                (if (make size dist nunits myid)._nblocks % nunits = 0
                 then usub nunits 1
                 else usub ((make size dist nunits myid)._nblocks % nunits) 1)
           then (make size dist nunits myid).underfilled_blocksize
           else 0) := by
  have hn0 : nunits ≠ 0 := by omega
  by_cases hs : (make size dist nunits myid)._nblocks = 1 ∧ nunits = 1
  · have hb : 0 < (make size dist nunits myid)._blocksize := by
      rcases Nat.eq_zero_or_pos (make size dist nunits myid)._blocksize
        with h0 | hpos
      · have hnb : (make size dist nunits myid)._nblocks = 0 := by
          rw [make_nblocks, h0]; rfl
        omega
      · exact hpos
    have hnb := make_nblocks_pos size dist nunits myid hb
    rw [initialize_local_extent_closed _ u hb hnb
      (by rw [make_nunits]; exact hu)]
    simp only [make_size, make_nunits]
    rw [hnb]
    unfold underfilled_blocksize
    simp only [make_size]
    exact (local_extent_arith size _ nunits u hb hu).symm
  · unfold initialize_local_extent
    simp only [make_nunits, make_size]
    rw [if_neg hn0, if_neg hs]

end BlockPattern

/-- Claim C35: The implemented local size equals the specified formula for
every unit and every caller: on every constructed pattern with `nunits ≥ 1`
and for every unit `u` below `nunits`, `initialize_local_extent(u)` is the
formula of the specification evaluated over the integers at the derived
`num_blocks`, `block_size` and `underfilled_blocksize` (the unsigned
subtraction does not wrap); in the special case of one block on one unit the
code returns the extent, which is the value of the formula; and
`local_size(u)` and `local_extents(u)` return this value whether or not `u`
is the calling unit, whichever unit constructed the pattern. -/
theorem BlockPattern.local_size_refines_spec (size : Nat)
    (dist : Distribution) (nunits myid u : Nat) (hu : u < nunits) :
    (((BlockPattern.make size dist nunits myid).initialize_local_extent u
        : Nat) : Int)
      = BlockPattern.local_size_spec
          (BlockPattern.make size dist nunits myid)._nblocks nunits
          (BlockPattern.make size dist nunits myid)._blocksize
          (BlockPattern.make size dist nunits myid).underfilled_blocksize u
    ∧ ((BlockPattern.make size dist nunits myid)._nblocks = 1 ∧ nunits = 1 →
        (BlockPattern.make size dist nunits myid).initialize_local_extent u
          = size
        ∧ BlockPattern.local_size_spec
            (BlockPattern.make size dist nunits myid)._nblocks nunits
            (BlockPattern.make size dist nunits myid)._blocksize
            (BlockPattern.make size dist nunits myid).underfilled_blocksize u
          = (size : Int))
    ∧ (BlockPattern.make size dist nunits myid).local_size u
        = (BlockPattern.make size dist nunits myid).initialize_local_extent u
    ∧ (BlockPattern.make size dist nunits myid).local_extents u
        = [(BlockPattern.make size dist nunits myid).initialize_local_extent u]
    ∧ (∀ myid2,
        (BlockPattern.make size dist nunits myid2).local_size u
          = (BlockPattern.make size dist nunits myid).local_size u) := by
  have hn0 : nunits ≠ 0 := by omega
  have hgen := BlockPattern.make_local_extent_general size dist nunits myid u hu
  have hle := BlockPattern.make_local_extent_no_wrap size dist nunits myid u hu
  rw [BlockPattern.make_nunits] at hle
  have hspec : (((BlockPattern.make size dist nunits myid).initialize_local_extent
        u : Nat) : Int)
      = BlockPattern.local_size_spec
          (BlockPattern.make size dist nunits myid)._nblocks nunits
          (BlockPattern.make size dist nunits myid)._blocksize
          (BlockPattern.make size dist nunits myid).underfilled_blocksize u := by
    rw [hgen, usub_of_le hle, Nat.cast_sub hle]
    unfold BlockPattern.local_size_spec
    have hn1 : usub nunits 1 = nunits - 1 := usub_of_le (by omega)
    have hcond : (u =
          (if (BlockPattern.make size dist nunits myid)._nblocks % nunits = 0
           then usub nunits 1
           else usub
            ((BlockPattern.make size dist nunits myid)._nblocks % nunits) 1))
        ↔ ((u : Int) =
          (if (BlockPattern.make size dist nunits myid)._nblocks % nunits = 0
           then (nunits : Int) - 1
           else (((BlockPattern.make size dist nunits myid)._nblocks % nunits
                  : Nat) : Int) - 1)) := by
      by_cases h0 : (BlockPattern.make size dist nunits myid)._nblocks % nunits
          = 0
      · rw [if_pos h0, if_pos h0, hn1]
        omega
      · rw [if_neg h0, if_neg h0, usub_of_le (by omega)]
        omega
    simp only [hcond]
    push_cast
    rfl
  have hls := BlockPattern.make_local_size size dist nunits myid u
  refine ⟨hspec, ?_, hls, ?_, ?_⟩
  · intro hs
    have h1 : (BlockPattern.make size dist nunits myid).initialize_local_extent u
        = size := by
      unfold BlockPattern.initialize_local_extent
      simp only [BlockPattern.make_nunits, BlockPattern.make_size]
      rw [if_neg hn0, if_pos hs]
    refine ⟨h1, ?_⟩
    rw [← hspec, h1]
  · show [_] = [_]
    congr 1
  · intro myid2
    exact ((BlockPattern.make_myid_irrelevant size dist nunits myid2).1 u).trans
      ((BlockPattern.make_myid_irrelevant size dist nunits myid).1 u).symm

/-- Witness of C35: `BLOCKED` over 10 elements and 3 units, built by unit 0,
asked for unit 2, which owns the underfilled last block. -/
theorem BlockPattern.local_size_refines_spec_witness :
    (((BlockPattern.make 10 .BLOCKED 3 0).initialize_local_extent 2 : Nat)
        : Int)
      = BlockPattern.local_size_spec
          (BlockPattern.make 10 .BLOCKED 3 0)._nblocks 3
          (BlockPattern.make 10 .BLOCKED 3 0)._blocksize
          (BlockPattern.make 10 .BLOCKED 3 0).underfilled_blocksize 2
    ∧ (BlockPattern.make 10 .BLOCKED 3 0).local_size 2
        = (BlockPattern.make 10 .BLOCKED 3 0).initialize_local_extent 2 :=
  ⟨(BlockPattern.local_size_refines_spec 10 .BLOCKED 3 0 2 (by decide)).1,
   (BlockPattern.local_size_refines_spec 10 .BLOCKED 3 0 2
      (by decide)).2.2.1⟩

/-! ## Round trips and order of the index mappings -/

/-- Claim C36: Round trip local -> global -> local: on every constructed
pattern, for every unit `u` below `nunits` and every local index `l` below
`local_size(u)` (which makes the extent, the number of units and the block
size at least 1), the global index `g = global(u, l)` is below the extent,
`unit_at(g) = u` and `local_coords(g) = l`. -/
theorem BlockPattern.local_global_round_trip (size : Nat)
    (dist : Distribution) (nunits myid u l : Nat) (hu : u < nunits)
    (hl : l < (BlockPattern.make size dist nunits myid).local_size u) :
    1 ≤ size ∧ 1 ≤ (BlockPattern.make size dist nunits myid)._blocksize
    ∧ (BlockPattern.make size dist nunits myid).global u l < size
    ∧ (BlockPattern.make size dist nunits myid).unit_at
        ((BlockPattern.make size dist nunits myid).global u l) = u
    ∧ (BlockPattern.make size dist nunits myid).local_coords
        ((BlockPattern.make size dist nunits myid).global u l) = l := by
  obtain ⟨hb, hlt⟩ :=
    BlockPattern.make_global_lt_size size dist nunits myid u l hu hl
  obtain ⟨h1, h2⟩ := BlockPattern.unit_at_local_coords_global
    (BlockPattern.make size dist nunits myid) u l hb
    (by rw [BlockPattern.make_nunits]; exact hu)
  exact ⟨by omega, hb, hlt, h1, h2⟩

/-- Witness of C36: `BLOCKCYCLIC(2)` over 10 elements and 3 units, unit 1,
whose local index 3 is the global index 9. -/
theorem BlockPattern.local_global_round_trip_witness :
    (BlockPattern.make 10 (.BLOCKCYCLIC 2) 3 0).global 1 3 < 10
    ∧ (BlockPattern.make 10 (.BLOCKCYCLIC 2) 3 0).unit_at
        ((BlockPattern.make 10 (.BLOCKCYCLIC 2) 3 0).global 1 3) = 1
    ∧ (BlockPattern.make 10 (.BLOCKCYCLIC 2) 3 0).local_coords
        ((BlockPattern.make 10 (.BLOCKCYCLIC 2) 3 0).global 1 3) = 3 :=
  (BlockPattern.local_global_round_trip 10 (.BLOCKCYCLIC 2) 3 0 1 3
    (by decide) (by decide)).2.2

/-- Claim C37: Local indices stay inside the owner's local storage: on every
constructed pattern with `nunits ≥ 1` and block size at least 1, for every
global index `g` below the extent, `local_coords(g)`, which is also `at(g)`
and the index of `local(g)` and of `local_index(g)`, is below
`local_size(unit_at(g))`, hence below `local_capacity`, and `unit_at(g)`,
the unit of `local(g)`, is below `nunits`. -/
theorem BlockPattern.local_coords_in_bounds (size : Nat)
    (dist : Distribution) (nunits myid g : Nat) (hn : 1 ≤ nunits)
    (hb : 1 ≤ (BlockPattern.make size dist nunits myid)._blocksize)
    (hg : g < size) :
    (BlockPattern.make size dist nunits myid).local_coords g
      < (BlockPattern.make size dist nunits myid).local_size
          ((BlockPattern.make size dist nunits myid).unit_at g)
    ∧ (BlockPattern.make size dist nunits myid).at_ g
        = (BlockPattern.make size dist nunits myid).local_coords g
    ∧ (BlockPattern.make size dist nunits myid).local_ g
        = ((BlockPattern.make size dist nunits myid).unit_at g,
           (BlockPattern.make size dist nunits myid).local_coords g)
    ∧ (BlockPattern.make size dist nunits myid).local_index g
        = (BlockPattern.make size dist nunits myid).local_ g
    ∧ (∀ v : Int,
        (BlockPattern.make size dist nunits myid).local_coords g
          < (BlockPattern.make size dist nunits myid).local_capacity v)
    ∧ (BlockPattern.make size dist nunits myid).unit_at g < nunits := by
  have hun : (BlockPattern.make size dist nunits myid).unit_at g < nunits :=
    Nat.mod_lt _ hn
  have hlt := BlockPattern.make_local_coords_lt size dist nunits myid g hb hn hg
  have hcap := BlockPattern.make_local_size_le_capacity size dist nunits myid
    _ hun
  refine ⟨hlt, rfl, rfl, rfl, ?_, hun⟩
  intro _
  exact Nat.lt_of_lt_of_le hlt hcap

/-- Witness of C37: `BLOCKED` over 10 elements and 3 units, the last global
index 9, which is the local index 1 of unit 2. -/
theorem BlockPattern.local_coords_in_bounds_witness :
    (BlockPattern.make 10 .BLOCKED 3 0).local_coords 9
      < (BlockPattern.make 10 .BLOCKED 3 0).local_size
          ((BlockPattern.make 10 .BLOCKED 3 0).unit_at 9)
    ∧ (BlockPattern.make 10 .BLOCKED 3 0).unit_at 9 < 3 :=
  ⟨(BlockPattern.local_coords_in_bounds 10 .BLOCKED 3 0 9 (by decide)
      (by decide) (by decide)).1,
   (BlockPattern.local_coords_in_bounds 10 .BLOCKED 3 0 9 (by decide)
      (by decide) (by decide)).2.2.2.2.2⟩

/-- Claim C38: The local order is the global order: in a pattern with at
least one unit and block size at least 1, `global(u, ·)` is strictly
increasing for every unit `u` below `nunits` (in particular on the local
indices below `local_size(u)`); for global indices `g1 < g2` of the same
unit, `local_coords(g1) < local_coords(g2)`; and two global indices of one
unit with the same local index are equal. -/
theorem BlockPattern.local_order_is_global_order (p : BlockPattern)
    (hn : 1 ≤ p._nunits) (hb : 1 ≤ p._blocksize) :
    (∀ u l1 l2, u < p._nunits → l1 < l2 → p.global u l1 < p.global u l2)
    ∧ (∀ g1 g2, g1 < g2 → p.unit_at g1 = p.unit_at g2 →
        p.local_coords g1 < p.local_coords g2)
    ∧ (∀ g1 g2, p.unit_at g1 = p.unit_at g2 →
        p.local_coords g1 = p.local_coords g2 → g1 = g2) := by
  have hinj : ∀ g1 g2, p.unit_at g1 = p.unit_at g2 →
      p.local_coords g1 = p.local_coords g2 → g1 = g2 := by
    intro g1 g2 hu hl
    have h1 := BlockPattern.global_of_local_coords p g1 hn hb
    have h2 := BlockPattern.global_of_local_coords p g2 hn hb
    rw [hu, hl] at h1
    exact h1.symm.trans h2
  refine ⟨?_, ?_, hinj⟩
  · intro u l1 l2 hu h
    exact BlockPattern.global_lt_global p u l1 l2 hb hu h
  · intro g1 g2 hlt hu
    by_contra hnot
    have hge : p.local_coords g2 ≤ p.local_coords g1 := Nat.le_of_not_lt hnot
    have hun : p.unit_at g2 < p._nunits := Nat.mod_lt _ hn
    have hmono := BlockPattern.global_le_global p (p.unit_at g2)
      (p.local_coords g2) (p.local_coords g1) hb hun hge
    have h1 := BlockPattern.global_of_local_coords p g1 hn hb
    have h2 := BlockPattern.global_of_local_coords p g2 hn hb
    rw [hu] at h1
    omega

/-- Witness of C38: `BLOCKCYCLIC(2)` over 10 elements and 3 units: the local
indices 1 and 2 of unit 1 are the global indices 3 and 8. -/
theorem BlockPattern.local_order_is_global_order_witness :
    (BlockPattern.make 10 (.BLOCKCYCLIC 2) 3 0).global 1 1
      < (BlockPattern.make 10 (.BLOCKCYCLIC 2) 3 0).global 1 2
    ∧ (BlockPattern.make 10 (.BLOCKCYCLIC 2) 3 0).local_coords 3
      < (BlockPattern.make 10 (.BLOCKCYCLIC 2) 3 0).local_coords 8 :=
  ⟨(BlockPattern.local_order_is_global_order
      (BlockPattern.make 10 (.BLOCKCYCLIC 2) 3 0) (by decide)
      (by decide)).1 1 1 2 (by decide) (by decide),
   (BlockPattern.local_order_is_global_order
      (BlockPattern.make 10 (.BLOCKCYCLIC 2) 3 0) (by decide)
      (by decide)).2.1 3 8 (by decide) (by decide)⟩

/-! ## `BLOCKED`: the local range -/

namespace BlockPattern

/-- A `BLOCKED` pattern over a non-empty extent has a positive block size and
gives no unit more than one block. -/
theorem make_blocked_local_size_le (size nunits myid u : Nat) (hs : 0 < size)
    (hu : u < nunits) :
    0 < (make size .BLOCKED nunits myid)._blocksize
    ∧ (make size .BLOCKED nunits myid).local_size u
        ≤ (make size .BLOCKED nunits myid)._blocksize := by
  have hn0 : nunits ≠ 0 := by omega
  have hbs : (make size .BLOCKED nunits myid)._blocksize
      = math.div_ceil size nunits := by
    show initialize_blocksize size .BLOCKED nunits = _
    simp [initialize_blocksize, hn0, Distribution.max_blocksize_in_range]
  have hbpos := (div_ceil_bounds size nunits hs (by omega)).1
  have hb : 0 < (make size .BLOCKED nunits myid)._blocksize := by
    rw [hbs]; exact hbpos
  refine ⟨hb, ?_⟩
  rw [make_local_size_closed size .BLOCKED nunits myid u hb hu, hbs,
    blocked_arith size nunits u hs hu]
  exact Nat.min_le_left _ _

/-- Inside the first block of a unit, `global(u, l)` is `u * blocksize + l`. -/
theorem global_first_block (p : BlockPattern) (u l : Nat)
    (hu : u < p._nunits) (hl : l < p._blocksize) :
    p.global u l = u * p._blocksize + l := by
  rw [global_eq p u l hu, Nat.div_eq_of_lt hl, Nat.mod_eq_of_lt hl,
    Nat.zero_mul, Nat.zero_add]

end BlockPattern

/-- Claim C39: For `BLOCKED` distribution the local range is exactly the
calling unit's elements: on every `BLOCKED` pattern constructed by a unit
`myid` below `nunits`, `lbegin + local_size(myid) = lend` (so
`lend - lbegin = local_size(myid)`), a global index `g` below the extent is
local to `myid` (`is_local(g, myid)`, which is `is_local(g)`) exactly when
`lbegin ≤ g < lend`, and `lbegin = myid * block_size` when
`local_size(myid) > 0`. -/
theorem BlockPattern.blocked_local_range (size nunits myid : Nat)
    (hm : myid < nunits) :
    (BlockPattern.make size .BLOCKED nunits myid).lbegin
        + (BlockPattern.make size .BLOCKED nunits myid).local_size myid
      = (BlockPattern.make size .BLOCKED nunits myid).lend
    ∧ (BlockPattern.make size .BLOCKED nunits myid).lend
        - (BlockPattern.make size .BLOCKED nunits myid).lbegin
      = (BlockPattern.make size .BLOCKED nunits myid).local_size myid
    ∧ (∀ g, g < size →
        ((BlockPattern.make size .BLOCKED nunits myid).is_local g myid = true
          ↔ (BlockPattern.make size .BLOCKED nunits myid).lbegin ≤ g
            ∧ g < (BlockPattern.make size .BLOCKED nunits myid).lend)
        ∧ (BlockPattern.make size .BLOCKED nunits myid).is_local_myid g
          = (BlockPattern.make size .BLOCKED nunits myid).is_local g myid)
    ∧ (0 < (BlockPattern.make size .BLOCKED nunits myid).local_size myid →
        (BlockPattern.make size .BLOCKED nunits myid).lbegin
          = myid * (BlockPattern.make size .BLOCKED nunits myid)._blocksize) := by
  obtain ⟨hrange, hls⟩ :=
    BlockPattern.make_lbegin_lend size .BLOCKED nunits myid
  have hmu : myid < (BlockPattern.make size .BLOCKED nunits myid)._nunits := by
    rw [BlockPattern.make_nunits]; exact hm
  have hloc : ∀ g,
      ((BlockPattern.make size .BLOCKED nunits myid).is_local g myid = true
        ↔ (BlockPattern.make size .BLOCKED nunits myid).unit_at g = myid) := by
    intro g
    simp [BlockPattern.is_local]
  have key :
      (BlockPattern.make size .BLOCKED nunits myid).lbegin
          + (BlockPattern.make size .BLOCKED nunits myid).local_size myid
        = (BlockPattern.make size .BLOCKED nunits myid).lend
      ∧ (∀ g, g < size →
          ((BlockPattern.make size .BLOCKED nunits myid).unit_at g = myid
            ↔ (BlockPattern.make size .BLOCKED nunits myid).lbegin ≤ g
              ∧ g < (BlockPattern.make size .BLOCKED nunits myid).lend))
      ∧ (0 < (BlockPattern.make size .BLOCKED nunits myid).local_size myid →
          (BlockPattern.make size .BLOCKED nunits myid).lbegin
            = myid
              * (BlockPattern.make size .BLOCKED nunits myid)._blocksize) := by
    by_cases h0 : (BlockPattern.make size .BLOCKED nunits myid)._local_size = 0
    · have hb0 : (BlockPattern.make size .BLOCKED nunits myid).lbegin = 0 := by
        unfold BlockPattern.lbegin
        rw [hrange, h0]
        rfl
      have he0 : (BlockPattern.make size .BLOCKED nunits myid).lend = 0 := by
        unfold BlockPattern.lend
        rw [hrange, h0]
        rfl
      rw [hb0, he0, ← hls, h0]
      refine ⟨rfl, ?_, ?_⟩
      · intro g hg
        constructor
        · intro hown
          have hb := (BlockPattern.make_blocked_local_size_le size nunits myid
            myid (by omega) hm).1
          have hlt := BlockPattern.make_local_coords_lt size .BLOCKED nunits
            myid g hb (by omega) hg
          rw [hown, ← hls, h0] at hlt
          omega
        · intro h
          omega
      · intro h
        omega
    · have hpos : 0
          < (BlockPattern.make size .BLOCKED nunits myid).local_size myid := by
        rw [← hls]; omega
      obtain ⟨hb, hfirst⟩ := BlockPattern.make_global_lt_size size .BLOCKED
        nunits myid myid 0 hm hpos
      have hle := (BlockPattern.make_blocked_local_size_le size nunits myid
        myid (by omega) hm).2
      rw [← hls] at hle
      have hbegin : (BlockPattern.make size .BLOCKED nunits myid).lbegin
          = myid * (BlockPattern.make size .BLOCKED nunits myid)._blocksize := by
        unfold BlockPattern.lbegin
        rw [hrange]
        unfold BlockPattern.initialize_local_range
        rw [if_neg h0, BlockPattern.make_myid,
          BlockPattern.global_first_block _ myid 0 hmu hb]
        rfl
      have hend : (BlockPattern.make size .BLOCKED nunits myid).lend
          = myid * (BlockPattern.make size .BLOCKED nunits myid)._blocksize
            + (BlockPattern.make size .BLOCKED nunits myid)._local_size := by
        unfold BlockPattern.lend
        rw [hrange]
        unfold BlockPattern.initialize_local_range
        rw [if_neg h0, BlockPattern.make_myid, usub_of_le (by omega)]
        show (BlockPattern.make size .BLOCKED nunits myid).global myid
            ((BlockPattern.make size .BLOCKED nunits myid)._local_size - 1)
            + 1 = _
        rw [BlockPattern.global_first_block _ myid
          ((BlockPattern.make size .BLOCKED nunits myid)._local_size - 1)
          hmu (by omega)]
        omega
      rw [hbegin, hend, ← hls]
      refine ⟨rfl, ?_, fun _ => rfl⟩
      intro g hg
      constructor
      · intro hown
        have hlt := BlockPattern.make_local_coords_lt size .BLOCKED nunits
          myid g hb (by omega) hg
        rw [hown, ← hls] at hlt
        have hback := BlockPattern.global_of_local_coords
          (BlockPattern.make size .BLOCKED nunits myid) g (by omega) hb
        rw [hown, BlockPattern.global_first_block _ myid _ hmu (by omega)]
          at hback
        omega
      · intro hin
        have hl : g
            - myid * (BlockPattern.make size .BLOCKED nunits myid)._blocksize
            < (BlockPattern.make size .BLOCKED nunits myid)._blocksize := by
          omega
        have hglob := BlockPattern.global_first_block
          (BlockPattern.make size .BLOCKED nunits myid) myid _ hmu hl
        have hg2 : (BlockPattern.make size .BLOCKED nunits myid).global myid
            (g - myid
              * (BlockPattern.make size .BLOCKED nunits myid)._blocksize)
            = g := by
          rw [hglob]; omega
        have hun := (BlockPattern.unit_at_local_coords_global
          (BlockPattern.make size .BLOCKED nunits myid) myid
          (g - myid
            * (BlockPattern.make size .BLOCKED nunits myid)._blocksize)
          hb hmu).1
        rw [hg2] at hun
        exact hun
  obtain ⟨k1, k2, k3⟩ := key
  refine ⟨k1, by omega, ?_, k3⟩
  intro g hg
  refine ⟨(hloc g).trans (k2 g hg), ?_⟩
  show (BlockPattern.make size .BLOCKED nunits myid).is_local g
      (BlockPattern.make size .BLOCKED nunits myid)._myid = _
  rw [BlockPattern.make_myid]

/-- Witness of C39: `BLOCKED` over 10 elements and 3 units, built by unit 2,
which owns `[8, 10)`. -/
theorem BlockPattern.blocked_local_range_witness :
    (BlockPattern.make 10 .BLOCKED 3 2).lend
        - (BlockPattern.make 10 .BLOCKED 3 2).lbegin
      = (BlockPattern.make 10 .BLOCKED 3 2).local_size 2
    ∧ (BlockPattern.make 10 .BLOCKED 3 2).lbegin
      = 2 * (BlockPattern.make 10 .BLOCKED 3 2)._blocksize :=
  ⟨(BlockPattern.blocked_local_range 10 3 2 (by decide)).2.1,
   (BlockPattern.blocked_local_range 10 3 2 (by decide)).2.2.2 (by decide)⟩

/-! ## Proofs: coherence of a local asynchronous reference -/

namespace GlobAsyncRef

/-- In the coherent state the value conversion returns the content of the
cell and changes nothing. -/
theorem coherent_operator_T {T : Type} (r : GlobAsyncRef T) (w : World T)
    (a : Nat) (h : r.coherent w a) :
    r.operator_T w = (w.local_mem a, r, w) := by
  obtain ⟨hl, _, _, hv⟩ := h
  rw [(operator_T_world r w).1 hl, hv]

/-- In the coherent state `operator=(v)` returns, leaves the reference
coherent with `v` in the cell, and issues no transport call. -/
theorem coherent_operator_assign {T : Type} [DecidableEq T]
    (r : GlobAsyncRef T) (w : World T) (a : Nat) (v : T)
    (h : r.coherent w a) :
    ∃ r1 w1, r.operator_assign w v = some (r1, w1) ∧ r1.coherent w1 a
      ∧ w1.local_mem a = v ∧ w1.log = w.log := by
  obtain ⟨hl, hk, ha, hv⟩ := h
  unfold operator_assign
  by_cases hc : (!r._has_value || r._value != v) = true
  · rw [if_pos hc]
    simp only [hl, if_true, ha]
    refine ⟨_, _, rfl, ⟨rfl, rfl, rfl, ?_⟩, ?_, rfl⟩
    · simp
    · simp
  · rw [if_neg hc]
    have hsame : r._value = v := by
      simp only [hk, Bool.not_true, Bool.false_or, bne_iff_ne, ne_eq,
        not_not] at hc
      exact hc
    refine ⟨r, w, rfl, ⟨hl, hk, ha, hv⟩, ?_, rfl⟩
    rw [← hv, hsame]

/-- Every call on a coherent reference returns, leaves it coherent and
issues no transport call. -/
theorem coherent_call {T : Type} [DecidableEq T] [Add T] [Sub T] [One T]
    (r : GlobAsyncRef T) (w : World T) (a : Nat) (c : Call T)
    (h : r.coherent w a) :
    ∃ r1 w1, r.call w c = some (r1, w1) ∧ r1.coherent w1 a
      ∧ w1.log = w.log := by
  have hT := coherent_operator_T r w a h
  have hA := fun v => coherent_operator_assign r w a v h
  cases c with
  | operator_T =>
    refine ⟨r, w, ?_, h, rfl⟩
    simp only [call, hT]
  | operator_assign v =>
    obtain ⟨r1, w1, h1, h2, _, h3⟩ := hA v
    exact ⟨r1, w1, h1, h2, h3⟩
  | operator_add_assign x =>
    obtain ⟨r1, w1, h1, h2, _, h3⟩ := hA (w.local_mem a + x)
    refine ⟨r1, w1, ?_, h2, h3⟩
    simp only [call, operator_add_assign, hT]
    exact h1
  | operator_pre_increment =>
    obtain ⟨r1, w1, h1, h2, _, h3⟩ := hA (w.local_mem a + 1)
    refine ⟨r1, w1, ?_, h2, h3⟩
    simp only [call, operator_pre_increment, hT]
    exact h1
  | operator_post_increment =>
    obtain ⟨r1, w1, h1, h2, _, h3⟩ := hA (w.local_mem a + 1)
    refine ⟨r1, w1, ?_, h2, h3⟩
    simp only [call, operator_post_increment, hT, h1]
    rfl
  | operator_sub_assign x =>
    obtain ⟨r1, w1, h1, h2, _, h3⟩ := hA (w.local_mem a - x)
    refine ⟨r1, w1, ?_, h2, h3⟩
    simp only [call, operator_sub_assign, hT]
    exact h1
  | operator_pre_decrement =>
    obtain ⟨r1, w1, h1, h2, _, h3⟩ := hA (w.local_mem a - 1)
    refine ⟨r1, w1, ?_, h2, h3⟩
    simp only [call, operator_pre_decrement, hT]
    exact h1
  | operator_post_decrement =>
    obtain ⟨r1, w1, h1, h2, _, h3⟩ := hA (w.local_mem a - 1)
    refine ⟨r1, w1, ?_, h2, h3⟩
    simp only [call, operator_post_decrement, hT, h1]
    rfl

/-- Every sequence of calls on a coherent reference returns, leaves it
coherent and issues no transport call. -/
theorem coherent_calls {T : Type} [DecidableEq T] [Add T] [Sub T] [One T]
    (a : Nat) (cs : List (Call T)) :
    ∀ (r : GlobAsyncRef T) (w : World T), r.coherent w a →
      ∃ r1 w1, r.calls w cs = some (r1, w1) ∧ r1.coherent w1 a
        ∧ w1.log = w.log := by
  induction cs with
  | nil =>
    intro r w h
    exact ⟨r, w, rfl, h, rfl⟩
  | cons c cs ih =>
    intro r w h
    obtain ⟨r1, w1, h1, h2, h3⟩ := coherent_call r w a c h
    obtain ⟨r2, w2, h4, h5, h6⟩ := ih r1 w1 h2
    refine ⟨r2, w2, ?_, h5, h6.trans h3⟩
    simp only [calls, h1]
    exact h4

end GlobAsyncRef

/-- Claim C40: Cache coherence of a local asynchronous reference: a
reference constructed from a local address `a`, or from a global pointer
that is local at address `a`, is in the state known with the content of the
cell cached; every sequence of reads, writes and compound operations on it
returns and leaves it in the state known with the cached value equal to the
content of the cell, a read then returns that content, and no transport call
was issued.  The cell is modified by these calls only. -/
theorem GlobAsyncRef.local_reference_coherent {T : Type} [DecidableEq T]
    [Add T] [Sub T] [One T] (w : World T) (a : Nat)
    (cs : List (GlobAsyncRef.Call T)) :
    (∃ r0 r1 w1,
      GlobAsyncRef.of_lptr w (some a) = some (r0, w)
      ∧ r0.coherent w a
      ∧ r0.calls w cs = some (r1, w1)
      ∧ r1._has_value = true
      ∧ r1._value = w1.local_mem a
      ∧ (r1.operator_T w1).1 = w1.local_mem a
      ∧ w1.log = w.log)
    ∧ (∀ (uninit : T) (gptr : dart_gptr_t), w.to_lptr gptr = some a →
        ∃ r1 w1,
          (GlobAsyncRef.of_gptr uninit w gptr).2 = w
          ∧ (GlobAsyncRef.of_gptr uninit w gptr).1.coherent w a
          ∧ (GlobAsyncRef.of_gptr uninit w gptr).1.calls w cs = some (r1, w1)
          ∧ r1._has_value = true
          ∧ r1._value = w1.local_mem a
          ∧ (r1.operator_T w1).1 = w1.local_mem a
          ∧ w1.log = w.log) := by
  constructor
  · have h0 : GlobAsyncRef.coherent
        { _value := w.local_mem a, _gptr := DART_GPTR_NULL, _lptr := some a,
          _has_changed := false, _is_local := true, _has_value := true }
        w a := ⟨rfl, rfl, rfl, rfl⟩
    obtain ⟨r1, w1, h1, h2, h3⟩ := GlobAsyncRef.coherent_calls a cs _ w h0
    refine ⟨_, r1, w1, rfl, h0, h1, h2.2.1, h2.2.2.2, ?_, h3⟩
    rw [GlobAsyncRef.coherent_operator_T r1 w1 a h2]
  · intro uninit gptr hg
    have hr : GlobAsyncRef.of_gptr uninit w gptr
        = ({ _value := w.local_mem a, _gptr := gptr, _lptr := some a,
             _has_changed := false, _is_local := true, _has_value := true },
           w) := by
      unfold GlobAsyncRef.of_gptr GlobPtr.is_local GlobRef.operator_T
      simp [hg]
    have h0 : (GlobAsyncRef.of_gptr uninit w gptr).1.coherent w a := by
      rw [hr]
      exact ⟨rfl, rfl, rfl, rfl⟩
    obtain ⟨r1, w1, h1, h2, h3⟩ := GlobAsyncRef.coherent_calls a cs _ w h0
    refine ⟨r1, w1, by rw [hr], h0, h1, h2.2.1, h2.2.2.2, ?_, h3⟩
    rw [GlobAsyncRef.coherent_operator_T r1 w1 a h2]

end dash
